import Mathlib

/-!
# WebBriefer: content extraction and heuristic text analysis

A shallow embedding of `src/content.js` (class `WebBrieferContentExtractor`).

JavaScript strings are sequences of UTF-16 code units; they are modelled as lists of
natural numbers (`JSString`), one number per code unit, so that `length`, the regular
expression classes `\s`, `\w`, `\b` and `[a-z]` and `String.prototype.includes` have
their exact code-unit meaning.  The DOM is modelled as a finite tree of text and
element nodes with `textContent` and `querySelectorAll` for the selectors the
extractor uses.
-/

namespace WebBriefer

/-! ## JavaScript strings -/

/-- A JavaScript string: the list of its UTF-16 code units. -/
abbrev JSString := List Nat

/-- UTF-16 encoding of one Unicode scalar value. -/
def utf16Char (c : Char) : List Nat :=
  if c.toNat < 65536 then [c.toNat]
  else [55296 + (c.toNat - 65536) / 1024, 56320 + (c.toNat - 65536) % 1024]

/-- The JavaScript string denoted by a string literal. -/
def utf16 (s : String) : JSString := s.toList.flatMap utf16Char

/-- The regular expression class `\s`, which is also the set of code units removed by
`String.prototype.trim` (WhiteSpace and LineTerminator of ECMAScript). -/
def isSpace (u : Nat) : Bool :=
  u == 9 || u == 10 || u == 11 || u == 12 || u == 13 || u == 32 || u == 160 ||
  u == 5760 || (8192 ≤ u && u ≤ 8202) || u == 8232 || u == 8233 || u == 8239 ||
  u == 8287 || u == 12288 || u == 65279

/-- The regular expression class `\w` (without the `u` flag): `[A-Za-z0-9_]`. -/
def isWordChar (u : Nat) : Bool :=
  (97 ≤ u && u ≤ 122) || (65 ≤ u && u ≤ 90) || (48 ≤ u && u ≤ 57) || u == 95

/-- The class `[a-z]`. -/
def isLowerAlpha (u : Nat) : Bool := 97 ≤ u && u ≤ 122

/-- The class `[aeiouy]`. -/
def isVowel (u : Nat) : Bool :=
  u == 97 || u == 101 || u == 105 || u == 111 || u == 117 || u == 121

/-- The class `[.!?]`. -/
def isSentenceEnd (u : Nat) : Bool := u == 46 || u == 33 || u == 63

/-- `String.prototype.toLowerCase` on one code unit.  `A`..`Z` go to `a`..`z`, the
Kelvin sign U+212A goes to `k` and U+0130 goes to `i` followed by U+0307: these are the
only code units whose lower-case form contains an ASCII unit.  Every other unit is left
as it is; the real function may change it to other non-ASCII, non-whitespace units,
which no test made by the extractor (ASCII substrings, `\s`, `[a-z]`) tells apart. -/
def lowerUnit (u : Nat) : List Nat :=
  if 65 ≤ u && u ≤ 90 then [u + 32]
  else if u == 8490 then [107]
  else if u == 304 then [105, 775]
  else [u]

/-- `String.prototype.toLowerCase`. -/
def toLowerCase (s : JSString) : JSString := s.flatMap lowerUnit

/-- The test `s.startsWith(p)`, as a function returning what follows `p` in `s`. -/
def stripStart : JSString → JSString → Option JSString
  | [], s => some s
  | _ :: _, [] => none
  | p :: ps, c :: cs => if p = c then stripStart ps cs else none

/-- `String.prototype.includes`: `p` occurs in `s` as a contiguous substring. -/
def includes (s p : JSString) : Bool :=
  match s with
  | [] => (stripStart p []).isSome
  | c :: cs => (stripStart p (c :: cs)).isSome || includes cs p

/-- `text.replace(/\s+/g, ' ')`, scanning left to right; the flag records that the
previous code unit belonged to the whitespace run already replaced. -/
def collapseFrom : Bool → JSString → JSString
  | _, [] => []
  | inRun, c :: cs =>
    if isSpace c then
      if inRun then collapseFrom true cs else 32 :: collapseFrom true cs
    else c :: collapseFrom false cs

/-- `text.replace(/\s+/g, ' ')`: every maximal run of whitespace becomes one space. -/
def collapseWhitespace (s : JSString) : JSString := collapseFrom false s

/-- `String.prototype.trim`. -/
def trim (s : JSString) : JSString :=
  ((s.dropWhile isSpace).reverse.dropWhile isSpace).reverse

/-! ## The noise-phrase pattern
`/\b(Advertisement|Sponsored|Click here|Read more|Continue reading)\b/gi` -/

/-- The alternatives of the noise pattern, in the order of the source. -/
def noisePhrases : List JSString :=
  [utf16 "Advertisement", utf16 "Sponsored", utf16 "Click here", utf16 "Read more",
   utf16 "Continue reading"]

/-- Case canonicalisation of the `i` flag (without `u`): a code unit is compared through
its upper-case form, and a non-ASCII unit is never identified with an ASCII one, so on
the ASCII pattern only `a`..`z` and `A`..`Z` are identified. -/
def canonicalize (u : Nat) : Nat := if 97 ≤ u && u ≤ 122 then u - 32 else u

/-- Match the literal `p` case-insensitively at the start of `s`; the result is what
follows the match. -/
def matchLiteral : JSString → JSString → Option JSString
  | [], s => some s
  | _ :: _, [] => none
  | p :: ps, c :: cs => if canonicalize p = canonicalize c then matchLiteral ps cs else none

/-- Whether the position before an optional code unit counts as "inside a word". -/
def isWordAt : Option Nat → Bool
  | none => false
  | some u => isWordChar u

/-- The assertion `\b` between the code unit `before` and the code unit `after`. -/
def wordBoundary (before after : Option Nat) : Bool := isWordAt before != isWordAt after

/-- Try the noise pattern at the start of `s`, where `before` is the code unit that
precedes `s` in the subject string.  The result is the length of the match. -/
def matchNoiseAt (before : Option Nat) (s : JSString) : Option Nat :=
  if wordBoundary before s.head? then
    noisePhrases.findSome? fun p =>
      match matchLiteral p s with
      | some rest => if wordBoundary p.getLast? rest.head? then some p.length else none
      | none => none
  else none

/-- The global replacement of the noise pattern by the empty string.  The first
argument is the number of code units of the current match still to be dropped, the
second the code unit before the current position. -/
def removeNoiseFrom : Nat → Option Nat → JSString → JSString
  | _, _, [] => []
  | k + 1, _, c :: cs => removeNoiseFrom k (some c) cs
  | 0, before, c :: cs =>
    match matchNoiseAt before (c :: cs) with
    | some n => removeNoiseFrom (n - 1) (some c) cs
    | none => c :: removeNoiseFrom 0 (some c) cs

/-- `text.replace(/\b(Advertisement|...)\b/gi, '')`. -/
def removeNoise (s : JSString) : JSString := removeNoiseFrom 0 none s

/-- The clean-up of `extractCleanText` applied to the text of an element:
`text.replace(/\s+/g, ' ').trim()` followed by the removal of the noise phrases. -/
def normalize (text : JSString) : JSString :=
  removeNoise (trim (collapseWhitespace text))

/-! ## The document tree -/

/-- What the extractor reads of an element: its local name in lower case, its `id`
property (empty when there is no `id` attribute), its class list, its other attributes,
and the resolved `href` property of an HTML anchor. -/
structure ElemInfo where
  tag : String
  id : JSString
  classes : List String
  attrs : List (String × JSString)
  href : JSString

/-- A DOM node: character data or an element with its children in document order.  The
document itself is the root element node of the tree; selectors are only ever matched
against its descendants. -/
inductive Node where
  | text (data : JSString)
  | elem (info : ElemInfo) (children : List Node)

/-- A simple selector: `p`, `.quote`, `[role="main"]`, `a[href]`. -/
inductive Simple where
  | tag (t : String)
  | cls (c : String)
  | attrEq (k : String) (v : JSString)
  | tagAttr (t k : String)

/-- A selector list such as `blockquote, q, .quote`. -/
abbrev Selector := List Simple

/-- Whether an element matches a simple selector. -/
def ElemInfo.matchesSimple (e : ElemInfo) : Simple → Bool
  | .tag t => e.tag == t
  | .cls c => e.classes.contains c
  | .attrEq k v => e.attrs.any fun a => a.1 == k && a.2 == v
  | .tagAttr t k => e.tag == t && e.attrs.any fun a => a.1 == k

/-- Whether a node is an element matching one of the selectors of the list. -/
def Node.matchesSel (sel : Selector) : Node → Bool
  | .text _ => false
  | .elem e _ => sel.any e.matchesSimple

/-- The `id` property of a node. -/
def Node.id : Node → JSString
  | .text _ => []
  | .elem e _ => e.id

/-- The `href` property of a node. -/
def Node.href : Node → JSString
  | .text _ => []
  | .elem e _ => e.href

/-- The `tagName.toLowerCase()` of a node. -/
def Node.tagLower : Node → String
  | .text _ => ""
  | .elem e _ => e.tag

/-- The `textContent` of a node: the concatenation, in document order, of the data of
all text nodes below it. -/
def Node.textContent : Node → JSString
  | .text d => d
  | .elem _ cs => go cs
where
  /-- The concatenated `textContent` of a list of siblings. -/
  go : List Node → JSString
    | [] => []
    | c :: cs => c.textContent ++ go cs

/-- The nodes strictly below a node, in document order, each paired with its parent. -/
def Node.family : Node → List (Node × Node)
  | .text _ => []
  | .elem e cs => go (.elem e cs) cs
where
  /-- The family of a list of siblings with the given parent. -/
  go (parent : Node) : List Node → List (Node × Node)
    | [] => []
    | c :: cs => (c, parent) :: c.family ++ go parent cs

/-- `root.querySelectorAll(sel)`, each match paired with its `parentElement`. -/
def querySelectorAllWithParent (root : Node) (sel : Selector) : List (Node × Node) :=
  root.family.filter fun p => p.1.matchesSel sel

/-- `root.querySelectorAll(sel)`: the matching descendants in document order. -/
def querySelectorAll (root : Node) (sel : Selector) : List Node :=
  (querySelectorAllWithParent root sel).map Prod.fst

/-- `root.querySelector(sel)`: the first matching descendant, or `null`. -/
def querySelector (root : Node) (sel : Selector) : Option Node :=
  (querySelectorAll root sel).head?

/-- The effect of `root.querySelectorAll(sel).forEach(el => el.remove())`: every
descendant matching `sel` is detached together with its subtree. -/
def Node.removeAll (sel : Selector) : Node → Node
  | .text d => .text d
  | .elem e cs => .elem e (go cs)
where
  /-- Removal in a list of siblings. -/
  go : List Node → List Node
    | [] => []
    | c :: cs => if c.matchesSel sel then go cs else c.removeAll sel :: go cs

/-- `xs.forEach((x, index) => body)` where the body updates the array `acc`. -/
def forEachIdx {α β : Type} (xs : List α) (body : List β → α → Nat → List β)
    (acc : List β) : List β :=
  xs.enum.foldl (fun acc p => body acc p.2 p.1) acc

/-! ## The extractor -/

/-- `extractCleanText(element)`; `none` is a `null` element. -/
def extractCleanText (element : Option Node) : JSString :=
  match element with
  | none => []
  | some el => normalize el.textContent

/-- `extractParagraphs(element)`. -/
def extractParagraphs (element : Option Node) : List JSString :=
  match element with
  | none => []
  | some el =>
    (((querySelectorAll el [.tag "p"]).map fun p => extractCleanText (some p)).filter
      fun text => text.length > 50).take 20

/-- A heading record `{level, text, id}`. -/
structure Heading where
  level : Nat
  text : JSString
  id : Option JSString
deriving DecidableEq

/-- The selector of the template literal with the heading level substituted. -/
def headingSelector (i : Nat) : Selector := [.tag ("h" ++ toString i)]

/-- `extractHeadings(element)`: the loop over the levels 1..6 pushes the headings of
each level, and the result is cut to 10 records. -/
def extractHeadings (element : Option Node) : List Heading :=
  match element with
  | none => []
  | some el =>
    let headings := (List.range' 1 6).foldl (fun headings i =>
      forEachIdx (querySelectorAll el (headingSelector i)) (fun headings h _ =>
        let text := extractCleanText (some h)
        if text ≠ [] then
          headings ++ [{ level := i, text := text, id := if h.id = [] then none else some h.id }]
        else headings) headings) []
    headings.take 10

/-- A list record `{type, items}`. -/
structure ListBlock where
  type : String
  items : List JSString
deriving DecidableEq

/-- `extractLists(element)`. -/
def extractLists (element : Option Node) : List ListBlock :=
  match element with
  | none => []
  | some el =>
    forEachIdx (querySelectorAll el [.tag "ul", .tag "ol"]) (fun lists list index =>
      if index ≥ 5 then lists
      else
        let items := (((querySelectorAll list [.tag "li"]).map fun li =>
          extractCleanText (some li)).filter fun text => text.length > 0).take 10
        if items.length > 0 then lists ++ [{ type := list.tagLower, items := items }]
        else lists) []

/-- The author selectors of `extractQuoteAuthor`, in the order of the source. -/
def authorSelectors : List Selector :=
  [[.cls "author"], [.cls "attribution"], [.tag "cite"], [.cls "quote-author"],
   [.cls "byline"], [.cls "credit"]]

/-- `extractQuoteAuthor(quoteElement)`, given the element and its `parentElement`. -/
def extractQuoteAuthor (quoteElement parentElement : Node) : Option JSString :=
  authorSelectors.findSome? fun selector =>
    match (querySelector quoteElement selector).orElse
        (fun _ => querySelector parentElement selector) with
    | some authorElement => some (extractCleanText (some authorElement))
    | none => none

/-- A quote record `{text, author}`. -/
structure Quote where
  text : JSString
  author : Option JSString
deriving DecidableEq

/-- `extractQuotes(element)`. -/
def extractQuotes (element : Option Node) : List Quote :=
  match element with
  | none => []
  | some el =>
    forEachIdx (querySelectorAllWithParent el [.tag "blockquote", .tag "q", .cls "quote"])
      (fun quotes quote index =>
        if index ≥ 5 then quotes
        else
          let text := extractCleanText (some quote.1)
          if text ≠ [] ∧ text.length > 20 then
            quotes ++ [{ text := text, author := extractQuoteAuthor quote.1 quote.2 }]
          else quotes) []

/-- A link record `{text, url, isExternal}`. -/
structure Link where
  text : JSString
  url : JSString
  isExternal : Bool
deriving DecidableEq

/-- `extractLinks(element)`; `hostname` is `window.location.hostname`. -/
def extractLinks (hostname : JSString) (element : Option Node) : List Link :=
  match element with
  | none => []
  | some el =>
    forEachIdx (querySelectorAll el [.tagAttr "a" "href"]) (fun links link index =>
      if index ≥ 20 then links
      else
        let text := extractCleanText (some link)
        let href := link.href
        if text ≠ [] ∧ href ≠ [] ∧ (stripStart (utf16 "javascript:") href).isNone then
          links ++ [{ text := text, url := href, isExternal := !includes href hostname }]
        else links) []

/-! ## Word, sentence and syllable counts -/

/-- `text.split(re)` for a pattern `re` matching the non-empty runs of the class `sep`
(`/\s+/`, `/[.!?]+/`), scanning left to right; the flag records that the previous code
unit belonged to the separator already consumed.  The result is never empty: the empty
string gives one empty piece, and a separator at either end gives an empty piece. -/
def splitRunsFrom (sep : Nat → Bool) : Bool → JSString → List JSString
  | _, [] => [[]]
  | inRun, c :: cs =>
    if sep c then
      if inRun then splitRunsFrom sep true cs else [] :: splitRunsFrom sep true cs
    else
      match splitRunsFrom sep false cs with
      | [] => [[c]]
      | piece :: pieces => (c :: piece) :: pieces

/-- `text.split(/\s+/)` and `text.split(/[.!?]+/)`. -/
def splitRuns (sep : Nat → Bool) (s : JSString) : List JSString := splitRunsFrom sep false s

/-- `countWords(text)` for a string argument. -/
def countWords (text : JSString) : Nat :=
  if text = [] then 0
  else ((splitRuns isSpace text).filter fun word => word.length > 0).length

/-- `estimateReadingTime(text)`: `Math.ceil(wordCount / wordsPerMinute)`.  The quotient
is taken in the rationals; for the word count of a JavaScript string the double-precision
quotient has the same ceiling. -/
def estimateReadingTime (text : JSString) : Int :=
  let wordsPerMinute : ℚ := 200
  let wordCount := countWords text
  ⌈(wordCount : ℚ) / wordsPerMinute⌉

/-- The number of matches of `/[aeiouy]+/g`-like patterns: the number of maximal runs of
code units of the class `cls`; the flag records that the previous unit was in the class. -/
def countRunsFrom (cls : Nat → Bool) : Bool → JSString → Nat
  | _, [] => 0
  | inRun, c :: cs =>
    if cls c then (if inRun then 0 else 1) + countRunsFrom cls true cs
    else countRunsFrom cls false cs

/-- The contribution of one element of `words` in `countSyllables`: nothing when no
letter is left after `word.replace(/[^a-z]/g, '')`, otherwise `Math.max(count, 1)`. -/
def wordSyllables (word : JSString) : Int :=
  let word := word.filter isLowerAlpha
  if word.length = 0 then 0
  else
    let count : Int := countRunsFrom isVowel false word
    let count := if word.getLast? = some 101 then count - 1 else count
    max count 1

/-- `countSyllables(text)`. -/
def countSyllables (text : JSString) : Int :=
  let words := splitRuns isSpace (toLowerCase text)
  words.foldl (fun syllableCount word => syllableCount + wordSyllables word) 0

/-- `calculateFleschKincaid(words, sentences, syllables)`, over the rationals. -/
def calculateFleschKincaid (words sentences : Nat) (syllables : Int) : ℚ :=
  if sentences = 0 ∨ words = 0 then 0
  else
    let avgSentenceLength : ℚ := (words : ℚ) / (sentences : ℚ)
    let avgSyllablesPerWord : ℚ := (syllables : ℚ) / (words : ℚ)
    0.39 * avgSentenceLength + 11.8 * avgSyllablesPerWord - 15.59

/-- The record returned by `calculateReadabilityMetrics`.  The three derived numbers are
JavaScript doubles in the source and exact rationals here. -/
structure ReadabilityMetrics where
  wordCount : Nat
  sentenceCount : Nat
  averageWordsPerSentence : ℚ
  averageSyllablesPerWord : ℚ
  estimatedGradeLevel : ℚ

/-- `calculateReadabilityMetrics()`, as a function of `document.body.textContent`. -/
def calculateReadabilityMetrics (text : JSString) : ReadabilityMetrics :=
  let sentences := (splitRuns isSentenceEnd text).filter fun s => (trim s).length > 0
  let words := (splitRuns isSpace text).filter fun w => w.length > 0
  let syllables := countSyllables text
  { wordCount := words.length
    sentenceCount := sentences.length
    averageWordsPerSentence := (words.length : ℚ) / ((max sentences.length 1 : Nat) : ℚ)
    averageSyllablesPerWord := (syllables : ℚ) / ((max words.length 1 : Nat) : ℚ)
    estimatedGradeLevel := calculateFleschKincaid words.length sentences.length syllables }

/-! ## Page structure -/

/-- `estimateContentType()`, as a function of `document.title`, `window.location.href`
and `document.body.textContent`. -/
def estimateContentType (docTitle href bodyText : JSString) : String :=
  let title := toLowerCase docTitle
  let url := toLowerCase href
  let content := toLowerCase bodyText
  if includes url (utf16 "/blog/") || includes url (utf16 "/article/") ||
      includes title (utf16 "blog") || includes content (utf16 "published") then
    "article"
  else if includes url (utf16 "/news/") || includes title (utf16 "news") then
    "news"
  else if includes url (utf16 "/product/") || includes content (utf16 "price") ||
      includes content (utf16 "buy now") then
    "product"
  else if includes url (utf16 "/about") || includes title (utf16 "about") then
    "about"
  else
    "general"

/-! ## The extracted text -/

/-- The record returned by `extractTextContent`. -/
structure ExtractedText where
  raw : JSString
  paragraphs : List JSString
  headings : List Heading
  lists : List ListBlock
  quotes : List Quote
  links : List Link
  wordCount : Nat
  readingTime : Int

/-- The selectors of the elements removed from the clone, in the order of the source. -/
def elementsToRemove : List Selector :=
  [[.tag "script"], [.tag "style"], [.tag "nav"], [.tag "header"], [.tag "footer"],
   [.tag "aside"], [.cls "advertisement"], [.cls "ads"], [.cls "sidebar"],
   [.cls "comments"], [.cls "social-share"], [.cls "popup"], [.cls "modal"]]

/-- The candidate selectors of the primary content region, in the order of the source. -/
def contentSelectors : List Selector :=
  [[.tag "main"], [.tag "article"], [.attrEq "role" (utf16 "main")], [.cls "content"],
   [.cls "post-content"], [.cls "entry-content"], [.cls "article-content"],
   [.cls "story-body"], [.cls "post-body"], [.cls "content-body"]]

/-- The primary content region chosen by `extractTextContent`: the noise elements are
removed from the clone, the first candidate selector with a match gives the region, and
the `body` element is the fallback. -/
def selectMainContent (document : Node) : Option Node :=
  let clone := elementsToRemove.foldl (fun clone selector => clone.removeAll selector) document
  match contentSelectors.findSome? fun selector => querySelector clone selector with
  | some element => some element
  | none => querySelector clone [.tag "body"]

/-- The record built by `extractTextContent` from the primary content region. -/
def buildExtractedText (hostname : JSString) (mainContent : Option Node) : ExtractedText :=
  let textContent := extractCleanText mainContent
  { raw := textContent
    paragraphs := extractParagraphs mainContent
    headings := extractHeadings mainContent
    lists := extractLists mainContent
    quotes := extractQuotes mainContent
    links := extractLinks hostname mainContent
    wordCount := countWords textContent
    readingTime := estimateReadingTime textContent }

/-- `extractTextContent()`, as a function of the document and of
`window.location.hostname`. -/
def extractTextContent (hostname : JSString) (document : Node) : ExtractedText :=
  buildExtractedText hostname (selectMainContent document)

/-! ## Predicates used in the statements -/

/-- No match of the noise pattern starts at any position of `s`, `before` being the code
unit that precedes `s`. -/
def noiseFreeFrom : Option Nat → JSString → Bool
  | _, [] => true
  | before, c :: cs => (matchNoiseAt before (c :: cs)).isNone && noiseFreeFrom (some c) cs

/-- The text contains no match of the noise pattern. -/
def noiseFree (s : JSString) : Bool := noiseFreeFrom none s

/-- In the scan of `collapseFrom`, nothing is left to replace: every whitespace unit is
a single space that does not follow another whitespace unit. -/
def isCollapsedFrom : Bool → JSString → Bool
  | _, [] => true
  | inRun, c :: cs =>
    if isSpace c then !inRun && c == 32 && isCollapsedFrom true cs
    else isCollapsedFrom false cs

/-- No two adjacent code units of `s` are both whitespace. -/
def noSpaceRun : JSString → Bool
  | a :: b :: rest => !(isSpace a && isSpace b) && noSpaceRun (b :: rest)
  | _ => true

/-- A string is whitespace-normalized: it neither starts nor ends with whitespace and
has no run of two or more whitespace units. -/
def whitespaceNormalized (s : JSString) : Bool :=
  s.head?.all (fun c => !isSpace c) && s.getLast?.all (fun c => !isSpace c) && noSpaceRun s

/-- A pattern, given by its first code unit and the rest, has no two adjacent code
units outside `\w` and ends with a code unit of `\w`. -/
def wordSeparated : Nat → JSString → Bool
  | q0, [] => isWordChar q0
  | q0, q :: qs => (isWordChar q0 || isWordChar q) && wordSeparated q qs

/-- A noise phrase starts and ends with a letter and has no two adjacent code units
outside `\w`. -/
def phraseShape (p : JSString) : Bool :=
  match p with
  | [] => false
  | p1 :: ps => isWordChar p1 && wordSeparated p1 ps && isWordAt (p1 :: ps).getLast?

/-! ## The claimed results of the extractors, in the words of the specification -/

/-- Follows the specification's words for the quotes: the first 5, in document order, of
the `blockquote`, `q` and `.quote` elements whose cleaned text meets the minimum length
of 20 characters. -/
def quotesFirstFiveQualifying (el : Node) : List Quote :=
  (((querySelectorAllWithParent el [.tag "blockquote", .tag "q", .cls "quote"]).filter
    fun quote => (extractCleanText (some quote.1)).length ≥ 20).take 5).map
    fun quote =>
      { text := extractCleanText (some quote.1), author := extractQuoteAuthor quote.1 quote.2 }

/-- The heading level of a node: the `i` in 1..6 for which it is an `h`*i* element. -/
def headingLevel (n : Node) : Option Nat :=
  (List.range' 1 6).find? fun i => n.matchesSel (headingSelector i)

/-- Follows the specification's words for the headings: the first 10 of the `h1`..`h6`
elements with non-empty cleaned text, taken in the order they occur in the document,
each with its level and its id (or `null`). -/
def headingsInDocumentOrder (el : Node) : List Heading :=
  ((el.family.map Prod.fst).filterMap fun h =>
    match headingLevel h with
    | some i =>
      if extractCleanText (some h) ≠ [] then
        some { level := i, text := extractCleanText (some h),
               id := if h.id = [] then none else some h.id }
      else none
    | none => none).take 10

/-! ## Sample regions -/

/-- An element without id, classes or attributes. -/
def plainElem (tag : String) (children : List Node) : Node :=
  .elem { tag := tag, id := [], classes := [], attrs := [], href := [] } children

/-- A document whose `main` region holds one paragraph with a noise phrase between two
words; the `nav` element is removed before the region is chosen. -/
def noiseSample : Node :=
  plainElem "#document"
    [plainElem "html"
      [plainElem "body"
        [plainElem "nav" [.text (utf16 "Menu")],
         plainElem "main" [plainElem "p" [.text (utf16 "a Advertisement b")]]]]]

/-- A region with one paragraph longer than 50 characters, one short paragraph and a
list of two items. -/
def articleSample : Node :=
  plainElem "article"
    [plainElem "p" [.text (utf16 "This paragraph is long enough to pass the length filter.")],
     plainElem "p" [.text (utf16 "Short one.")],
     plainElem "ul" [plainElem "li" [.text (utf16 "one")], plainElem "li" [.text (utf16 "two")]]]

/-- A region with a single quote of exactly 20 characters. -/
def boundaryQuoteSample : Node :=
  plainElem "article" [plainElem "blockquote" [.text (utf16 "Exactly twenty chars")]]

/-- A region whose second-level heading comes before its first-level heading. -/
def headingSample : Node :=
  plainElem "article"
    [plainElem "h2" [.text (utf16 "Background")], plainElem "h1" [.text (utf16 "Results")]]

/-- A region with one short quote followed by eight quotes longer than 20 characters. -/
def quoteSample : Node :=
  plainElem "article"
    [plainElem "q" [.text (utf16 "Too short")],
     plainElem "blockquote" [.text (utf16 "The first quotation of the page")],
     plainElem "blockquote" [.text (utf16 "The second quotation of the page")],
     plainElem "blockquote" [.text (utf16 "The third quotation of the page")],
     plainElem "blockquote" [.text (utf16 "The fourth quotation of the page")],
     plainElem "blockquote" [.text (utf16 "The fifth quotation of the page")],
     plainElem "blockquote" [.text (utf16 "The sixth quotation of the page")],
     plainElem "blockquote" [.text (utf16 "The seventh quotation of the page")],
     plainElem "blockquote" [.text (utf16 "The eighth quotation of the page")]]

/-- A region with eight quotes longer than 20 characters and no other quote element. -/
def longQuoteSample : Node :=
  plainElem "article"
    [plainElem "blockquote" [.text (utf16 "The first quotation of the page")],
     plainElem "blockquote" [.text (utf16 "The second quotation of the page")],
     plainElem "blockquote" [.text (utf16 "The third quotation of the page")],
     plainElem "blockquote" [.text (utf16 "The fourth quotation of the page")],
     plainElem "blockquote" [.text (utf16 "The fifth quotation of the page")],
     plainElem "blockquote" [.text (utf16 "The sixth quotation of the page")],
     plainElem "blockquote" [.text (utf16 "The seventh quotation of the page")],
     plainElem "blockquote" [.text (utf16 "The eighth quotation of the page")]]

/-- Follows the specification's words for the paragraphs: the cleaned texts of the `p`
elements of the region, in document order, that are longer than 50 characters. -/
def qualifyingParagraphs (el : Node) : List JSString :=
  ((querySelectorAll el [.tag "p"]).map fun p => extractCleanText (some p)).filter
    fun text => text.length > 50

/-- The headings of the region grouped by level: all `h1` elements with non-empty
cleaned text in document order, then all such `h2` elements, and so on up to `h6`. -/
def headingsByLevel (el : Node) : List Heading :=
  (List.range' 1 6).flatMap fun i =>
    ((querySelectorAll el (headingSelector i)).filter fun h =>
      decide (extractCleanText (some h) ≠ [])).map fun h =>
      { level := i, text := extractCleanText (some h),
        id := if h.id = [] then none else some h.id }

/-! ## Counts in the words of the specification -/

/-- Follows the specification's words: the non-empty whitespace-separated tokens of a
text, that is the non-empty pieces between its whitespace code units. -/
def whitespaceTokens (s : JSString) : List JSString :=
  (s.splitOnP isSpace).filter fun w => decide (w ≠ [])

/-- Follows the specification's words: the non-blank segments of a text between its
sentence-ending marks `.`, `!` and `?` (the segment between two adjacent marks of a run
is empty, hence blank). -/
def sentenceSegments (s : JSString) : List JSString :=
  (s.splitOnP isSentenceEnd).filter fun seg => seg.any fun c => !isSpace c

/-- A word contains a letter: one of its code units is `a`..`z` after lower-casing. -/
def hasLetter (w : JSString) : Bool := (toLowerCase w).any isLowerAlpha

/-- The condition of the first rule of `estimateContentType`. -/
def articleRule (docTitle href bodyText : JSString) : Bool :=
  includes (toLowerCase href) (utf16 "/blog/") || includes (toLowerCase href) (utf16 "/article/") ||
    includes (toLowerCase docTitle) (utf16 "blog") ||
    includes (toLowerCase bodyText) (utf16 "published")

/-- The condition of the second rule of `estimateContentType`. -/
def newsRule (docTitle href : JSString) : Bool :=
  includes (toLowerCase href) (utf16 "/news/") || includes (toLowerCase docTitle) (utf16 "news")

/-- The condition of the third rule of `estimateContentType`. -/
def productRule (href bodyText : JSString) : Bool :=
  includes (toLowerCase href) (utf16 "/product/") ||
    includes (toLowerCase bodyText) (utf16 "price") ||
    includes (toLowerCase bodyText) (utf16 "buy now")

/-- The condition of the fourth rule of `estimateContentType`. -/
def aboutRule (docTitle href : JSString) : Bool :=
  includes (toLowerCase href) (utf16 "/about") || includes (toLowerCase docTitle) (utf16 "about")

/-- The letters of a lower-cased word: what `word.replace(/[^a-z]/g, '')` leaves. -/
def lettersOf (w : JSString) : JSString := (toLowerCase w).filter isLowerAlpha

/-! # The background service worker

A shallow embedding of `src/background.js` (class `WebBrieferBackground`).  The worker
is a state machine: its state is the capability record `aiCapabilities`, the session map
`aiSessions` and, for the statements, the log of the calls made to the generative
backend.  A handler is a function from the state to its result and the next state; a
thrown error is a result of its own and keeps the state changes made before it. -/

namespace Background

/-- A JavaScript value as far as the capability negotiation inspects it: `undefined`, a
string, or any other value. -/
inductive JSValue where
  | undefined
  | str (s : String)
  | other
deriving DecidableEq

/-- The three optional capabilities of the generative backend. -/
inductive Capability where
  | languageModel
  | summarizer
  | translator
deriving DecidableEq

/-- A call made to the backend, as recorded in the log.  An instance is named by the
position of its `create` call in the log; the options of `create` and `availability`
are not recorded. -/
inductive Call where
  | availability (c : Capability)
  | legacyCapabilities
  | create (c : Capability)
  | destroy (c : Capability) (handle : Nat)
  | summarize (handle : Nat) (text : JSString)
  | translate (handle : Nat) (text : JSString)
  | prompt (handle : Nat) (text : JSString)
deriving DecidableEq

/-- The result of a computation: a returned value, or a thrown error given by its
`message`. -/
inductive Result (α : Type) where
  | ok (value : α)
  | error (message : String)
deriving DecidableEq

/-- The generative backend, an external collaborator.  The four flags are the feature
detections `'LanguageModel' in self`, `'Summarizer' in self`, `'Translator' in self` and
`'ai' in self && 'summarizer' in self.ai`.  The reply to a call is an arbitrary function
of the whole history of calls ending with that call, so every behaviour of a stateful
backend is covered: `valueReply` answers `availability()` and `capabilities()`,
`textReply` answers `summarize`, `translate` and `prompt`, `unitReply` answers `create`
and `destroy`.  The last field is the other thing the worker takes from its host:
`toLowerCase` is `String.prototype.toLowerCase` of the JavaScript engine, a function from
strings to strings whose Unicode case mapping is a table of the engine and not of the
worker, so it is taken as given and no property of it is assumed. -/
structure Backend where
  hasLanguageModel : Bool
  hasSummarizer : Bool
  hasTranslator : Bool
  hasLegacySummarizer : Bool
  valueReply : List Call → Result JSValue
  textReply : List Call → Result JSString
  unitReply : List Call → Result Unit
  toLowerCase : JSString → JSString

/-- The record `this.aiCapabilities`: the three feature flags and the three status
fields, which hold the raw value reported by the backend or the string `'available'`
set after a download. -/
structure Capabilities where
  languageModel : Bool
  summarizer : Bool
  translator : Bool
  languageModelStatus : JSValue
  summarizerStatus : JSValue
  translatorStatus : JSValue
deriving DecidableEq

/-- The feature flag of a capability. -/
def Capabilities.present (caps : Capabilities) : Capability → Bool
  | .languageModel => caps.languageModel
  | .summarizer => caps.summarizer
  | .translator => caps.translator

/-- The status field of a capability. -/
def Capabilities.status (caps : Capabilities) : Capability → JSValue
  | .languageModel => caps.languageModelStatus
  | .summarizer => caps.summarizerStatus
  | .translator => caps.translatorStatus

/-- The assignment `this.aiCapabilities.<c>Status = v`. -/
def Capabilities.setStatus (caps : Capabilities) (c : Capability) (v : JSValue) : Capabilities :=
  match c with
  | .languageModel => { caps with languageModelStatus := v }
  | .summarizer => { caps with summarizerStatus := v }
  | .translator => { caps with translatorStatus := v }

/-- The state of the worker: `this.aiCapabilities`, the entry `'main'` of
`this.aiSessions` (the handle of the stored session, if any) and the log of backend
calls. -/
structure World where
  aiCapabilities : Capabilities
  aiSessions : Option Nat
  calls : List Call
deriving DecidableEq

/-- A computation of the worker. -/
def Run (α : Type) : Type := World → Result α × World

/-- A computation that returns `a`. -/
def Run.pure {α : Type} (a : α) : Run α := fun w => (.ok a, w)

/-- Sequencing: a thrown error skips the rest and keeps the state reached. -/
def Run.bind {α β : Type} (m : Run α) (f : α → Run β) : Run β := fun w =>
  match m w with
  | (.ok a, w') => f a w'
  | (.error e, w') => (.error e, w')

/-- The statement `throw new Error(message)`. -/
def Run.throw {α : Type} (message : String) : Run α := fun w => (.error message, w)

/-- The statement `try { m } catch (error) { handler(error.message) }`. -/
def Run.tryCatch {α : Type} (m : Run α) (handler : String → Run α) : Run α := fun w =>
  match m w with
  | (.ok a, w') => (.ok a, w')
  | (.error e, w') => handler e w'

instance : Monad Run where
  pure := Run.pure
  bind := Run.bind

/-- Read `this.aiCapabilities`. -/
def getCapabilities : Run Capabilities := fun w => (.ok w.aiCapabilities, w)

/-- Assign `this.aiCapabilities`. -/
def setCapabilities (caps : Capabilities) : Run Unit := fun w =>
  (.ok (), { w with aiCapabilities := caps })

/-- Assign one status field of `this.aiCapabilities`. -/
def setStatus (c : Capability) (v : JSValue) : Run Unit := fun w =>
  (.ok (), { w with aiCapabilities := w.aiCapabilities.setStatus c v })

/-- Read the entry `'main'` of `this.aiSessions`. -/
def getSession : Run (Option Nat) := fun w => (.ok w.aiSessions, w)

/-- The call `this.aiSessions.set('main', session)`. -/
def setSession (session : Nat) : Run Unit := fun w =>
  (.ok (), { w with aiSessions := some session })

/-- The number of backend calls made so far. -/
def callCount : Run Nat := fun w => (.ok w.calls.length, w)

/-- A call to the backend: it is appended to the log and answered by the backend from
the history that ends with it. -/
def backendCall {α : Type} (call : Call) (reply : List Call → Result α) : Run α := fun w =>
  (reply (w.calls ++ [call]), { w with calls := w.calls ++ [call] })

/-- The call `X.create(options)` of a capability; the new instance is named by the
position of the call in the log. -/
def createInstance (b : Backend) (c : Capability) : Run Nat := do
  let handle ← callCount
  backendCall (.create c) b.unitReply
  pure handle

/-! ## Capability negotiation -/

/-- `initializeAI()`. -/
def initializeAI (b : Backend) : Run Unit :=
  Run.tryCatch (do
    setCapabilities
      { languageModel := b.hasLanguageModel, summarizer := b.hasSummarizer,
        translator := b.hasTranslator, languageModelStatus := .undefined,
        summarizerStatus := .undefined, translatorStatus := .undefined }
    if (← getCapabilities).summarizer then
      Run.tryCatch (do
        let summarizerAvailability ← backendCall (.availability .summarizer) b.valueReply
        setStatus .summarizer summarizerAvailability)
        (fun _ => setStatus .summarizer (.str "unavailable"))
    if (← getCapabilities).translator then
      Run.tryCatch (do
        let translatorAvailability ← backendCall (.availability .translator) b.valueReply
        setStatus .translator translatorAvailability)
        (fun _ => setStatus .translator (.str "unavailable"))
    if (← getCapabilities).languageModel then
      Run.tryCatch (do
        let languageModelAvailability ← backendCall (.availability .languageModel) b.valueReply
        setStatus .languageModel languageModelAvailability)
        (fun _ => setStatus .languageModel (.str "unavailable")))
    (fun _ => setCapabilities
      { languageModel := false, summarizer := false, translator := false,
        languageModelStatus := .str "unavailable", summarizerStatus := .str "unavailable",
        translatorStatus := .str "unavailable" })

/-- `checkLanguageModelAvailability()`. -/
def checkLanguageModelAvailability (b : Backend) : Run JSValue :=
  Run.tryCatch (do
    if !b.hasLanguageModel then
      pure (.str "not-supported")
    else
      backendCall (.availability .languageModel) b.valueReply)
    (fun _ => pure (.str "not-available"))

/-- `checkSummarizerAvailability()`: it probes the legacy surface `self.ai.summarizer`. -/
def checkSummarizerAvailability (b : Backend) : Run JSValue :=
  Run.tryCatch (do
    if !b.hasLegacySummarizer then
      pure (.str "not-supported")
    else
      backendCall .legacyCapabilities b.valueReply)
    (fun _ => pure (.str "not-available"))

/-- `checkTranslatorAvailability()`. -/
def checkTranslatorAvailability (b : Backend) : Run JSValue :=
  Run.tryCatch (do
    if !b.hasTranslator then
      pure (.str "not-supported")
    else
      backendCall (.availability .translator) b.valueReply)
    (fun _ => pure (.str "not-available"))

/-- The three-state status reported for a raw availability value:
`raw === 'readily' ? 'available' : raw === 'after-download' ? 'downloadable' : 'unavailable'`. -/
def reportedStatus (raw : JSValue) : String :=
  if raw = .str "readily" then "available"
  else if raw = .str "after-download" then "downloadable"
  else "unavailable"

/-- The field `availability` of the `checkAIAvailability` response. -/
structure Availability where
  languageModel : String
  summarizer : String
  translator : String
deriving DecidableEq

/-- The field `capabilities` of the `checkAIAvailability` response, kept for backward
compatibility. -/
structure LegacyCapabilities where
  languageModel : Bool
  summarizer : Bool
  translator : Bool
  languageModelStatus : JSValue
  summarizerStatus : String
  translatorStatus : String
deriving DecidableEq

/-- The record `summary` of a successful `generateSummary` response. -/
structure SummaryRecord where
  original : JSString
  translated : JSString
  language : String
  wordCount : Nat
  generatedAt : String
deriving DecidableEq

/-- The response passed to `sendResponse`.  `failure` is `{success: false, error}` with
the optional fields `errorCode`, `downloadableModels` and `modelType`; the other
constructors are the responses with `success: true`. -/
inductive Response where
  | failure (error : String) (errorCode : Option String)
      (downloadableModels : Option (List String)) (modelType : Option String)
  | availability (availability : Availability) (capabilities : LegacyCapabilities)
  | downloaded (downloaded : Bool)
  | summary (summary : SummaryRecord)
  | translation (translatedText : JSString) (originalLanguage : String)
      (targetLanguage : String)
  | answer (answer : JSString) (question : JSString) (generatedAt : String)
deriving DecidableEq

/-- The response `{success: false, error}`. -/
def Response.plainFailure (error : String) : Response := .failure error none none none

/-- `handleCheckAIAvailability(sendResponse)`; the result is the response sent. -/
def handleCheckAIAvailability (b : Backend) : Run Response :=
  Run.tryCatch (do
    let languageModelStatus ←
      if (← getCapabilities).languageModelStatus = .str "available" then pure (.str "readily")
      else checkLanguageModelAvailability b
    let summarizerStatus ←
      if (← getCapabilities).summarizerStatus = .str "available" then pure (.str "readily")
      else checkSummarizerAvailability b
    let translatorStatus ←
      if (← getCapabilities).translatorStatus = .str "available" then pure (.str "readily")
      else checkTranslatorAvailability b
    let availability : Availability :=
      { languageModel := reportedStatus languageModelStatus
        summarizer := reportedStatus summarizerStatus
        translator := reportedStatus translatorStatus }
    let capabilities : LegacyCapabilities :=
      { languageModel := languageModelStatus = .str "readily" ∨
          languageModelStatus = .str "after-download"
        summarizer := summarizerStatus = .str "readily" ∨
          summarizerStatus = .str "after-download"
        translator := translatorStatus = .str "readily" ∨
          translatorStatus = .str "after-download"
        languageModelStatus := languageModelStatus
        summarizerStatus :=
          if summarizerStatus = .str "readily" then "ready"
          else if summarizerStatus = .str "after-download" then "downloadable"
          else "unavailable"
        translatorStatus :=
          if translatorStatus = .str "readily" then "ready"
          else if translatorStatus = .str "after-download" then "downloadable"
          else "unavailable" }
    pure (Response.availability availability capabilities))
    (fun error => pure (Response.plainFailure error))

/-- The message of the error thrown when a model is not downloadable. -/
def notDownloadableMessage : Capability → String
  | .summarizer => "Summarizer model is not downloadable"
  | .translator => "Translator model is not downloadable"
  | .languageModel => "Language model is not downloadable"

/-- The common body of `downloadSummarizerModel()`, `downloadTranslatorModel()` and
`downloadLanguageModel()`, which differ only in the capability they name. -/
def downloadModel (b : Backend) (c : Capability) : Run Bool :=
  Run.tryCatch (do
    let caps ← getCapabilities
    if !caps.present c || caps.status c != .str "downloadable" then
      Run.throw (notDownloadableMessage c)
    else
      let handle ← createInstance b c
      setStatus c (.str "available")
      backendCall (.destroy c handle) b.unitReply
      pure true)
    (fun error => Run.throw error)

/-- `downloadSummarizerModel()`. -/
def downloadSummarizerModel (b : Backend) : Run Bool := downloadModel b .summarizer

/-- `downloadTranslatorModel()`. -/
def downloadTranslatorModel (b : Backend) : Run Bool := downloadModel b .translator

/-- `downloadLanguageModel()`. -/
def downloadLanguageModel (b : Backend) : Run Bool := downloadModel b .languageModel

/-- `handleDownloadModel(request, sendResponse)`; `modelType` is `none` when the request
has no such field. -/
def handleDownloadModel (b : Backend) (modelType : Option String) : Run Response :=
  Run.tryCatch (do
    match modelType with
    | none => Run.throw "Model type is required"
    | some modelType =>
      if modelType = "" then
        Run.throw "Model type is required"
      else
        let result ←
          if modelType = "summarizer" then downloadSummarizerModel b
          else if modelType = "translator" then downloadTranslatorModel b
          else if modelType = "languageModel" then downloadLanguageModel b
          else Run.throw ("Unknown model type: " ++ modelType)
        pure (Response.downloaded result))
    (fun error => pure (Response.plainFailure error))

/-! ## Requests -/

/-- The field `text` of a page content as the worker reads it.  `raw` is `none` when the
field is absent; when present it is a string. -/
structure TextData where
  raw : Option JSString
  paragraphs : List JSString
  headings : List Heading
  readingTime : Int
  wordCount : Nat
deriving DecidableEq

/-- The page content of a request as the worker reads it; an absent `url` or `title` is
the empty string, an absent `text` is `none`. -/
structure PageContent where
  url : JSString
  title : JSString
  text : Option TextData
deriving DecidableEq

/-- The focus flags of a user profile. -/
structure ContentFocus where
  keyPoints : Bool
  numbers : Bool
  quotes : Bool
  actions : Bool
deriving DecidableEq

/-- A well-formed user profile, as stored by the options page (`age` comes from
`parseInt`). -/
structure UserProfile where
  age : Int
  occupation : JSString
  education : JSString
  summaryStyle : JSString
  preferredLanguage : String
  contentFocus : ContentFocus
deriving DecidableEq

/-- The field `summary` of an `answerQuestion` request: absent, a string, or the summary
record of a `generateSummary` response. -/
inductive SummaryArg where
  | absent
  | text (s : JSString)
  | record (r : SummaryRecord)
deriving DecidableEq

/-- The truthiness of the `summary` field. -/
def SummaryArg.truthy : SummaryArg → Bool
  | .absent => false
  | .text s => s ≠ []
  | .record _ => true

/-- The string put in a template literal for the `summary` field. -/
def SummaryArg.render : SummaryArg → JSString
  | .absent => utf16 "undefined"
  | .text s => s
  | .record _ => utf16 "[object Object]"

/-- A request message, by its `action`; `other` is any other action.  An absent text,
question or target language is the empty string. -/
inductive Request where
  | generateSummary (pageContent : Option PageContent) (userProfile : UserProfile)
  | translateText (text : JSString) (targetLanguage : String)
  | answerQuestion (question : JSString) (summary : SummaryArg)
      (pageContent : Option PageContent) (userProfile : UserProfile)
  | checkAIAvailability
  | downloadModel (modelType : Option String)
  | other

/-! ## Prompts and local fallbacks -/

/-- `getAgeGroup(age)`. -/
def getAgeGroup (age : Int) : String :=
  if age < 18 then "teenager"
  else if age < 25 then "young adult"
  else if age < 35 then "adult"
  else if age < 50 then "middle-aged adult"
  else "mature adult"

/-- `getFocusAreas(contentFocus)`. -/
def getFocusAreas (contentFocus : ContentFocus) : String :=
  let areas : List String := []
  let areas := if contentFocus.keyPoints then areas ++ ["key points"] else areas
  let areas := if contentFocus.numbers then areas ++ ["statistics and numbers"] else areas
  let areas := if contentFocus.quotes then areas ++ ["important quotes"] else areas
  let areas := if contentFocus.actions then areas ++ ["actionable insights"] else areas
  if areas.length > 0 then ", ".intercalate areas else "general overview"

/-- The expression `content.text?.raw || content.text || ''` as the string that reaches
the summarizer and the prompt: the raw text when it is a non-empty string, the empty
string when `text` is absent, and otherwise the string form of the `text` object. -/
def PageContent.textContent (content : PageContent) : JSString :=
  match content.text with
  | none => []
  | some text =>
    match text.raw with
    | some raw => if raw ≠ [] then raw else utf16 "[object Object]"
    | none => utf16 "[object Object]"

/-- `createSummaryPrompt(content, userProfile)`. -/
def createSummaryPrompt (content : PageContent) (userProfile : UserProfile) : JSString :=
  let ageGroup := getAgeGroup userProfile.age
  let focusAreas := getFocusAreas userProfile.contentFocus
  let textContent := content.textContent
  let truncatedText :=
    if textContent.length > 4000 then textContent.take 4000 ++ utf16 "..." else textContent
  utf16 "You are an AI assistant helping to create personalized content summaries. " ++
  utf16 "Please create a summary of the following webpage content:\n" ++
  utf16 "\n" ++
  utf16 "User Profile:\n" ++
  utf16 "- Age: " ++
  utf16 (toString userProfile.age) ++
  utf16 " (" ++
  utf16 ageGroup ++
  utf16 ")\n" ++
  utf16 "- Occupation: " ++
  userProfile.occupation ++
  utf16 "\n" ++
  utf16 "- Education: " ++
  userProfile.education ++
  utf16 "\n" ++
  utf16 "- Summary Style: " ++
  userProfile.summaryStyle ++
  utf16 "\n" ++
  utf16 "- Focus Areas: " ++
  utf16 focusAreas ++
  utf16 "\n" ++
  utf16 "\n" ++
  utf16 "Content to Summarize:\n" ++
  utf16 "Title: " ++
  (if content.title = [] then utf16 "No title available" else content.title) ++
  utf16 "\n" ++
  utf16 "URL: " ++
  (if content.url = [] then utf16 "No URL available" else content.url) ++
  utf16 "\n" ++
  utf16 "Text: " ++
  truncatedText ++
  utf16 "\n" ++
  utf16 "\n" ++
  utf16 "Instructions:\n" ++
  utf16 "1. Create a summary in less than 500 words\n" ++
  utf16 "2. Adapt the language complexity for a " ++
  utf16 ageGroup ++
  utf16 " with " ++
  userProfile.education ++
  utf16 " education\n" ++
  utf16 "3. Focus on " ++
  utf16 focusAreas ++
  utf16 " as requested by the user\n" ++
  utf16 "4. Use a " ++
  userProfile.summaryStyle ++
  utf16 " tone\n" ++
  utf16 "5. Structure the summary with clear headings and bullet points\n" ++
  utf16 "6. Include the most relevant information for someone in " ++
  userProfile.occupation ++
  utf16 "\n" ++
  utf16 "7. Write in English (translation will be handled separately if needed)\n" ++
  utf16 "8. Include titles, major topic about the page, and key points,\n" ++
  utf16 "9. Include what is this \n" ++
  utf16 "8. Make sure the user with the following profile can fully understand the " ++
  utf16 "summary:\n" ++
  utf16 "- Age: " ++
  utf16 (toString userProfile.age) ++
  utf16 " (" ++
  utf16 ageGroup ++
  utf16 ")\n" ++
  utf16 "- Occupation: " ++
  userProfile.occupation ++
  utf16 "\n" ++
  utf16 "- Education: " ++
  userProfile.education ++
  utf16 "\n" ++
  utf16 "- Summary Style: " ++
  userProfile.summaryStyle ++
  utf16 "\n" ++
  utf16 "- Focus Areas: " ++
  utf16 focusAreas ++
  utf16 "\n" ++
  utf16 "\n" ++
  utf16 "Please provide a well-structured, personalized summary that would be most " ++
  utf16 "valuable for this specific user profile."

/-- `enhanceSummaryWithProfile(summary, userProfile)`: the enhanced string is computed
and dropped, the summary is returned as it is. -/
def enhanceSummaryWithProfile (summary : JSString) (userProfile : UserProfile) : JSString :=
  let enhanced := summary
  let _enhanced :=
    if userProfile.occupation ≠ [] then
      enhanced ++ utf16 "\n\n**Relevance for " ++ userProfile.occupation ++
        utf16 ":** This content may be particularly relevant for your professional context."
    else enhanced
  summary

/-- `generateBasicSummary(content, userProfile)`.  It throws a `TypeError` when
`content.text` is absent. -/
def generateBasicSummary (content : PageContent) (_userProfile : UserProfile) :
    Result JSString :=
  match content.text with
  | none => .error "Cannot read properties of undefined (reading 'paragraphs')"
  | some text =>
    let paragraphs := text.paragraphs
    let headings := text.headings
    let summary := utf16 "# Summary of " ++ content.title ++ utf16 "\n\n"
    let summary :=
      if headings.length > 0 then
        (headings.take 5).foldl
          (fun summary heading => summary ++ (utf16 "- " ++ heading.text ++ utf16 "\n"))
          (summary ++ utf16 "## Key Topics:\n") ++ utf16 "\n"
      else summary
    let summary :=
      if paragraphs.length > 0 then
        (paragraphs.take 3).foldl
          (fun summary paragraph =>
            let shortened :=
              if paragraph.length > 200 then paragraph.take 200 ++ utf16 "..." else paragraph
            summary ++ (shortened ++ utf16 "\n\n"))
          (summary ++ utf16 "## Main Points:\n")
      else summary
    let summary := summary ++
      (utf16 "\n**Reading Time:** " ++ utf16 (toString text.readingTime) ++ utf16 " minutes\n")
    let summary := summary ++
      (utf16 "**Word Count:** " ++ utf16 (toString text.wordCount) ++ utf16 " words")
    .ok summary

/-- `getLanguageName(code)` for the codes of its table and for any other code that is
not a property inherited by the table object. -/
def getLanguageName (code : String) : String :=
  match [("es", "Spanish"), ("fr", "French"), ("de", "German"), ("it", "Italian"),
    ("pt", "Portuguese"), ("ru", "Russian"), ("ja", "Japanese"), ("ko", "Korean"),
    ("zh", "Chinese"), ("ar", "Arabic"), ("hi", "Hindi"), ("nl", "Dutch"),
    ("sv", "Swedish"), ("da", "Danish"), ("no", "Norwegian"), ("fi", "Finnish"),
    ("pl", "Polish"), ("tr", "Turkish"), ("th", "Thai"), ("vi", "Vietnamese")].lookup code with
  | some name => name
  | none => code

/-- The expression `originalContent?.text?.raw?.substring(0, 2000) || 'Not available'`. -/
def originalContextOf (originalContent : Option PageContent) : JSString :=
  let context : JSString :=
    match originalContent with
    | none => []
    | some content =>
      match content.text with
      | none => []
      | some text =>
        match text.raw with
        | none => []
        | some raw => raw.take 2000
  if context = [] then utf16 "Not available" else context

/-- `createAnswerPrompt(question, summary, originalContent, userProfile)`. -/
def createAnswerPrompt (question : JSString) (summary : SummaryArg)
    (originalContent : Option PageContent) (userProfile : UserProfile) : JSString :=
  utf16 "You are answering a follow-up question about a webpage that has been summarized " ++
  utf16 "for a specific user.\n" ++
  utf16 "\n" ++
  utf16 "User Profile:\n" ++
  utf16 "- Age: " ++
  utf16 (toString userProfile.age) ++
  utf16 "\n" ++
  utf16 "- Occupation: " ++
  userProfile.occupation ++
  utf16 "\n" ++
  utf16 "- Education: " ++
  userProfile.education ++
  utf16 "\n" ++
  utf16 "\n" ++
  utf16 "Summary of the webpage:\n" ++
  summary.render ++
  utf16 "\n" ++
  utf16 "\n" ++
  utf16 "Original content context:\n" ++
  originalContextOf originalContent ++
  utf16 "...\n" ++
  utf16 "\n" ++
  utf16 "User's Question: " ++
  question ++
  utf16 "\n" ++
  utf16 "\n" ++
  utf16 "Instructions:\n" ++
  utf16 "1. Answer the question based on the summary and original content\n" ++
  utf16 "2. Adapt your answer for someone with " ++
  userProfile.education ++
  utf16 " education level\n" ++
  utf16 "3. Keep the answer concise but informative (max 200 words)\n" ++
  utf16 "4. If the information isn't available in the content, say so clearly\n" ++
  utf16 "5. Relate the answer to the user's occupation (" ++
  userProfile.occupation ++
  utf16 ") if relevant\n" ++
  utf16 "6. Use a helpful and professional tone\n" ++
  utf16 "\n" ++
  utf16 "Please provide a clear, accurate answer to the user's question."

/-- The interrogative keywords of `generateBasicAnswer`. -/
def questionKeywords : List JSString :=
  [utf16 "what", utf16 "who", utf16 "when", utf16 "where", utf16 "how", utf16 "why"]

/-- `generateBasicAnswer(question, summary)`.  The parameter `lower` is the engine's
`String.prototype.toLowerCase`, which the function calls on the question, on each
sentence and on each word. -/
def generateBasicAnswer (lower : JSString → JSString) (question : JSString)
    (summary : SummaryArg) : JSString :=
  if question = [] then utf16 "I need a valid question to provide an answer."
  else
    match summary with
    | .text summary =>
      if summary = [] then
        utf16 ("I don't have a summary available to answer your question. " ++
          "Please try generating a summary first.")
      else
        let lowerQuestion := lower question
        let relevantSentences :=
          if questionKeywords.any fun keyword => includes lowerQuestion keyword then
            let sentences := splitRuns isSentenceEnd summary
            sentences.filter fun sentence =>
              let lowerSentence := lower sentence
              (question.splitOnP fun u => u == 32).any fun word =>
                decide (word.length > 3) && includes lowerSentence (lower word)
          else []
        if relevantSentences.length > 0 then
          (utf16 ". ").intercalate (relevantSentences.take 2) ++ utf16 "."
        else
          utf16 ("I don't have enough information in the summary to answer that specific " ++
            "question. You might want to read the full article for more details.")
    | _ =>
      utf16 ("I don't have a summary available to answer your question. " ++
        "Please try generating a summary first.")

/-- `countWords(text)` of the worker, for a string argument. -/
def countWords (text : JSString) : Nat :=
  if text = [] then 0
  else
    let cleanText := trim (text.map fun u => if u = 42 ∨ u = 8226 ∨ u = 45 then 32 else u)
    let words := (splitRuns isSpace cleanText).filter fun word =>
      let cleanWord := word.filter isWordChar
      cleanWord.length > 0
    words.length

/-! ## Sessions, summary generation and translation -/

/-- `getOrCreateLanguageModelSession()`: the stored session if there is one, otherwise a
new session, which is stored. -/
def getOrCreateLanguageModelSession (b : Backend) : Run Nat := do
  match (← getSession) with
  | some session => pure session
  | none =>
    Run.tryCatch (do
      if (← getCapabilities).languageModelStatus = .str "downloadable" then
        Run.throw "Model download required - user activation needed"
      else
        let session ← createInstance b .languageModel
        setSession session
        pure session)
      (fun error => Run.throw ("Failed to create language model session: " ++ error))

/-- The summarizer tier of `generatePersonalizedSummary`: the inner `try` block, whose
`catch` only logs.  The result is `none` when the tier is skipped or fails. -/
def summarizerTier (b : Backend) (content : PageContent) (userProfile : UserProfile) :
    Run (Option JSString) := do
  let caps ← getCapabilities
  if caps.summarizer && caps.summarizerStatus == .str "available" then
    Run.tryCatch (do
      let summarizer ← createInstance b .summarizer
      let textContent := content.textContent
      let summary ← backendCall (.summarize summarizer textContent) b.textReply
      backendCall (.destroy .summarizer summarizer) b.unitReply
      pure (some (enhanceSummaryWithProfile summary userProfile)))
      (fun _ => pure none)
  else pure none

/-- `generatePersonalizedSummary(content, userProfile)`. -/
def generatePersonalizedSummary (b : Backend) (content : PageContent)
    (userProfile : UserProfile) : Run JSString :=
  Run.tryCatch (do
    let prompt := createSummaryPrompt content userProfile
    match (← summarizerTier b content userProfile) with
    | some summary => pure summary
    | none =>
      let caps ← getCapabilities
      if caps.languageModel && caps.languageModelStatus == .str "available" then
        let session ← getOrCreateLanguageModelSession b
        let response ← backendCall (.prompt session prompt) b.textReply
        pure response
      else
        match generateBasicSummary content userProfile with
        | .ok summary => pure summary
        | .error message => Run.throw message)
    (fun error => Run.throw ("Failed to generate summary: " ++ error))

/-- The translator tier of `translateText`: the inner `try` block, whose `catch` only
logs.  The result is `none` when the tier is skipped or fails. -/
def translatorTier (b : Backend) (text : JSString) : Run (Option JSString) := do
  let caps ← getCapabilities
  if caps.translator && caps.translatorStatus == .str "available" then
    Run.tryCatch (do
      let translator ← createInstance b .translator
      let translated ← backendCall (.translate translator text) b.textReply
      backendCall (.destroy .translator translator) b.unitReply
      pure (some translated))
      (fun _ => pure none)
  else pure none

/-- The prompt of the language-model tier of `translateText`. -/
def translationPrompt (text : JSString) (targetLanguage : String) : JSString :=
  utf16 "Please translate the following text from English to " ++
    utf16 (getLanguageName targetLanguage) ++
    utf16 ". Only provide the translation, no additional text:\n\n" ++ text

/-- `translateText(text, targetLanguage)`. -/
def translateText (b : Backend) (text : JSString) (targetLanguage : String) : Run JSString :=
  Run.tryCatch (do
    match (← translatorTier b text) with
    | some translated => pure translated
    | none =>
      let caps ← getCapabilities
      if caps.languageModel && caps.languageModelStatus == .str "available" then
        let session ← getOrCreateLanguageModelSession b
        let prompt := translationPrompt text targetLanguage
        backendCall (.prompt session prompt) b.textReply
      else pure text)
    (fun _ => pure text)

/-- `translateSummary(summary, targetLanguage)`. -/
def translateSummary (b : Backend) (summary : JSString) (targetLanguage : String) :
    Run JSString :=
  if targetLanguage = "en" then pure summary
  else translateText b summary targetLanguage

/-! ## Message handlers -/

/-- The download plan of `handleGenerateSummary`: the array `downloadableModels`. -/
def downloadableModels (caps : Capabilities) : List String :=
  let downloadableModels : List String := []
  let downloadableModels :=
    if caps.summarizer && caps.summarizerStatus == .str "downloadable" then
      downloadableModels ++ ["summarizer"]
    else downloadableModels
  let downloadableModels :=
    if caps.languageModel && caps.languageModelStatus == .str "downloadable" then
      downloadableModels ++ ["languageModel"]
    else downloadableModels
  let downloadableModels :=
    if caps.translator && caps.translatorStatus == .str "downloadable" then
      downloadableModels ++ ["translator"]
    else downloadableModels
  downloadableModels

/-- The validation at the start of `handleGenerateSummary`: the message of the error
thrown, or the validated content. -/
def validateContent (pageContent : Option PageContent) : Result PageContent :=
  match pageContent with
  | none => .error "No content provided for summary generation"
  | some content =>
    match content.text with
    | none => .error "Content text is missing. Please try refreshing the page."
    | some text =>
      match text.raw with
      | none => .error "Content text data is incomplete. Please try refreshing the page."
      | some raw =>
        if raw = [] then
          .error "Content text data is incomplete. Please try refreshing the page."
        else if (trim raw).length = 0 then
          .error "No readable content found on this page. Please try a different page."
        else .ok content

/-- `handleGenerateSummary(request, sendResponse)`; `now` is the time stamp taken for
`generatedAt`, the result is the response sent. -/
def handleGenerateSummary (b : Backend) (now : String) (pageContent : Option PageContent)
    (userProfile : UserProfile) : Run Response :=
  Run.tryCatch (do
    match validateContent pageContent with
    | .error message => Run.throw message
    | .ok content =>
      let caps ← getCapabilities
      if !caps.summarizer && !caps.languageModel then
        pure (Response.plainFailure "AI summarization is not available in this browser")
      else
        let downloadableModels := downloadableModels caps
        if downloadableModels.length > 0 then
          pure (Response.failure "Models need to be downloaded" (some "MODELS_DOWNLOADABLE")
            (some downloadableModels) none)
        else
          let summary ← generatePersonalizedSummary b content userProfile
          let translatedSummary ←
            (if userProfile.preferredLanguage ≠ "en" then
              translateSummary b summary userProfile.preferredLanguage
            else pure summary)
          pure (Response.summary
            { original := summary
              translated := translatedSummary
              language := userProfile.preferredLanguage
              wordCount := countWords summary
              generatedAt := now }))
    (fun error => pure (Response.plainFailure error))

/-- `handleTranslateText(request, sendResponse)`; the result is the response sent. -/
def handleTranslateText (b : Backend) (text : JSString) (targetLanguage : String) :
    Run Response :=
  Run.tryCatch (do
    if text = [] ∨ targetLanguage = "" then
      Run.throw "Text and target language are required for translation"
    else
      let caps ← getCapabilities
      if caps.translator && caps.translatorStatus == .str "downloadable" then
        pure (Response.failure "Translator model needs to be downloaded first"
          (some "MODEL_DOWNLOAD_REQUIRED") none (some "translator"))
      else if !caps.translator && caps.languageModel &&
          caps.languageModelStatus == .str "downloadable" then
        pure (Response.failure "Language model needs to be downloaded first for translation"
          (some "MODEL_DOWNLOAD_REQUIRED") none (some "languageModel"))
      else
        let translatedText ← translateText b text targetLanguage
        pure (Response.translation translatedText "en" targetLanguage))
    (fun error => pure (Response.plainFailure error))

/-- `generateAnswer(question, summary, originalContent, userProfile)`. -/
def generateAnswer (b : Backend) (question : JSString) (summary : SummaryArg)
    (originalContent : Option PageContent) (userProfile : UserProfile) : Run JSString :=
  Run.tryCatch (do
    let prompt := createAnswerPrompt question summary originalContent userProfile
    if (← getCapabilities).languageModel then
      let session ← getOrCreateLanguageModelSession b
      backendCall (.prompt session prompt) b.textReply
    else
      pure (generateBasicAnswer b.toLowerCase question summary))
    (fun error => Run.throw ("Failed to generate answer: " ++ error))

/-- `handleAnswerQuestion(request, sendResponse)`; the result is the response sent. -/
def handleAnswerQuestion (b : Backend) (now : String) (question : JSString)
    (summary : SummaryArg) (pageContent : Option PageContent) (userProfile : UserProfile) :
    Run Response :=
  Run.tryCatch (do
    let originalContent := pageContent
    if question = [] then
      Run.throw "Question is required"
    else if !summary.truthy then
      Run.throw
        "Summary is required to answer questions. Please generate a summary first."
    else
      let answer ← generateAnswer b question summary originalContent userProfile
      pure (Response.answer answer question now))
    (fun error => pure (Response.plainFailure error))

/-- `handleMessage(request, sender, sendResponse)`; the result is the response sent. -/
def handleMessage (b : Backend) (now : String) (request : Request) : Run Response :=
  Run.tryCatch
    (match request with
    | .generateSummary pageContent userProfile =>
      handleGenerateSummary b now pageContent userProfile
    | .translateText text targetLanguage => handleTranslateText b text targetLanguage
    | .answerQuestion question summary pageContent userProfile =>
      handleAnswerQuestion b now question summary pageContent userProfile
    | .checkAIAvailability => handleCheckAIAvailability b
    | .downloadModel modelType => handleDownloadModel b modelType
    | .other => pure (Response.plainFailure "Unknown action"))
    (fun error => pure (Response.plainFailure error))

/-- The worker handling a sequence of messages one after the other, each with its time
stamp: the responses sent and the final state. -/
def handleMessages (b : Backend) : List (String × Request) → World → List Response × World
  | [], w => ([], w)
  | (now, request) :: rest, w =>
    let step := handleMessage b now request w
    let response :=
      match step.1 with
      | .ok response => response
      | .error message => Response.plainFailure message
    let tail := handleMessages b rest step.2
    (response :: tail.1, tail.2)

/-! ## Notions used in the statements -/

/-- The `modelType` string that names a capability in a `downloadModel` request. -/
def Capability.modelType : Capability → String
  | .summarizer => "summarizer"
  | .translator => "translator"
  | .languageModel => "languageModel"

/-- The capability record `caps'` comes from `caps` by status changes to `'available'`
only: the feature flags are the same, and every status is the same or `'available'`. -/
def Capabilities.AdvancesTo (caps caps' : Capabilities) : Prop :=
  ∀ c, caps'.present c = caps.present c ∧
    (caps'.status c = caps.status c ∨ caps'.status c = .str "available")

/-- A computation changes the capability record by status changes to `'available'`
only, from every state. -/
def Advances {α : Type} (m : Run α) : Prop :=
  ∀ w : World, w.aiCapabilities.AdvancesTo (m w).2.aiCapabilities

/-- The call by which `checkAIAvailability` queries the availability of a capability. -/
def availabilityQuery : Capability → Call
  | .languageModel => .availability .languageModel
  | .summarizer => .legacyCapabilities
  | .translator => .availability .translator

/-- The feature detection that `checkAIAvailability` makes before querying a capability. -/
def Backend.detects (b : Backend) : Capability → Bool
  | .languageModel => b.hasLanguageModel
  | .summarizer => b.hasLegacySummarizer
  | .translator => b.hasTranslator

/-- The availability reported for a capability in a response. -/
def Availability.of (a : Availability) : Capability → String
  | .languageModel => a.languageModel
  | .summarizer => a.summarizer
  | .translator => a.translator

/-- The availability reported for a capability by the outcome of a handler, if the
outcome is a `checkAIAvailability` response. -/
def reportedAvailability (outcome : Result Response) (c : Capability) : Option String :=
  match outcome with
  | .ok (.availability availability _) => some (availability.of c)
  | _ => none

/-- The raw value that a `check...Availability` function returns at a given log. -/
def rawAvailability (b : Backend) (c : Capability) (calls : List Call) : JSValue :=
  if b.detects c then
    match b.valueReply (calls ++ [availabilityQuery c]) with
    | .ok raw => raw
    | .error _ => .str "not-available"
  else .str "not-supported"

/-- The calls that `checkAIAvailability` makes for a capability: none when the cached
status is `'available'` or the capability is not detected. -/
def availabilityCalls (b : Backend) (caps : Capabilities) (c : Capability) : List Call :=
  if caps.status c = .str "available" then []
  else if b.detects c then [availabilityQuery c] else []

/-! ## Sample backends and states -/

/-- A state with the given capability record, no stored session and an empty log. -/
def World.fresh (caps : Capabilities) : World :=
  { aiCapabilities := caps, aiSessions := none, calls := [] }

/-- A capability record with all three capabilities present and the given statuses. -/
def Capabilities.withStatuses (languageModel summarizer translator : String) : Capabilities :=
  { languageModel := true, summarizer := true, translator := true,
    languageModelStatus := .str languageModel, summarizerStatus := .str summarizer,
    translatorStatus := .str translator }

/-- A backend on which every call succeeds: availability queries report
`"after-download"`, and the text calls return `"Generated text."`.  The lower-casing of
this and of the other sample backends is `toLowerCase`, which is exact on the texts without
letters outside ASCII that the examples use. -/
def steadyBackend : Backend where
  hasLanguageModel := true
  hasSummarizer := true
  hasTranslator := true
  hasLegacySummarizer := true
  valueReply := fun _ => .ok (.str "after-download")
  textReply := fun _ => .ok (utf16 "Generated text.")
  unitReply := fun _ => .ok ()
  toLowerCase := WebBriefer.toLowerCase

/-- A backend on which every `destroy` throws and every other call succeeds; a prompt is
answered with `"Language model output."`, the other text calls with
`"Generated text."`. -/
def destroyFailsBackend : Backend where
  hasLanguageModel := true
  hasSummarizer := true
  hasTranslator := true
  hasLegacySummarizer := true
  valueReply := fun _ => .ok (.str "after-download")
  textReply := fun history =>
    match history.getLast? with
    | some (.prompt _ _) => .ok (utf16 "Language model output.")
    | _ => .ok (utf16 "Generated text.")
  unitReply := fun history =>
    match history.getLast? with
    | some (.destroy _ _) => .error "destroy failed"
    | _ => .ok ()
  toLowerCase := WebBriefer.toLowerCase

/-- A backend on which every call throws. -/
def failingBackend : Backend where
  hasLanguageModel := true
  hasSummarizer := true
  hasTranslator := true
  hasLegacySummarizer := true
  valueReply := fun _ => .error "backend failure"
  textReply := fun _ => .error "backend failure"
  unitReply := fun _ => .error "backend failure"
  toLowerCase := WebBriefer.toLowerCase

/-- A backend on which the summarizer works and every call of the translator and of the
language model throws. -/
def summarizerOnlyBackend : Backend where
  hasLanguageModel := true
  hasSummarizer := true
  hasTranslator := true
  hasLegacySummarizer := true
  valueReply := fun _ => .ok (.str "after-download")
  textReply := fun history =>
    match history.getLast? with
    | some (.summarize _ _) => .ok (utf16 "Generated text.")
    | _ => .error "backend failure"
  unitReply := fun history =>
    match history.getLast? with
    | some (.create .summarizer) => .ok ()
    | some (.destroy .summarizer _) => .ok ()
    | _ => .error "backend failure"
  toLowerCase := WebBriefer.toLowerCase

/-- A user profile with the given preferred language. -/
def sampleProfile (preferredLanguage : String) : UserProfile :=
  { age := 30, occupation := utf16 "engineer", education := utf16 "bachelor",
    summaryStyle := utf16 "balanced", preferredLanguage := preferredLanguage,
    contentFocus := { keyPoints := true, numbers := false, quotes := false, actions := false } }

/-- A page content with the given `raw` text, one heading and no paragraph. -/
def sampleContent (raw : Option JSString) : PageContent :=
  { url := utf16 "https://example.org/post", title := utf16 "A post",
    text := some { raw := raw, paragraphs := [],
                   headings := [{ level := 1, text := utf16 "Topic", id := none }],
                   readingTime := 1, wordCount := 2 } }

/-! ## The local synthesizers in the words of the specification -/

/-- `countWords(text)` of the worker for any argument: `none` is a value that is not a
string.  The function `countWords` of `src/popup.js` has the same body. -/
def countWordsOf : Option JSString → Nat
  | none => 0
  | some text => countWords text

/-- The replacement `text.replace(/[*•\-]/g, ' ')`. -/
def replaceMarkup (text : JSString) : JSString :=
  text.map fun u => if u = 42 ∨ u = 8226 ∨ u = 45 then 32 else u

/-- Follows the specification's words: the number of whitespace-separated tokens that
contain a letter `A`..`Z`, `a`..`z`, a digit or an underscore, after replacing each `*`,
`•` and `-` by a space. -/
def semanticTokenCount (text : JSString) : Nat :=
  ((whitespaceTokens (replaceMarkup text)).filter fun token => token.any isWordChar).length

/-- Follows the specification's words: a paragraph of the section "Main Points",
unchanged if it has at most 200 characters and otherwise cut to its first 200 characters
followed by `'...'`. -/
def shortenParagraph (paragraph : JSString) : JSString :=
  if paragraph.length ≤ 200 then paragraph else paragraph.take 200 ++ utf16 "..."

/-- Follows the specification's words: the header, the section "Key Topics" with the
texts of the first five headings if there is a heading, the section "Main Points" with
the first three paragraphs if there is a paragraph, and the two metric lines. -/
def basicSummaryText (title : JSString) (text : TextData) : JSString :=
  utf16 "# Summary of " ++ title ++ utf16 "\n\n" ++
  (if text.headings = [] then []
   else utf16 "## Key Topics:\n" ++
    ((text.headings.take 5).flatMap fun heading => utf16 "- " ++ heading.text ++ utf16 "\n") ++
    utf16 "\n") ++
  (if text.paragraphs = [] then []
   else utf16 "## Main Points:\n" ++
    ((text.paragraphs.take 3).flatMap fun paragraph =>
      shortenParagraph paragraph ++ utf16 "\n\n")) ++
  utf16 "\n**Reading Time:** " ++ utf16 (toString text.readingTime) ++ utf16 " minutes\n" ++
  utf16 "**Word Count:** " ++ utf16 (toString text.wordCount) ++ utf16 " words"

/-- The local `truncatedText` of `createSummaryPrompt`: the text embedded in the prompt. -/
def truncatedText (content : PageContent) : JSString :=
  let textContent := content.textContent
  if textContent.length > 4000 then textContent.take 4000 ++ utf16 "..." else textContent

/-- The message of `generateBasicAnswer` for a summary that is absent or not a string. -/
def noSummaryAvailable : JSString :=
  utf16 ("I don't have a summary available to answer your question. " ++
    "Please try generating a summary first.")

/-- The fixed message of `generateBasicAnswer` when it finds nothing to answer with. -/
def notEnoughInformation : JSString :=
  utf16 ("I don't have enough information in the summary to answer that specific " ++
    "question. You might want to read the full article for more details.")

/-- Follows the specification's words: the lower-cased question contains one of the
interrogative keywords. -/
def hasQuestionKeyword (lower : JSString → JSString) (question : JSString) : Bool :=
  questionKeywords.any fun keyword => includes (lower question) keyword

/-- Follows the specification's words: the sentence contains, case-insensitively and as
a substring, a space-separated word of the question that is longer than 3 characters. -/
def sharesWord (lower : JSString → JSString) (question sentence : JSString) : Bool :=
  (question.splitOnP fun u => u == 32).any fun word =>
    decide (3 < word.length) && includes (lower sentence) (lower word)

/-- Follows the specification's words: the sentences of the summary, which are its
pieces between the runs of the marks `.`, `!` and `?`, that share a word with the
question, in the order of the summary. -/
def relevantSentences (lower : JSString → JSString) (question summary : JSString) :
    List JSString :=
  (splitRuns isSentenceEnd summary).filter (sharesWord lower question)

/-! ## Sessions -/

/-- A computation keeps a stored session: from every state whose session registry holds
a session, the registry holds the same session afterwards. -/
def KeepsSession {α : Type} (m : Run α) : Prop :=
  ∀ (w : World) (session : Nat),
    w.aiSessions = some session → (m w).2.aiSessions = some session

/-- A backend on which `create` and `destroy` succeed and every `summarize`, `translate`
and `prompt` throws. -/
def textFailsBackend : Backend where
  hasLanguageModel := true
  hasSummarizer := true
  hasTranslator := true
  hasLegacySummarizer := true
  valueReply := fun _ => .ok (.str "after-download")
  textReply := fun _ => .error "text call failed"
  unitReply := fun _ => .ok ()
  toLowerCase := WebBriefer.toLowerCase

/-! ## The popup

The part of `src/popup.js` (class `WebBrieferPopup`) that stores the summary and asks a
question about it. -/

/-- The fields of the popup that take part: `pageContent`, `userProfile` (loaded) and
`currentSummary`, which is `null` until a summary has been received. -/
structure Popup where
  pageContent : Option PageContent
  userProfile : UserProfile
  currentSummary : Option SummaryRecord
deriving DecidableEq

/-- The value of `this.currentSummary` as the field `summary` of a request. -/
def Popup.summaryArg (popup : Popup) : SummaryArg :=
  match popup.currentSummary with
  | none => .absent
  | some summary => .record summary

/-- The call `chrome.runtime.sendMessage(request)` answered by the worker: the response
sent and the next state of the worker. -/
def sendMessage (b : Backend) (now : String) (request : Request) (w : World) :
    Response × World :=
  let step := handleMessage b now request w
  (match step.1 with
    | .ok response => response
    | .error message => Response.plainFailure message,
   step.2)

/-- `generateSummary()` of the popup: the request is sent and the summary of a successful
response is stored in `currentSummary`. -/
def Popup.generateSummary (b : Backend) (now : String) (popup : Popup) (w : World) :
    Popup × World :=
  let reply := sendMessage b now (.generateSummary popup.pageContent popup.userProfile) w
  (match reply.1 with
    | .summary summary => { popup with currentSummary := some summary }
    | _ => popup,
   reply.2)

/-- `askQuestion()` of the popup for the content `input` of the question field: nothing
is sent for a blank input, otherwise the response of the worker. -/
def Popup.askQuestion (b : Backend) (now : String) (popup : Popup) (input : JSString)
    (w : World) : Option Response × World :=
  let question := trim input
  if question = [] then (none, w)
  else
    let reply := sendMessage b now
      (.answerQuestion question popup.summaryArg popup.pageContent popup.userProfile) w
    (some reply.1, reply.2)

/-- A capability record in which only the summarizer is present, with status
`'available'`. -/
def summarizerOnlyCapabilities : Capabilities :=
  { languageModel := false, summarizer := true, translator := false,
    languageModelStatus := .undefined, summarizerStatus := .str "available",
    translatorStatus := .undefined }

/-- A popup that has extracted the sample content and has no summary yet. -/
def samplePopup : Popup :=
  { pageContent := some (sampleContent (some (utf16 "Some readable text."))),
    userProfile := sampleProfile "en", currentSummary := none }

end Background

/-! # Theorems -/

/-! ## Whitespace clean-up -/

theorem removeNoiseFrom_of_noiseFree (s : JSString) :
    ∀ before, noiseFreeFrom before s = true → removeNoiseFrom 0 before s = s := by
  induction s with
  | nil => intro before _; rfl
  | cons c cs ih =>
    intro before h
    simp only [noiseFreeFrom, Bool.and_eq_true, Option.isNone_iff_eq_none] at h
    simp only [removeNoiseFrom, h.1, ih _ h.2]

theorem isCollapsedFrom_collapseFrom (s : JSString) :
    ∀ b, isCollapsedFrom b (collapseFrom b s) = true := by
  induction s with
  | nil => intro b; rfl
  | cons c cs ih =>
    intro b
    by_cases hc : isSpace c = true
    · cases b
      · have h32 : isSpace 32 = true := by decide
        simp [collapseFrom, hc, isCollapsedFrom, h32, ih true]
      · simp [collapseFrom, hc, ih true]
    · simp [collapseFrom, hc, isCollapsedFrom, ih false]

theorem collapseFrom_of_isCollapsedFrom (s : JSString) :
    ∀ b, isCollapsedFrom b s = true → collapseFrom b s = s := by
  induction s with
  | nil => intro b _; rfl
  | cons c cs ih =>
    intro b h
    by_cases hc : isSpace c = true
    · simp only [isCollapsedFrom, hc, if_true, Bool.and_eq_true, Bool.not_eq_true',
        beq_iff_eq] at h
      obtain ⟨⟨hb, h32⟩, hrest⟩ := h
      subst hb
      subst h32
      simp [collapseFrom, hc, ih true hrest]
    · simp only [isCollapsedFrom, hc] at h
      simp only [Bool.false_eq_true, if_false] at h
      simp [collapseFrom, hc, ih false h]

theorem isCollapsedFrom_weaken (s : JSString) :
    isCollapsedFrom true s = true → isCollapsedFrom false s = true := by
  cases s with
  | nil => intro _; rfl
  | cons c cs =>
    by_cases hc : isSpace c = true <;> simp [isCollapsedFrom, hc]

theorem isCollapsedFrom_append_left (s t : JSString) :
    ∀ b, isCollapsedFrom b (s ++ t) = true → isCollapsedFrom b s = true := by
  induction s with
  | nil => intro b _; rfl
  | cons c cs ih =>
    intro b h
    by_cases hc : isSpace c = true
    · simp only [List.cons_append, isCollapsedFrom, hc, if_true, Bool.and_eq_true] at h ⊢
      exact ⟨h.1, ih true h.2⟩
    · simp only [List.cons_append, isCollapsedFrom, hc] at h ⊢
      simp only [Bool.false_eq_true, if_false] at h ⊢
      exact ih false h

theorem isCollapsedFrom_dropWhile (s : JSString) :
    ∀ b, isCollapsedFrom b s = true → isCollapsedFrom false (s.dropWhile isSpace) = true := by
  induction s with
  | nil => intro b _; rfl
  | cons c cs ih =>
    intro b h
    by_cases hc : isSpace c = true
    · simp only [isCollapsedFrom, hc, if_true, Bool.and_eq_true] at h
      simp only [List.dropWhile_cons, hc, if_true]
      exact ih true h.2
    · have h2 := h
      simp only [isCollapsedFrom, hc] at h2
      simp only [Bool.false_eq_true, if_false] at h2
      simp only [List.dropWhile_cons, hc]
      simp only [Bool.false_eq_true, if_false]
      simp only [isCollapsedFrom, hc]
      simpa using h2

theorem trim_eq_rdropWhile (s : JSString) :
    trim s = (s.dropWhile isSpace).rdropWhile isSpace := rfl

theorem isCollapsedFrom_trim (s : JSString) (h : isCollapsedFrom false s = true) :
    isCollapsedFrom false (trim s) = true := by
  have h1 := isCollapsedFrom_dropWhile s false h
  obtain ⟨t, ht⟩ := List.rdropWhile_prefix isSpace (s.dropWhile isSpace)
  rw [trim_eq_rdropWhile]
  apply isCollapsedFrom_append_left _ t
  rw [ht]; exact h1

theorem trim_trim (s : JSString) : trim (trim s) = trim s := by
  have key : (trim s).dropWhile isSpace = trim s := by
    rw [trim_eq_rdropWhile]
    obtain ⟨t, ht⟩ := List.rdropWhile_prefix isSpace (s.dropWhile isSpace)
    generalize hr : (s.dropWhile isSpace).rdropWhile isSpace = r at ht
    cases r with
    | nil => rfl
    | cons a r =>
      have hd : (s.dropWhile isSpace).head? = some a := by rw [← ht]; rfl
      have := List.head?_dropWhile_not isSpace s
      rw [hd] at this
      simp only [List.dropWhile_cons]
      simp at this
      simp [this]
  rw [trim_eq_rdropWhile (trim s), key, trim_eq_rdropWhile, List.rdropWhile_idempotent]

theorem trim_collapse_fixed (x : JSString) :
    trim (collapseWhitespace (trim (collapseWhitespace x))) = trim (collapseWhitespace x) := by
  have h : isCollapsedFrom false (trim (collapseWhitespace x)) = true :=
    isCollapsedFrom_trim _ (isCollapsedFrom_collapseFrom x false)
  have h2 : collapseWhitespace (trim (collapseWhitespace x)) = trim (collapseWhitespace x) :=
    collapseFrom_of_isCollapsedFrom _ false h
  rw [h2, trim_trim]

/-! ## The noise removal is idempotent -/

theorem noisePhrases_shape : ∀ p ∈ noisePhrases, phraseShape p = true := by decide

theorem isWordChar_canonicalize (u : Nat) : isWordChar (canonicalize u) = isWordChar u := by
  unfold canonicalize
  split_ifs with h
  · simp only [Bool.and_eq_true, decide_eq_true_eq] at h
    have h1 : isWordChar u = true := by
      simp only [isWordChar, Bool.or_eq_true, Bool.and_eq_true, decide_eq_true_eq, beq_iff_eq]
      omega
    have h2 : isWordChar (u - 32) = true := by
      simp only [isWordChar, Bool.or_eq_true, Bool.and_eq_true, decide_eq_true_eq, beq_iff_eq]
      omega
    rw [h1, h2]
  · rfl

theorem isWordChar_eq_of_canonicalize_eq {u v : Nat} (h : canonicalize u = canonicalize v) :
    isWordChar u = isWordChar v := by
  rw [← isWordChar_canonicalize u, ← isWordChar_canonicalize v, h]

theorem matchLiteral_eq_drop (p : JSString) :
    ∀ s rest, matchLiteral p s = some rest → rest = s.drop p.length ∧ p.length ≤ s.length := by
  induction p with
  | nil => intro s rest h; simp only [matchLiteral, Option.some.injEq] at h; simp [h]
  | cons q qs ih =>
    intro s rest h
    cases s with
    | nil => simp [matchLiteral] at h
    | cons c cs =>
      simp only [matchLiteral] at h
      split_ifs at h with hc
      obtain ⟨h1, h2⟩ := ih cs rest h
      exact ⟨by simpa using h1, by simpa using h2⟩

theorem matchNoiseAt_eq_some {before : Option Nat} {s : JSString} {n : Nat}
    (h : matchNoiseAt before s = some n) :
    wordBoundary before s.head? = true ∧
    ∃ p ∈ noisePhrases, ∃ rest, matchLiteral p s = some rest ∧
      wordBoundary p.getLast? rest.head? = true ∧ n = p.length := by
  unfold matchNoiseAt at h
  split_ifs at h with hb
  refine ⟨hb, ?_⟩
  obtain ⟨p, hp, hf⟩ := List.exists_of_findSome?_eq_some h
  refine ⟨p, hp, ?_⟩
  cases hm : matchLiteral p s with
  | none => simp [hm] at hf
  | some rest =>
    simp only [hm] at hf
    split_ifs at hf with hw
    exact ⟨rest, rfl, hw, by simpa using hf.symm⟩

/-- A match starts after a code unit outside `\w` (or at the start), is not empty, and
is followed by a code unit outside `\w` (or by the end). -/
theorem matchNoiseAt_shape {before : Option Nat} {s : JSString} {n : Nat}
    (h : matchNoiseAt before s = some n) :
    isWordAt before = false ∧ 1 ≤ n ∧ n ≤ s.length ∧ isWordAt (s.drop n).head? = false := by
  obtain ⟨hb, p, hp, rest, hm, hw, rfl⟩ := matchNoiseAt_eq_some h
  have hshape := noisePhrases_shape p hp
  cases p with
  | nil => simp [phraseShape] at hshape
  | cons p1 ps =>
    simp only [phraseShape, Bool.and_eq_true] at hshape
    obtain ⟨⟨hp1, _⟩, hlast⟩ := hshape
    obtain ⟨hrest, hlen⟩ := matchLiteral_eq_drop _ _ _ hm
    cases s with
    | nil => simp [matchLiteral] at hm
    | cons c cs =>
      simp only [matchLiteral] at hm
      split_ifs at hm with hc
      have hcw : isWordChar c = true := by rw [← isWordChar_eq_of_canonicalize_eq hc]; exact hp1
      refine ⟨?_, by simp, hlen, ?_⟩
      · simp only [wordBoundary, List.head?_cons, isWordAt, hcw] at hb
        simpa using hb
      · rw [← hrest]
        simp only [wordBoundary, hlast] at hw
        simpa using hw

theorem matchNoiseAt_of_not_word (before : Option Nat) (c : Nat) (cs : JSString)
    (hc : isWordChar c = false) : matchNoiseAt before (c :: cs) = none := by
  cases h : matchNoiseAt before (c :: cs) with
  | none => rfl
  | some n =>
    obtain ⟨_, p, hp, rest, hm, _, _⟩ := matchNoiseAt_eq_some h
    have hshape := noisePhrases_shape p hp
    cases p with
    | nil => simp [phraseShape] at hshape
    | cons p1 ps =>
      simp only [phraseShape, Bool.and_eq_true] at hshape
      simp only [matchLiteral] at hm
      split_ifs at hm with hcc
      rw [isWordChar_eq_of_canonicalize_eq hcc, hc] at hshape
      simp at hshape

theorem removeNoiseFrom_skip (s : JSString) :
    ∀ k before, ∃ b, removeNoiseFrom k before s = removeNoiseFrom 0 b (s.drop k) := by
  induction s with
  | nil => intro k before; exact ⟨before, by cases k <;> simp [removeNoiseFrom]⟩
  | cons c cs ih =>
    intro k before
    cases k with
    | zero => exact ⟨before, rfl⟩
    | succ k =>
      obtain ⟨b, hb⟩ := ih k (some c)
      exact ⟨b, by simpa [removeNoiseFrom] using hb⟩

/-- If a pattern without adjacent separators matches the text left by the noise removal,
after a kept code unit, and is followed by a non-word unit, then it matches the original
text in the same way. -/
theorem matchLiteral_of_removeNoise (qs : JSString) :
    ∀ (q0 b : Nat) (s rest' : JSString), wordSeparated q0 qs = true →
      isWordChar b = isWordChar q0 →
      matchLiteral qs (removeNoiseFrom 0 (some b) s) = some rest' →
      isWordAt rest'.head? = false →
      ∃ rest, matchLiteral qs s = some rest ∧ isWordAt rest.head? = false := by
  induction qs with
  | nil =>
    intro q0 b s rest' hsep hb hm hw
    simp only [wordSeparated] at hsep
    simp only [matchLiteral, Option.some.injEq] at hm
    refine ⟨s, rfl, ?_⟩
    cases s with
    | nil => rfl
    | cons c cs =>
      by_cases hc : isWordChar c = true
      · have hnone : matchNoiseAt (some b) (c :: cs) = none := by
          simp [matchNoiseAt, wordBoundary, isWordAt, hb, hsep, hc]
        rw [← hm] at hw
        simp [removeNoiseFrom, hnone, isWordAt, hc] at hw
      · simpa [isWordAt] using hc
  | cons q qs ih =>
    intro q0 b s rest' hsep hb hm hw
    simp only [wordSeparated, Bool.and_eq_true, Bool.or_eq_true] at hsep
    obtain ⟨hq0q, hsep'⟩ := hsep
    cases s with
    | nil => simp [removeNoiseFrom, matchLiteral] at hm
    | cons c cs =>
      cases hM : matchNoiseAt (some b) (c :: cs) with
      | some n =>
        exfalso
        obtain ⟨hbw, hn1, hn2, hdrop⟩ := matchNoiseAt_shape hM
        have hq0 : isWordChar q0 = false := by
          rw [← hb]; simpa [isWordAt] using hbw
        have hq : isWordChar q = true := by
          rcases hq0q with h | h
          · rw [hq0] at h; exact absurd h (by simp)
          · exact h
        obtain ⟨b2, hskip⟩ := removeNoiseFrom_skip cs (n - 1) (some c)
        have hout : removeNoiseFrom 0 (some b) (c :: cs) = removeNoiseFrom 0 b2 (cs.drop (n - 1)) := by
          simp only [removeNoiseFrom, hM]; exact hskip
        have hdrop' : (c :: cs).drop n = cs.drop (n - 1) := by
          obtain ⟨m, rfl⟩ : ∃ m, n = m + 1 := ⟨n - 1, by omega⟩
          simp
        rw [hdrop'] at hdrop
        rw [hout] at hm
        cases hd : cs.drop (n - 1) with
        | nil => rw [hd] at hm; simp [removeNoiseFrom, matchLiteral] at hm
        | cons d ds =>
          rw [hd] at hm hdrop
          have hdw : isWordChar d = false := by simpa [isWordAt] using hdrop
          have hnone := matchNoiseAt_of_not_word b2 d ds hdw
          simp only [removeNoiseFrom, hnone, matchLiteral] at hm
          split_ifs at hm with hcc
          rw [isWordChar_eq_of_canonicalize_eq hcc, hdw] at hq
          exact absurd hq (by simp)
      | none =>
        simp only [removeNoiseFrom, hM, matchLiteral] at hm
        split_ifs at hm with hcc
        obtain ⟨rest, hr, hrw⟩ := ih q c cs rest' hsep'
          (isWordChar_eq_of_canonicalize_eq hcc).symm hm hw
        exact ⟨rest, by simp [matchLiteral, hcc, hr], hrw⟩

/-- Removing the matches that start later creates no match at a position that had none. -/
theorem matchNoiseAt_removeNoise_tail (before : Option Nat) (c : Nat) (cs : JSString)
    (h : matchNoiseAt before (c :: cs) = none) :
    matchNoiseAt before (c :: removeNoiseFrom 0 (some c) cs) = none := by
  unfold matchNoiseAt at h ⊢
  simp only [List.head?_cons] at h ⊢
  split_ifs at h ⊢ with hb
  swap
  · rfl
  rw [List.findSome?_eq_none_iff] at h ⊢
  intro p hp
  have hin := h p hp
  have hshape := noisePhrases_shape p hp
  cases p with
  | nil => simp [phraseShape] at hshape
  | cons p1 ps =>
    simp only [phraseShape, Bool.and_eq_true] at hshape
    obtain ⟨⟨_, hsep⟩, hlast⟩ := hshape
    cases hm : matchLiteral (p1 :: ps) (c :: removeNoiseFrom 0 (some c) cs) with
    | none => rfl
    | some rest' =>
      simp only []
      by_cases hw : wordBoundary (p1 :: ps).getLast? rest'.head? = true
      · exfalso
        have hw' : isWordAt rest'.head? = false := by
          simp only [wordBoundary, hlast] at hw
          simpa using hw
        simp only [matchLiteral] at hm
        split_ifs at hm with hcc
        obtain ⟨rest, hr, hrw⟩ := matchLiteral_of_removeNoise ps p1 c cs rest' hsep
          (isWordChar_eq_of_canonicalize_eq hcc).symm hm hw'
        have : wordBoundary (p1 :: ps).getLast? rest.head? = true := by
          simp [wordBoundary, hlast, hrw]
        simp [matchLiteral, hcc, hr, this] at hin
      · simp [hw]

/-- The text left by the noise removal contains no match of the noise pattern. -/
theorem noiseFreeFrom_removeNoiseFrom (n : Nat) :
    ∀ s : JSString, s.length ≤ n →
      (∀ before, noiseFreeFrom before (removeNoiseFrom 0 before s) = true) ∧
      (isWordAt s.head? = false → ∀ b b', isWordAt b' = false →
        noiseFreeFrom b' (removeNoiseFrom 0 b s) = true) := by
  induction n with
  | zero =>
    intro s hs
    have : s = [] := List.length_eq_zero.mp (Nat.le_zero.mp hs)
    subst this
    exact ⟨fun _ => rfl, fun _ _ _ _ => rfl⟩
  | succ n ih =>
    intro s hs
    cases s with
    | nil => exact ⟨fun _ => rfl, fun _ _ _ _ => rfl⟩
    | cons c cs =>
      have hcs : cs.length ≤ n := by simpa using hs
      constructor
      · intro before
        cases hM : matchNoiseAt before (c :: cs) with
        | none =>
          simp only [removeNoiseFrom, hM, noiseFreeFrom, Bool.and_eq_true,
            Option.isNone_iff_eq_none]
          exact ⟨matchNoiseAt_removeNoise_tail before c cs hM, (ih cs hcs).1 (some c)⟩
        | some k =>
          obtain ⟨hbw, hk1, _, hdrop⟩ := matchNoiseAt_shape hM
          obtain ⟨b2, hskip⟩ := removeNoiseFrom_skip cs (k - 1) (some c)
          have hdrop' : (c :: cs).drop k = cs.drop (k - 1) := by
            obtain ⟨m, rfl⟩ : ∃ m, k = m + 1 := ⟨k - 1, by omega⟩
            simp
          rw [hdrop'] at hdrop
          simp only [removeNoiseFrom, hM]
          rw [hskip]
          exact (ih (cs.drop (k - 1)) (by simp; omega)).2 hdrop b2 before hbw
      · intro hhead b b' hb'
        have hc : isWordChar c = false := by simpa [isWordAt] using hhead
        have h1 := matchNoiseAt_of_not_word b c cs hc
        simp only [removeNoiseFrom, h1, noiseFreeFrom, Bool.and_eq_true,
          Option.isNone_iff_eq_none]
        exact ⟨matchNoiseAt_of_not_word b' c _ hc, (ih cs hcs).1 (some c)⟩

theorem noiseFree_removeNoise (s : JSString) : noiseFree (removeNoise s) = true :=
  (noiseFreeFrom_removeNoiseFrom s.length s (le_refl _)).1 none

theorem removeNoise_idempotent (s : JSString) : removeNoise (removeNoise s) = removeNoise s :=
  removeNoiseFrom_of_noiseFree _ none (noiseFree_removeNoise s)

theorem removeNoiseFrom_sublist (s : JSString) :
    ∀ k before, (removeNoiseFrom k before s).Sublist s := by
  induction s with
  | nil => intro k before; cases k <;> simp [removeNoiseFrom]
  | cons c cs ih =>
    intro k before
    cases k with
    | succ k => exact (ih k (some c)).cons c
    | zero =>
      cases hM : matchNoiseAt before (c :: cs) with
      | some n => simp only [removeNoiseFrom, hM]; exact (ih (n - 1) (some c)).cons c
      | none => simp only [removeNoiseFrom, hM]; exact (ih 0 (some c)).cons₂ c

theorem space_eq_of_isCollapsedFrom (s : JSString) :
    ∀ b, isCollapsedFrom b s = true → ∀ c ∈ s, isSpace c = true → c = 32 := by
  induction s with
  | nil => intro b _ c hc; simp at hc
  | cons a as ih =>
    intro b h c hc hsp
    by_cases ha : isSpace a = true
    · simp only [isCollapsedFrom, ha, if_true, Bool.and_eq_true, beq_iff_eq] at h
      rcases List.mem_cons.mp hc with rfl | hc'
      · exact h.1.2
      · exact ih true h.2 c hc' hsp
    · simp only [isCollapsedFrom, ha] at h
      rcases List.mem_cons.mp hc with rfl | hc'
      · exact absurd hsp ha
      · exact ih false (by simpa using h) c hc' hsp

theorem isCollapsedFrom_of_noSpaceRun (s : JSString) (h32 : ∀ c ∈ s, isSpace c = true → c = 32) :
    noSpaceRun s = true →
      isCollapsedFrom false s = true ∧
      (s.head?.all (fun c => !isSpace c) = true → isCollapsedFrom true s = true) := by
  induction s with
  | nil => intro _; exact ⟨rfl, fun _ => rfl⟩
  | cons a as ih =>
    intro hrun
    have h32' : ∀ c ∈ as, isSpace c = true → c = 32 := fun c hc => h32 c (by simp [hc])
    have hrun' : noSpaceRun as = true := by
      cases as with
      | nil => rfl
      | cons b bs =>
        simp only [noSpaceRun, Bool.and_eq_true] at hrun
        exact hrun.2
    obtain ⟨ih1, ih2⟩ := ih h32' hrun'
    by_cases ha : isSpace a = true
    · have ha32 : a = 32 := h32 a (by simp) ha
      have hnext : as.head?.all (fun c => !isSpace c) = true := by
        cases as with
        | nil => rfl
        | cons b bs =>
          simp only [noSpaceRun, Bool.and_eq_true, Bool.not_eq_true', Bool.and_eq_false_iff] at hrun
          rcases hrun.1 with h | h
          · rw [ha] at h; exact absurd h (by simp)
          · simp [h]
      constructor
      · simp only [isCollapsedFrom, ha, if_true, Bool.and_eq_true, beq_iff_eq]
        exact ⟨⟨rfl, ha32⟩, ih2 hnext⟩
      · intro hh
        simp [ha] at hh
    · constructor
      · simp only [isCollapsedFrom, ha]
        simpa using ih1
      · intro _
        simp only [isCollapsedFrom, ha]
        simpa using ih1

theorem trim_of_whitespaceNormalized (s : JSString) (h : whitespaceNormalized s = true) :
    trim s = s := by
  simp only [whitespaceNormalized, Bool.and_eq_true] at h
  obtain ⟨⟨hhead, hlast⟩, _⟩ := h
  have h1 : s.dropWhile isSpace = s := by
    cases s with
    | nil => rfl
    | cons a as =>
      have : isSpace a = false := by simpa using hhead
      simp [List.dropWhile_cons, this]
  rw [trim_eq_rdropWhile, h1, List.rdropWhile_eq_self_iff]
  intro hne
  rw [List.getLast?_eq_getLast _ hne] at hlast
  simpa using hlast

theorem noSpaceRun_of_isCollapsedFrom (s : JSString) :
    ∀ b, isCollapsedFrom b s = true → noSpaceRun s = true := by
  induction s with
  | nil => intro _ _; rfl
  | cons a as ih =>
    intro b h
    cases as with
    | nil => rfl
    | cons c cs =>
      by_cases ha : isSpace a = true
      · simp only [isCollapsedFrom, ha, if_true, Bool.and_eq_true] at h
        have hrest := h.2
        have hc : isSpace c = false := by
          by_contra hc
          have hc' : isSpace c = true := by simpa using hc
          simp [isCollapsedFrom, hc'] at hrest
        simp only [noSpaceRun, hc, Bool.and_false, Bool.not_false, Bool.true_and]
        exact ih true h.2
      · have h' : isCollapsedFrom false (c :: cs) = true := by
          simp only [isCollapsedFrom, ha] at h
          simpa [isCollapsedFrom] using h
        have ha' : isSpace a = false := by simpa using ha
        simp only [noSpaceRun, ha', Bool.false_and, Bool.not_false, Bool.true_and]
        exact ih false h'

/-- The whitespace clean-up alone gives a whitespace-normalized text. -/
theorem whitespaceNormalized_trim_collapse (x : JSString) :
    whitespaceNormalized (trim (collapseWhitespace x)) = true := by
  have hc : isCollapsedFrom false (trim (collapseWhitespace x)) = true :=
    isCollapsedFrom_trim _ (isCollapsedFrom_collapseFrom x false)
  have hfix := trim_trim (collapseWhitespace x)
  generalize trim (collapseWhitespace x) = y at hc hfix
  simp only [whitespaceNormalized, Bool.and_eq_true]
  refine ⟨⟨?_, ?_⟩, noSpaceRun_of_isCollapsedFrom y false hc⟩
  · cases y with
    | nil => rfl
    | cons a as =>
      by_cases ha : isSpace a = true
      · exfalso
        have hlen : (trim (a :: as)).length < (a :: as).length := by
          rw [trim_eq_rdropWhile, List.dropWhile_cons_of_pos ha]
          calc ((as.dropWhile isSpace).rdropWhile isSpace).length
              ≤ (as.dropWhile isSpace).length := (List.rdropWhile_prefix _ _).length_le
            _ ≤ as.length := (List.dropWhile_sublist _).length_le
            _ < (a :: as).length := by simp
        rw [hfix] at hlen
        exact absurd hlen (lt_irrefl _)
      · simpa using ha
  · cases hl : y.getLast? with
    | none => rfl
    | some a =>
      by_cases ha : isSpace a = true
      · exfalso
        have hne : y ≠ [] := by intro h0; rw [h0] at hl; simp at hl
        have h2 : (y.dropWhile isSpace).rdropWhile isSpace = y := hfix
        have h3 : ((y.dropWhile isSpace).rdropWhile isSpace).rdropWhile isSpace = y := by
          rw [List.rdropWhile_idempotent]; exact h2
        rw [h2, List.rdropWhile_eq_self_iff] at h3
        have := h3 hne
        rw [List.getLast?_eq_getLast _ hne, Option.some.injEq] at hl
        rw [hl] at this
        exact this ha
      · simpa using ha

/-- When no noise phrase occurs in the cleaned-up text, the normalized text is
whitespace-normalized. -/
theorem whitespaceNormalized_normalize_of_noiseFree (x : JSString)
    (h : noiseFree (trim (collapseWhitespace x)) = true) :
    whitespaceNormalized (normalize x) = true := by
  have hfix : removeNoise (trim (collapseWhitespace x)) = trim (collapseWhitespace x) :=
    removeNoiseFrom_of_noiseFree _ none h
  unfold normalize
  rw [hfix]
  exact whitespaceNormalized_trim_collapse x

/-! ## Claims on the normalizer -/

/-- C1 (as amended): on every input whose normalized text is whitespace-normalized (no
leading or trailing whitespace and no run of two or more whitespace units), the
normalization of `extractCleanText` is idempotent. -/
theorem normalize_idempotent_of_whitespaceNormalized (x : JSString)
    (h : whitespaceNormalized (normalize x) = true) : normalize (normalize x) = normalize x := by
  have hy : isCollapsedFrom false (trim (collapseWhitespace x)) = true :=
    isCollapsedFrom_trim _ (isCollapsedFrom_collapseFrom x false)
  have h32 : ∀ c ∈ normalize x, isSpace c = true → c = 32 := by
    intro c hc hsp
    exact space_eq_of_isCollapsedFrom _ false hy c
      ((removeNoiseFrom_sublist _ 0 none).subset hc) hsp
  have hrun : noSpaceRun (normalize x) = true := by
    simp only [whitespaceNormalized, Bool.and_eq_true] at h
    exact h.2
  have hcol : collapseWhitespace (normalize x) = normalize x :=
    collapseFrom_of_isCollapsedFrom _ false (isCollapsedFrom_of_noSpaceRun _ h32 hrun).1
  have htrim : trim (normalize x) = normalize x := trim_of_whitespaceNormalized _ h
  have hstep : normalize (normalize x) = removeNoise (normalize x) := by
    conv_lhs => unfold normalize
    rw [show collapseWhitespace (removeNoise (trim (collapseWhitespace x))) =
      removeNoise (trim (collapseWhitespace x)) from hcol,
      show trim (removeNoise (trim (collapseWhitespace x))) =
      removeNoise (trim (collapseWhitespace x)) from htrim]
    rfl
  rw [hstep]
  exact removeNoise_idempotent _

/-- C1, witness: `"(Sponsored) a   b "` is normalized to `"() a b"`, which is
whitespace-normalized and a fixed point. -/
theorem normalize_idempotent_of_whitespaceNormalized_witness :
    whitespaceNormalized (normalize (utf16 "(Sponsored) a   b ")) = true ∧
    normalize (normalize (utf16 "(Sponsored) a   b ")) = normalize (utf16 "(Sponsored) a   b ") :=
  ⟨by decide, normalize_idempotent_of_whitespaceNormalized (utf16 "(Sponsored) a   b ")
    (by decide)⟩

/-- C1, counterexample: `"Click Sponsored here"` is normalized to `"Click  here"`, and
normalizing that again gives the empty string. -/
theorem normalize_not_idempotent :
    normalize (utf16 "Click Sponsored here") = utf16 "Click  here" ∧
    normalize (normalize (utf16 "Click Sponsored here")) = [] ∧
    normalize (normalize (utf16 "Click Sponsored here")) ≠
      normalize (utf16 "Click Sponsored here") := by
  decide

/-- C2, at the failing input: for a document whose main region has the text
`"a Advertisement b"`, the `raw` text built by `extractTextContent` is `"a  b"`, which
contains a run of two spaces and so is not whitespace-normalized, while the text
`"  a   b "` of the specification is cleaned to `"a b"`. -/
theorem extractTextContent_raw_keeps_whitespace_run :
    (extractTextContent (utf16 "example.org") noiseSample).raw = utf16 "a  b" ∧
    whitespaceNormalized (extractTextContent (utf16 "example.org") noiseSample).raw = false ∧
    extractCleanText (some (plainElem "p" [.text (utf16 "  a   b ")])) = utf16 "a b" := by
  decide

/-! ## Array loops -/

theorem foldl_enumFrom_push {α β : Type} (k : Nat) (f : α → List β)
    (body : List β → α → Nat → List β)
    (hbody : ∀ acc x i, body acc x i = if i ≥ k then acc else acc ++ f x) (xs : List α) :
    ∀ n acc, (xs.enumFrom n).foldl (fun acc p => body acc p.2 p.1) acc =
      acc ++ (xs.take (k - n)).flatMap f := by
  induction xs with
  | nil => intro n acc; simp
  | cons x xs ih =>
    intro n acc
    rw [List.enumFrom_cons, List.foldl_cons, ih]
    simp only [hbody]
    by_cases hn : n ≥ k
    · have h1 : k - n = 0 := by omega
      have h2 : k - (n + 1) = 0 := by omega
      simp [hn, h1, h2]
    · have h1 : k - n = (k - (n + 1)) + 1 := by omega
      rw [if_neg hn, h1, List.take_succ_cons]
      simp [List.flatMap_cons]

theorem forEachIdx_guarded {α β : Type} (k : Nat) (f : α → List β)
    (body : List β → α → Nat → List β)
    (hbody : ∀ acc x i, body acc x i = if i ≥ k then acc else acc ++ f x)
    (xs : List α) (acc : List β) :
    forEachIdx xs body acc = acc ++ (xs.take k).flatMap f := by
  unfold forEachIdx List.enum
  rw [foldl_enumFrom_push k f body hbody xs 0 acc]
  simp

theorem forEachIdx_all {α β : Type} (f : α → List β) (body : List β → α → Nat → List β)
    (hbody : ∀ acc x i, body acc x i = acc ++ f x) (xs : List α) (acc : List β) :
    forEachIdx xs body acc = acc ++ xs.flatMap f := by
  have h := forEachIdx_guarded xs.length f
    (fun acc x i => if i ≥ xs.length then acc else body acc x i)
    (fun acc x i => by simp only [hbody]) xs acc
  rw [List.take_length] at h
  rw [← h]
  unfold forEachIdx List.enum
  apply List.foldl_ext
  intro acc p hp
  have := List.mem_enumFrom hp
  have hlt : ¬ p.1 ≥ xs.length := by omega
  simp only [hlt, if_false]

theorem foldl_push_flatMap {α β : Type} (g : α → List β) (l : List α) :
    ∀ acc, l.foldl (fun acc i => acc ++ g i) acc = acc ++ l.flatMap g := by
  induction l with
  | nil => intro acc; simp
  | cons x xs ih => intro acc; simp [List.foldl_cons, ih, List.flatMap_cons]

theorem flatMap_ite_singleton {α β : Type} (p : α → Bool) (g : α → β) (l : List α) :
    l.flatMap (fun x => if p x = true then [g x] else []) = (l.filter p).map g := by
  induction l with
  | nil => rfl
  | cons x xs ih =>
    by_cases hp : p x = true <;> simp [List.flatMap_cons, List.filter_cons, hp, ih]

theorem forEachIdx_filter {α β : Type} (k : Nat) (p : α → Bool) (g : α → β)
    (body : List β → α → Nat → List β)
    (hbody : ∀ acc x i, body acc x i =
      if i ≥ k then acc else if p x = true then acc ++ [g x] else acc)
    (xs : List α) :
    forEachIdx xs body [] = ((xs.take k).filter p).map g := by
  rw [← flatMap_ite_singleton,
    forEachIdx_guarded k (fun x => if p x = true then [g x] else []) body _ xs []]
  · simp
  · intro acc x i
    rw [hbody]
    by_cases hi : i ≥ k
    · simp [hi]
    · by_cases hp : p x = true <;> simp [hi, hp]

theorem forEachIdx_filter_all {α β : Type} (p : α → Bool) (g : α → β)
    (body : List β → α → Nat → List β)
    (hbody : ∀ acc x i, body acc x i = if p x = true then acc ++ [g x] else acc)
    (xs : List α) (acc : List β) :
    forEachIdx xs body acc = acc ++ (xs.filter p).map g := by
  rw [← flatMap_ite_singleton]
  apply forEachIdx_all
  intro acc x i
  rw [hbody]
  by_cases hp : p x = true <;> simp [hp]

/-! ## The extractors as list expressions -/

theorem extractLists_eq (el : Node) :
    extractLists (some el) =
      (((querySelectorAll el [.tag "ul", .tag "ol"]).take 5).filter fun list =>
        ((((querySelectorAll list [.tag "li"]).map fun li => extractCleanText (some li)).filter
          fun text => text.length > 0).take 10).length > 0).map fun list =>
        { type := list.tagLower
          items := (((querySelectorAll list [.tag "li"]).map fun li =>
            extractCleanText (some li)).filter fun text => text.length > 0).take 10 } := by
  unfold extractLists
  apply forEachIdx_filter
  intro acc x i
  by_cases hi : i ≥ 5
  · simp [hi]
  · simp only [hi, if_false, decide_eq_true_eq]

theorem extractQuotes_eq (el : Node) :
    extractQuotes (some el) =
      (((querySelectorAllWithParent el [.tag "blockquote", .tag "q", .cls "quote"]).take 5).filter
        fun quote => (extractCleanText (some quote.1)).length > 20).map fun quote =>
        { text := extractCleanText (some quote.1)
          author := extractQuoteAuthor quote.1 quote.2 } := by
  unfold extractQuotes
  apply forEachIdx_filter
  intro acc x i
  by_cases hi : i ≥ 5
  · simp [hi]
  · simp only [hi, if_false]
    split_ifs with h1 h2 h2
    · rfl
    · exact absurd h1.2 (by simpa using h2)
    · have : extractCleanText (some x.1) ≠ [] := by
        intro h0; rw [h0] at h2; simp at h2
      exact absurd ⟨this, by simpa using h2⟩ h1
    · rfl

theorem extractLinks_eq (hostname : JSString) (el : Node) :
    extractLinks hostname (some el) =
      (((querySelectorAll el [.tagAttr "a" "href"]).take 20).filter fun link =>
        decide (extractCleanText (some link) ≠ [] ∧ link.href ≠ [] ∧
          (stripStart (utf16 "javascript:") link.href).isNone = true)).map fun link =>
        { text := extractCleanText (some link), url := link.href,
          isExternal := !includes link.href hostname } := by
  unfold extractLinks
  apply forEachIdx_filter
  intro acc x i
  by_cases hi : i ≥ 20
  · simp [hi]
  · simp only [hi, if_false]
    split_ifs <;> simp_all

theorem extractHeadings_eq (el : Node) :
    extractHeadings (some el) =
      ((List.range' 1 6).flatMap fun i =>
        ((querySelectorAll el (headingSelector i)).filter fun h =>
          decide (extractCleanText (some h) ≠ [])).map fun h =>
          { level := i, text := extractCleanText (some h),
            id := if h.id = [] then none else some h.id }).take 10 := by
  unfold extractHeadings
  simp only []
  congr 1
  have h := foldl_push_flatMap (fun i =>
    ((querySelectorAll el (headingSelector i)).filter fun h =>
      decide (extractCleanText (some h) ≠ [])).map fun h =>
      ({ level := i, text := extractCleanText (some h),
         id := if h.id = [] then none else some h.id } : Heading)) (List.range' 1 6) []
  rw [List.nil_append] at h
  rw [← h]
  congr 1
  funext acc i
  apply forEachIdx_filter_all
  intro acc h _
  split_ifs <;> simp_all

/-! ## Claims on the extractor -/

/-- C3: for every primary content region (also the `null` region), the record built by
`extractTextContent` has at most 20 paragraphs, at most 10 headings, at most 5 lists
each with at most 10 items, at most 5 quotes and at most 20 links. -/
theorem buildExtractedText_caps (hostname : JSString) (mainContent : Option Node) :
    (buildExtractedText hostname mainContent).paragraphs.length ≤ 20 ∧
    (buildExtractedText hostname mainContent).headings.length ≤ 10 ∧
    (buildExtractedText hostname mainContent).lists.length ≤ 5 ∧
    (∀ l ∈ (buildExtractedText hostname mainContent).lists, l.items.length ≤ 10) ∧
    (buildExtractedText hostname mainContent).quotes.length ≤ 5 ∧
    (buildExtractedText hostname mainContent).links.length ≤ 20 := by
  cases mainContent with
  | none => simp [buildExtractedText, extractParagraphs, extractHeadings, extractLists,
      extractQuotes, extractLinks]
  | some el =>
    have hfilter : ∀ {α β : Type} (k : Nat) (xs : List α) (p : α → Bool) (g : α → β),
        (((xs.take k).filter p).map g).length ≤ k := by
      intro α β k xs p g
      rw [List.length_map]
      exact (List.length_filter_le _ _).trans (by simp)
    refine ⟨?_, ?_, ?_, ?_, ?_, ?_⟩
    · simp only [buildExtractedText, extractParagraphs, List.length_take]
      exact Nat.min_le_left _ _
    · simp only [buildExtractedText, extractHeadings_eq, List.length_take]
      exact Nat.min_le_left _ _
    · simp only [buildExtractedText, extractLists_eq]
      exact hfilter _ _ _ _
    · intro l hl
      simp only [buildExtractedText, extractLists_eq, List.mem_map] at hl
      obtain ⟨list, _, rfl⟩ := hl
      simp only [List.length_take]
      exact Nat.min_le_left _ _
    · simp only [buildExtractedText, extractQuotes_eq]
      exact hfilter _ _ _ _
    · simp only [buildExtractedText, extractLinks_eq]
      exact hfilter _ _ _ _

/-- C3, witness: the list of the sample region is extracted with its two items. -/
theorem buildExtractedText_caps_witness :
    ({ type := "ul", items := [utf16 "one", utf16 "two"] } : ListBlock) ∈
      (buildExtractedText [] (some articleSample)).lists ∧
    ({ type := "ul", items := [utf16 "one", utf16 "two"] } : ListBlock).items.length ≤ 10 :=
  ⟨by decide, (buildExtractedText_caps [] (some articleSample)).2.2.2.1 _ (by decide)⟩

/-- C4: `extractParagraphs` returns exactly the first 20, in document order, of the
cleaned `p` texts longer than 50 characters, or all of them when there are fewer than
20; so its length is the minimum of 20 and the number of qualifying paragraphs (20 when
there are 30), and every returned paragraph is longer than 50 characters. -/
theorem extractParagraphs_first_twenty (el : Node) :
    extractParagraphs (some el) = (qualifyingParagraphs el).take 20 ∧
    extractParagraphs (some el) <+: qualifyingParagraphs el ∧
    (extractParagraphs (some el)).length = min 20 (qualifyingParagraphs el).length ∧
    (∀ text ∈ extractParagraphs (some el), text.length > 50) := by
  have h : extractParagraphs (some el) = (qualifyingParagraphs el).take 20 := rfl
  refine ⟨h, ?_, ?_, ?_⟩
  · rw [h]; exact List.take_prefix _ _
  · rw [h, List.length_take]
  · intro text ht
    rw [h] at ht
    have hm := List.mem_of_mem_take ht
    simp only [qualifyingParagraphs, List.mem_filter, decide_eq_true_eq] at hm
    exact hm.2

/-- C4, witness: the long paragraph of the sample region is returned, the short one is
not. -/
theorem extractParagraphs_first_twenty_witness :
    utf16 "This paragraph is long enough to pass the length filter." ∈
      extractParagraphs (some articleSample) ∧
    (utf16 "This paragraph is long enough to pass the length filter.").length > 50 :=
  ⟨by decide, (extractParagraphs_first_twenty articleSample).2.2.2 _ (by decide)⟩

/-- C5 (as amended): `extractQuotes` looks only at the first 5 `blockquote`, `q` and
`.quote` elements of the region and returns, in document order, those of them whose
cleaned text is longer than 20 characters; so it returns at most 5 quotes, and as many
as there are elements among the first five when all of these are longer than 20
characters. -/
theorem extractQuotes_of_first_five_elements (el : Node) :
    extractQuotes (some el) =
      (((querySelectorAllWithParent el [.tag "blockquote", .tag "q", .cls "quote"]).take 5).filter
        fun quote => (extractCleanText (some quote.1)).length > 20).map (fun quote =>
        { text := extractCleanText (some quote.1)
          author := extractQuoteAuthor quote.1 quote.2 }) ∧
    (extractQuotes (some el)).length ≤ 5 ∧
    ((∀ quote ∈ (querySelectorAllWithParent el
          [.tag "blockquote", .tag "q", .cls "quote"]).take 5,
        (extractCleanText (some quote.1)).length > 20) →
      (extractQuotes (some el)).length =
        min 5 (querySelectorAllWithParent el [.tag "blockquote", .tag "q", .cls "quote"]).length) := by
  refine ⟨extractQuotes_eq el, ?_, ?_⟩
  · rw [extractQuotes_eq, List.length_map]
    exact (List.length_filter_le _ _).trans (by simp)
  · intro hall
    rw [extractQuotes_eq, List.length_map, List.filter_eq_self.mpr, List.length_take]
    intro quote hq
    simpa using hall quote hq

/-- C5, witness: in a region with eight quotes that are all longer than 20 characters,
the first five elements qualify and five quotes are returned. -/
theorem extractQuotes_of_first_five_elements_witness :
    (∀ quote ∈ (querySelectorAllWithParent longQuoteSample
          [.tag "blockquote", .tag "q", .cls "quote"]).take 5,
        (extractCleanText (some quote.1)).length > 20) ∧
    (extractQuotes (some longQuoteSample)).length = 5 :=
  ⟨by decide, ((extractQuotes_of_first_five_elements longQuoteSample).2.2 (by decide)).trans
    (by decide)⟩

/-- C5, counterexample: a region with one short quote followed by eight quotes longer
than 20 characters yields 4 quotes, not the first 5 of the qualifying ones; and a quote
of exactly 20 characters, which meets a minimum length of 20, is not returned. -/
theorem extractQuotes_short_quote_first :
    (extractQuotes (some quoteSample)).length = 4 ∧
    (quotesFirstFiveQualifying quoteSample).length = 5 ∧
    extractQuotes (some quoteSample) ≠ quotesFirstFiveQualifying quoteSample ∧
    extractQuotes (some boundaryQuoteSample) = [] ∧
    (quotesFirstFiveQualifying boundaryQuoteSample).map (fun quote => quote.text) =
      [utf16 "Exactly twenty chars"] := by
  decide

/-- C6 (as amended): `extractHeadings` returns the first 10 headings of the list grouped
by level (all `h1` with non-empty cleaned text in document order, then all `h2`, up to
`h6`), each with its level in 1..6, its non-empty text and its id or `null`; the levels
of the result never decrease, and its length is the minimum of 10 and the number of
such headings (10 when there are 12). -/
theorem extractHeadings_grouped_by_level (el : Node) :
    extractHeadings (some el) = (headingsByLevel el).take 10 ∧
    (extractHeadings (some el)).length = min 10 (headingsByLevel el).length ∧
    (extractHeadings (some el)).Pairwise (fun a b => a.level ≤ b.level) ∧
    (∀ h ∈ extractHeadings (some el), 1 ≤ h.level ∧ h.level ≤ 6 ∧ h.text ≠ []) := by
  have h : extractHeadings (some el) = (headingsByLevel el).take 10 := extractHeadings_eq el
  refine ⟨h, ?_, ?_, ?_⟩
  · rw [h, List.length_take]
  · rw [h]
    apply List.Pairwise.sublist (List.take_sublist _ _)
    unfold headingsByLevel
    rw [List.pairwise_flatMap]
    constructor
    · intro i _
      rw [List.pairwise_map]
      exact List.pairwise_of_forall (fun _ _ => le_refl _)
    · have hr : (List.range' 1 6).Pairwise (fun a b => a < b) := by decide
      refine hr.imp ?_
      intro i j hij x hx y hy
      simp only [List.mem_map] at hx hy
      obtain ⟨_, _, rfl⟩ := hx
      obtain ⟨_, _, rfl⟩ := hy
      exact Nat.le_of_lt hij
  · intro x hx
    rw [h] at hx
    have hm := List.mem_of_mem_take hx
    simp only [headingsByLevel, List.mem_flatMap, List.mem_map, List.mem_filter,
      decide_eq_true_eq, List.mem_range'_1] at hm
    obtain ⟨i, hi, n, ⟨_, hne⟩, rfl⟩ := hm
    exact ⟨hi.1, by show i ≤ 6; omega, hne⟩

/-- C6, witness: the first heading returned for the sample region has level 1 and a
non-empty text. -/
theorem extractHeadings_grouped_by_level_witness :
    ({ level := 1, text := utf16 "Results", id := none } : Heading) ∈
      extractHeadings (some headingSample) ∧
    1 ≤ ({ level := 1, text := utf16 "Results", id := none } : Heading).level ∧
    ({ level := 1, text := utf16 "Results", id := none } : Heading).level ≤ 6 ∧
    ({ level := 1, text := utf16 "Results", id := none } : Heading).text ≠ [] :=
  ⟨by decide, (extractHeadings_grouped_by_level headingSample).2.2.2 _ (by decide)⟩

/-- C6, counterexample: in a region where an `h2` precedes an `h1`, the `h1` is returned
first, so the result is not in document order. -/
theorem extractHeadings_not_document_order :
    (extractHeadings (some headingSample)).map (fun h => (h.level, h.text)) =
      [(1, utf16 "Results"), (2, utf16 "Background")] ∧
    (headingsInDocumentOrder headingSample).map (fun h => (h.level, h.text)) =
      [(2, utf16 "Background"), (1, utf16 "Results")] ∧
    extractHeadings (some headingSample) ≠ headingsInDocumentOrder headingSample := by
  decide

/-! ## Splitting -/

theorem splitRunsFrom_ne_nil (sep : Nat → Bool) (s : JSString) :
    ∀ b, splitRunsFrom sep b s ≠ [] := by
  induction s with
  | nil => intro b; simp [splitRunsFrom]
  | cons c cs ih =>
    intro b
    by_cases hc : sep c = true
    · cases b
      · simp [splitRunsFrom, hc]
      · simpa [splitRunsFrom, hc] using ih true
    · simp only [splitRunsFrom, hc]
      cases h : splitRunsFrom sep false cs <;> simp

theorem splitRunsFrom_cons_of_not_sep (sep : Nat → Bool) (b : Bool) (c : Nat) (cs : JSString)
    (hc : sep c = false) :
    splitRunsFrom sep b (c :: cs) = (splitRunsFrom sep false cs).modifyHead (List.cons c) := by
  simp only [splitRunsFrom, hc]
  cases h : splitRunsFrom sep false cs with
  | nil => exact absurd h (splitRunsFrom_ne_nil sep cs false)
  | cons piece pieces => simp

/-- The pieces of `split` and the pieces between single separators differ only by empty
pieces. -/
theorem splitRunsFrom_filter (sep : Nat → Bool) (q : JSString → Bool) (hq : q [] = false)
    (s : JSString) :
    (splitRunsFrom sep true s).filter q = (s.splitOnP sep).filter q ∧
    ∃ h t t', splitRunsFrom sep false s = h :: t ∧ s.splitOnP sep = h :: t' ∧
      t.filter q = t'.filter q := by
  induction s with
  | nil => exact ⟨by simp [splitRunsFrom], [], [], [], by simp [splitRunsFrom], by simp, rfl⟩
  | cons c cs ih =>
    obtain ⟨ih1, h, t, t', e1, e2, e3⟩ := ih
    by_cases hc : sep c = true
    · refine ⟨?_, [], splitRunsFrom sep true cs, cs.splitOnP sep, ?_, ?_, ih1⟩
      · simp [splitRunsFrom, hc, List.splitOnP_cons, List.filter_cons, hq, ih1]
      · simp [splitRunsFrom, hc]
      · simp [List.splitOnP_cons, hc]
    · have hc' : sep c = false := by simpa using hc
      have l1 : ∀ b, splitRunsFrom sep b (c :: cs) = (c :: h) :: t := by
        intro b; rw [splitRunsFrom_cons_of_not_sep sep b c cs hc', e1]; rfl
      have l2 : (c :: cs).splitOnP sep = (c :: h) :: t' := by
        rw [List.splitOnP_cons, e2]; simp [hc']
      refine ⟨?_, c :: h, t, t', l1 false, l2, e3⟩
      rw [l1, l2, List.filter_cons, List.filter_cons, e3]

theorem splitRuns_filter (sep : Nat → Bool) (q : JSString → Bool) (hq : q [] = false)
    (s : JSString) : (splitRuns sep s).filter q = (s.splitOnP sep).filter q := by
  obtain ⟨_, h, t, t', e1, e2, e3⟩ := splitRunsFrom_filter sep q hq s
  unfold splitRuns
  rw [e1, e2, List.filter_cons, List.filter_cons, e3]

theorem countWords_eq (text : JSString) : countWords text = (whitespaceTokens text).length := by
  unfold countWords whitespaceTokens
  by_cases h : text = []
  · subst h; simp
  · rw [if_neg h, splitRuns_filter isSpace _ (by simp)]
    congr 1
    apply List.filter_congr
    intro w _
    cases w <;> simp

theorem ceil_div_two_hundred (n : Nat) : ⌈(n : ℚ) / 200⌉ = (((n + 199) / 200 : Nat) : Int) := by
  have h : 200 * ((n + 199) / 200) ≤ n + 199 ∧ n + 199 < 200 * ((n + 199) / 200) + 200 := by
    omega
  generalize (n + 199) / 200 = k at h
  obtain ⟨h1, h2⟩ := h
  have h1' : (200 : ℚ) * (k : ℚ) ≤ (n : ℚ) + 199 := by exact_mod_cast h1
  have h2' : (n : ℚ) + 199 < 200 * (k : ℚ) + 200 := by exact_mod_cast h2
  have h3 : (n : ℚ) ≤ 200 * (k : ℚ) := by
    have : n ≤ 200 * k := by omega
    exact_mod_cast this
  rw [Int.ceil_eq_iff]
  constructor
  · rw [lt_div_iff₀ (by norm_num)]
    simp only [Int.cast_natCast]
    linarith
  · rw [div_le_iff₀ (by norm_num)]
    simp only [Int.cast_natCast]
    linarith

/-! ## Claims on the text analysers -/

/-- C7: in the record built by `extractTextContent` for any region, `wordCount` is the
number of non-empty whitespace-separated tokens of `raw`, `readingTime` is the ceiling
of `wordCount / 200` (the integer `(wordCount + 199) / 200`), and `readingTime` is 0
exactly when `wordCount` is 0. -/
theorem readingTime_eq_ceil (hostname : JSString) (mainContent : Option Node) :
    (buildExtractedText hostname mainContent).wordCount =
      (whitespaceTokens (buildExtractedText hostname mainContent).raw).length ∧
    (buildExtractedText hostname mainContent).readingTime =
      ⌈((buildExtractedText hostname mainContent).wordCount : ℚ) / 200⌉ ∧
    (buildExtractedText hostname mainContent).readingTime =
      ((((buildExtractedText hostname mainContent).wordCount + 199) / 200 : Nat) : Int) ∧
    ((buildExtractedText hostname mainContent).readingTime = 0 ↔
      (buildExtractedText hostname mainContent).wordCount = 0) := by
  have hrt : (buildExtractedText hostname mainContent).readingTime =
      ⌈((buildExtractedText hostname mainContent).wordCount : ℚ) / 200⌉ := rfl
  refine ⟨countWords_eq _, hrt, ?_, ?_⟩
  · rw [hrt, ceil_div_two_hundred]
  · rw [hrt, ceil_div_two_hundred]
    omega

theorem trim_eq_nil_iff (s : JSString) : trim s = [] ↔ ∀ c ∈ s, isSpace c = true := by
  rw [trim_eq_rdropWhile, List.rdropWhile_eq_nil_iff]
  constructor
  · intro h c hc
    by_contra hn
    have hmem : c ∈ s.dropWhile isSpace := by
      induction s with
      | nil => simp at hc
      | cons a as ih =>
        by_cases ha : isSpace a = true
        · rw [List.dropWhile_cons_of_pos ha]
          rcases List.mem_cons.mp hc with rfl | hc'
          · exact absurd ha hn
          · apply ih _ hc'
            intro x hx
            apply h x
            rw [List.dropWhile_cons_of_pos ha]; exact hx
        · rw [List.dropWhile_cons_of_neg ha]; exact hc
    exact hn (h c hmem)
  · intro h c hc
    exact h c ((List.dropWhile_sublist _).subset hc)

theorem sentenceCount_eq (text : JSString) :
    ((splitRuns isSentenceEnd text).filter fun s => decide ((trim s).length > 0)).length =
      (sentenceSegments text).length := by
  unfold sentenceSegments
  rw [splitRuns_filter isSentenceEnd _ (by simp [trim])]
  congr 1
  apply List.filter_congr
  intro s _
  by_cases h : trim s = []
  · have h2 := (trim_eq_nil_iff s).mp h
    simp only [h, List.length_nil, gt_iff_lt, lt_self_iff_false, decide_False]
    symm
    simpa using h2
  · have h2 : ¬ ∀ c ∈ s, isSpace c = true := fun hall => h ((trim_eq_nil_iff s).mpr hall)
    have h3 : (trim s).length > 0 := List.length_pos.mpr h
    simp only [h3, decide_True]
    symm
    push_neg at h2
    obtain ⟨c, hc, hcs⟩ := h2
    simp only [List.any_eq_true, Bool.not_eq_true']
    exact ⟨c, hc, by simpa using hcs⟩

theorem wordCount_metrics_eq (text : JSString) :
    ((splitRuns isSpace text).filter fun w => decide (w.length > 0)).length =
      (whitespaceTokens text).length := by
  unfold whitespaceTokens
  rw [splitRuns_filter isSpace _ (by simp)]
  congr 1
  apply List.filter_congr
  intro w _
  cases w <;> simp

/-- C8: for every text, `calculateReadabilityMetrics` reports as `wordCount` the number
of non-empty whitespace-separated tokens, as `sentenceCount` the number of non-blank
segments between the marks `.`, `!`, `?`, and as `estimatedGradeLevel` the value
`0.39 * (wordCount / sentenceCount) + 11.8 * (syllables / wordCount) - 15.59`, or 0 when
either count is 0; `"Cats sit. Dogs run."` gives 2 sentences, 4 words and the grade
`0.39 * 2 + 11.8 * 1 - 15.59`.  The grade is computed over the rationals. -/
theorem calculateReadabilityMetrics_counts_and_grade (text : JSString) :
    (calculateReadabilityMetrics text).wordCount = (whitespaceTokens text).length ∧
    (calculateReadabilityMetrics text).sentenceCount = (sentenceSegments text).length ∧
    (calculateReadabilityMetrics text).estimatedGradeLevel =
      (if (whitespaceTokens text).length = 0 ∨ (sentenceSegments text).length = 0 then 0
       else 0.39 * (((whitespaceTokens text).length : ℚ) / ((sentenceSegments text).length : ℚ))
         + 11.8 * ((countSyllables text : ℚ) / ((whitespaceTokens text).length : ℚ)) - 15.59) ∧
    (calculateReadabilityMetrics (utf16 "Cats sit. Dogs run.")).sentenceCount = 2 ∧
    (calculateReadabilityMetrics (utf16 "Cats sit. Dogs run.")).wordCount = 4 ∧
    (calculateReadabilityMetrics (utf16 "Cats sit. Dogs run.")).estimatedGradeLevel =
      0.39 * 2 + 11.8 * 1 - 15.59 := by
  have hw := wordCount_metrics_eq text
  have hs := sentenceCount_eq text
  refine ⟨hw, hs, ?_, by decide, by decide, ?_⟩
  · simp only [calculateReadabilityMetrics, calculateFleschKincaid, hw, hs]
    by_cases h : (sentenceSegments text).length = 0 ∨ (whitespaceTokens text).length = 0
    · rw [if_pos h, if_pos h.symm]
    · rw [if_neg h, if_neg (fun h' => h h'.symm)]
  · have e1 : ((splitRuns isSpace (utf16 "Cats sit. Dogs run.")).filter
        fun w => decide (w.length > 0)).length = 4 := by decide
    have e2 : ((splitRuns isSentenceEnd (utf16 "Cats sit. Dogs run.")).filter
        fun s => decide ((trim s).length > 0)).length = 2 := by decide
    have e3 : countSyllables (utf16 "Cats sit. Dogs run.") = 4 := by decide
    simp only [calculateReadabilityMetrics, calculateFleschKincaid, e1, e2, e3]
    norm_num

/-! ## Syllables -/

theorem lowerUnit_of_isSpace (u : Nat) (h : isSpace u = true) : lowerUnit u = [u] := by
  simp only [isSpace, Bool.or_eq_true, beq_iff_eq, Bool.and_eq_true, decide_eq_true_eq] at h
  unfold lowerUnit
  have h1 : ¬ (65 ≤ u ∧ u ≤ 90) := by omega
  have h2 : u ≠ 8490 := by omega
  have h3 : u ≠ 304 := by omega
  simp [h1, h2, h3]

theorem lowerUnit_not_isSpace (u : Nat) (h : isSpace u = false) :
    lowerUnit u ≠ [] ∧ ∀ v ∈ lowerUnit u, isSpace v = false := by
  unfold lowerUnit
  split_ifs with h1 h2 h3
  · simp only [Bool.and_eq_true, decide_eq_true_eq] at h1
    refine ⟨by simp, ?_⟩
    intro v hv
    simp only [List.mem_singleton] at hv
    subst hv
    simp only [isSpace, Bool.or_eq_false_iff, beq_eq_false_iff_ne, Bool.and_eq_false_iff,
      decide_eq_false_iff_not]
    omega
  · refine ⟨by simp, ?_⟩
    intro v hv
    simp only [List.mem_singleton] at hv
    subst hv
    decide
  · refine ⟨by simp, ?_⟩
    intro v hv
    simp only [List.mem_cons, List.mem_singleton, List.not_mem_nil, or_false] at hv
    rcases hv with rfl | rfl <;> decide
  · refine ⟨by simp, ?_⟩
    intro v hv
    simp only [List.mem_singleton] at hv
    subst hv
    exact h

theorem splitRunsFrom_append_of_not_sep (sep : Nat → Bool) (rest : JSString) (l : JSString)
    (hl : ∀ v ∈ l, sep v = false) :
    splitRunsFrom sep false (l ++ rest) =
      (splitRunsFrom sep false rest).modifyHead (fun piece => l ++ piece) := by
  induction l with
  | nil =>
    simp only [List.nil_append]
    cases splitRunsFrom sep false rest <;> rfl
  | cons a l ih =>
    rw [List.cons_append, splitRunsFrom_cons_of_not_sep sep false a _ (hl a (by simp)),
      ih (fun v hv => hl v (by simp [hv])), List.modifyHead_modifyHead]
    rfl

theorem splitRunsFrom_toLowerCase (s : JSString) :
    ∀ b, splitRunsFrom isSpace b (toLowerCase s) = (splitRunsFrom isSpace b s).map toLowerCase := by
  induction s with
  | nil => intro b; simp [toLowerCase, splitRunsFrom]
  | cons c cs ih =>
    intro b
    have hcons : toLowerCase (c :: cs) = lowerUnit c ++ toLowerCase cs := by
      simp [toLowerCase, List.flatMap_cons]
    by_cases hc : isSpace c = true
    · rw [hcons, lowerUnit_of_isSpace c hc]
      have e1 : ∀ t, splitRunsFrom isSpace false (c :: t) = [] :: splitRunsFrom isSpace true t := by
        intro t; simp [splitRunsFrom, hc]
      have e2 : ∀ t, splitRunsFrom isSpace true (c :: t) = splitRunsFrom isSpace true t := by
        intro t; simp [splitRunsFrom, hc]
      cases b
      · rw [List.singleton_append, e1, e1, ih true]; rfl
      · rw [List.singleton_append, e2, e2, ih true]
    · have hc' : isSpace c = false := by simpa using hc
      obtain ⟨hne, hall⟩ := lowerUnit_not_isSpace c hc'
      rw [hcons, splitRunsFrom_cons_of_not_sep isSpace b c cs hc']
      obtain ⟨a, l, hal⟩ := List.exists_cons_of_ne_nil hne
      have hstep : splitRunsFrom isSpace b (lowerUnit c ++ toLowerCase cs) =
          (splitRunsFrom isSpace false (toLowerCase cs)).modifyHead
            (fun piece => lowerUnit c ++ piece) := by
        rw [hal, List.cons_append,
          splitRunsFrom_cons_of_not_sep isSpace b a _ (hall a (by simp [hal])),
          splitRunsFrom_append_of_not_sep isSpace _ l (fun v hv => hall v (by simp [hal, hv])),
          List.modifyHead_modifyHead]
        rfl
      rw [hstep, ih false]
      cases h : splitRunsFrom isSpace false cs with
      | nil => rfl
      | cons piece pieces => simp [List.modifyHead, toLowerCase, List.flatMap_cons]

theorem foldl_add_eq_sum {α : Type} (f : α → Int) (l : List α) :
    ∀ acc, l.foldl (fun acc w => acc + f w) acc = acc + (l.map f).sum := by
  induction l with
  | nil => intro acc; simp
  | cons x xs ih => intro acc; simp [List.foldl_cons, ih, add_assoc]

theorem countSyllables_eq_sum (text : JSString) :
    countSyllables text =
      ((splitRuns isSpace text).map fun w => wordSyllables (toLowerCase w)).sum := by
  unfold countSyllables splitRuns
  simp only []
  rw [foldl_add_eq_sum, splitRunsFrom_toLowerCase, List.map_map, zero_add]
  rfl

theorem wordSyllables_of_hasLetter (w : JSString) (h : hasLetter w = true) :
    wordSyllables (toLowerCase w) =
      max ((countRunsFrom isVowel false (lettersOf w) : Int) -
        (if (lettersOf w).getLast? = some 101 then 1 else 0)) 1 := by
  have hne : lettersOf w ≠ [] := by
    intro h0
    have := List.filter_eq_nil_iff.mp h0
    simp only [hasLetter, List.any_eq_true] at h
    obtain ⟨x, hx, hx'⟩ := h
    exact this x hx hx'
  have hlen : (lettersOf w).length ≠ 0 := fun h0 => hne (List.length_eq_zero.mp h0)
  unfold wordSyllables
  simp only []
  change (if (lettersOf w).length = 0 then (0 : Int) else _) = _
  rw [if_neg hlen]
  change max (if (lettersOf w).getLast? = some 101 then _ else _) 1 = _
  split_ifs <;> simp [lettersOf]

theorem wordSyllables_of_not_hasLetter (w : JSString) (h : hasLetter w = false) :
    wordSyllables (toLowerCase w) = 0 := by
  have h0 : lettersOf w = [] := by
    apply List.filter_eq_nil_iff.mpr
    simpa [hasLetter] using h
  unfold wordSyllables
  simp only []
  change (if (lettersOf w).length = 0 then (0 : Int) else _) = _
  rw [h0]; rfl

theorem sum_wordSyllables_ge (l : List JSString) :
    (l.countP hasLetter : Int) ≤ (l.map fun w => wordSyllables (toLowerCase w)).sum := by
  induction l with
  | nil => simp
  | cons w ws ih =>
    rw [List.map_cons, List.sum_cons, List.countP_cons]
    by_cases h : hasLetter w = true
    · have h1 := wordSyllables_of_hasLetter w h
      have h2 : (1 : Int) ≤ wordSyllables (toLowerCase w) := by rw [h1]; exact le_max_right _ _
      simp only [h, if_true]
      push_cast
      linarith
    · have h' : hasLetter w = false := by simpa using h
      rw [wordSyllables_of_not_hasLetter w h']
      simp only [h', Bool.false_eq_true, if_false]
      simpa using ih

/-- C9 (as amended): `countSyllables` adds up one contribution per whitespace-separated
word; a word with at least one letter `a`..`z` after lower-casing contributes the number
of vowel groups of its letters, minus 1 if its last letter is `e`, but never less than
1, and a word without any letter contributes 0.  So `countSyllables(text)` is at least
the number of words containing a letter, and when every non-empty word contains a
letter it is at least the word count and `averageSyllablesPerWord` is at least 1 unless
the text has no word. -/
theorem countSyllables_floor_per_lettered_word (text : JSString) :
    countSyllables text =
      ((splitRuns isSpace text).map fun w => wordSyllables (toLowerCase w)).sum ∧
    (∀ w, wordSyllables (toLowerCase w) =
      if hasLetter w = true then
        max ((countRunsFrom isVowel false (lettersOf w) : Int) -
          (if (lettersOf w).getLast? = some 101 then 1 else 0)) 1
      else 0) ∧
    (∀ w, (if hasLetter w = true then 1 else 0) ≤ wordSyllables (toLowerCase w)) ∧
    (((splitRuns isSpace text).countP hasLetter : Nat) : Int) ≤ countSyllables text ∧
    ((∀ w ∈ splitRuns isSpace text, w ≠ [] → hasLetter w = true) →
      ((calculateReadabilityMetrics text).wordCount : Int) ≤ countSyllables text ∧
      ((calculateReadabilityMetrics text).wordCount = 0 ∨
        1 ≤ (calculateReadabilityMetrics text).averageSyllablesPerWord)) := by
  have hword : ∀ w, wordSyllables (toLowerCase w) =
      if hasLetter w = true then
        max ((countRunsFrom isVowel false (lettersOf w) : Int) -
          (if (lettersOf w).getLast? = some 101 then 1 else 0)) 1
      else 0 := by
    intro w
    by_cases h : hasLetter w = true
    · rw [if_pos h]; exact wordSyllables_of_hasLetter w h
    · rw [if_neg h]; exact wordSyllables_of_not_hasLetter w (by simpa using h)
  have hsum := sum_wordSyllables_ge (splitRuns isSpace text)
  rw [← countSyllables_eq_sum] at hsum
  refine ⟨countSyllables_eq_sum text, hword, ?_, hsum, ?_⟩
  · intro w
    rw [hword w]
    by_cases h : hasLetter w = true
    · simp only [h, if_true]; exact le_max_right _ _
    · simp only [h, if_false]; exact le_refl _
  · intro hall
    have hcount : (calculateReadabilityMetrics text).wordCount ≤
        (splitRuns isSpace text).countP hasLetter := by
      change ((splitRuns isSpace text).filter fun w => decide (w.length > 0)).length ≤ _
      rw [← List.countP_eq_length_filter]
      apply List.countP_mono_left
      intro w hw hpos
      apply hall w hw
      intro h0
      rw [h0] at hpos
      simp at hpos
    have hle : ((calculateReadabilityMetrics text).wordCount : Int) ≤ countSyllables text := by
      have : (((calculateReadabilityMetrics text).wordCount : Nat) : Int) ≤
          (((splitRuns isSpace text).countP hasLetter : Nat) : Int) := by exact_mod_cast hcount
      exact this.trans hsum
    refine ⟨hle, ?_⟩
    by_cases h0 : (calculateReadabilityMetrics text).wordCount = 0
    · exact Or.inl h0
    · right
      have hpos : 0 < (calculateReadabilityMetrics text).wordCount := Nat.pos_of_ne_zero h0
      have hmax : max (calculateReadabilityMetrics text).wordCount 1 =
          (calculateReadabilityMetrics text).wordCount := max_eq_left hpos
      change 1 ≤ (countSyllables text : ℚ) /
        ((max (calculateReadabilityMetrics text).wordCount 1 : Nat) : ℚ)
      rw [hmax, one_le_div (by exact_mod_cast hpos)]
      exact_mod_cast hle

/-- C9, witness: every word of `"Cats sit. Dogs run."` contains a letter; the text has 4
words and 4 syllables. -/
theorem countSyllables_floor_per_lettered_word_witness :
    (∀ w ∈ splitRuns isSpace (utf16 "Cats sit. Dogs run."), w ≠ [] → hasLetter w = true) ∧
    ((calculateReadabilityMetrics (utf16 "Cats sit. Dogs run.")).wordCount : Int) ≤
      countSyllables (utf16 "Cats sit. Dogs run.") :=
  ⟨by decide,
   ((countSyllables_floor_per_lettered_word (utf16 "Cats sit. Dogs run.")).2.2.2.2
      (by decide)).1⟩

/-- C9, counterexample: the text `"42"` has one word and no syllable, so its syllable
count is below its word count and its average number of syllables per word is 0. -/
theorem countSyllables_below_wordCount :
    (calculateReadabilityMetrics (utf16 "42")).wordCount = 1 ∧
    countSyllables (utf16 "42") = 0 ∧
    countSyllables (utf16 "42") < ((calculateReadabilityMetrics (utf16 "42")).wordCount : Int) ∧
    (calculateReadabilityMetrics (utf16 "42")).averageSyllablesPerWord < 1 := by
  have e1 : ((splitRuns isSpace (utf16 "42")).filter fun w => decide (w.length > 0)).length = 1 := by
    decide
  have e3 : countSyllables (utf16 "42") = 0 := by decide
  refine ⟨by decide, e3, by decide, ?_⟩
  simp only [calculateReadabilityMetrics, e1, e3]
  norm_num

/-- C10: `estimateContentType` is a first-match-wins rule list in the order article,
news, product, about, general: the result is `article` exactly when an article rule
matches (whatever the other rules do), `news` exactly when no article rule but a news
rule matches, `product` exactly when no article or news rule but a product rule matches,
`about` exactly when only an about rule matches among these, and `general` exactly when
no rule matches; it is always one of the five values. -/
theorem estimateContentType_first_match_wins (docTitle href bodyText : JSString) :
    (estimateContentType docTitle href bodyText = "article" ↔
      articleRule docTitle href bodyText = true) ∧
    (estimateContentType docTitle href bodyText = "news" ↔
      articleRule docTitle href bodyText = false ∧ newsRule docTitle href = true) ∧
    (estimateContentType docTitle href bodyText = "product" ↔
      articleRule docTitle href bodyText = false ∧ newsRule docTitle href = false ∧
        productRule href bodyText = true) ∧
    (estimateContentType docTitle href bodyText = "about" ↔
      articleRule docTitle href bodyText = false ∧ newsRule docTitle href = false ∧
        productRule href bodyText = false ∧ aboutRule docTitle href = true) ∧
    (estimateContentType docTitle href bodyText = "general" ↔
      articleRule docTitle href bodyText = false ∧ newsRule docTitle href = false ∧
        productRule href bodyText = false ∧ aboutRule docTitle href = false) ∧
    estimateContentType docTitle href bodyText ∈
      ["article", "news", "product", "about", "general"] ∧
    estimateContentType (utf16 "Daily News Blog") (utf16 "https://example.org/news/about")
      (utf16 "Buy now at a low price") = "article" := by
  have hdef : estimateContentType docTitle href bodyText =
      if articleRule docTitle href bodyText = true then "article"
      else if newsRule docTitle href = true then "news"
      else if productRule href bodyText = true then "product"
      else if aboutRule docTitle href = true then "about"
      else "general" := rfl
  rw [hdef]
  cases articleRule docTitle href bodyText <;> cases newsRule docTitle href <;>
    cases productRule href bodyText <;> cases aboutRule docTitle href <;> decide

namespace Background

/-! ## Downloads -/

/-- The download of a downloadable capability, step by step: a failing `create` leaves
the capability record as it was; after a successful `create` the status is `'available'`
and the result is that of `destroy`. -/
theorem downloadModel_eq (b : Backend) (c : Capability) (w : World)
    (hp : w.aiCapabilities.present c = true)
    (hs : w.aiCapabilities.status c = .str "downloadable") :
    downloadModel b c w =
      match b.unitReply (w.calls ++ [.create c]) with
      | .error e => (.error e, { w with calls := w.calls ++ [.create c] })
      | .ok _ =>
        (match b.unitReply (w.calls ++ [.create c, .destroy c w.calls.length]) with
          | .ok _ => .ok true
          | .error e => .error e,
         { w with
            calls := w.calls ++ [.create c, .destroy c w.calls.length]
            aiCapabilities := w.aiCapabilities.setStatus c (.str "available") }) := by
  cases h1 : b.unitReply (w.calls ++ [.create c]) with
  | error e =>
    simp [downloadModel, Run.tryCatch, bind, Run.bind, getCapabilities, hp, hs,
      createInstance, callCount, backendCall, h1, Run.throw]
  | ok u =>
    cases h2 : b.unitReply (w.calls ++ [.create c, .destroy c w.calls.length]) with
    | error e =>
      simp [downloadModel, Run.tryCatch, bind, Run.bind, getCapabilities, hp, hs,
        createInstance, callCount, backendCall, h1, h2, Run.throw, setStatus, pure, Run.pure]
    | ok u2 =>
      simp [downloadModel, Run.tryCatch, bind, Run.bind, getCapabilities, hp, hs,
        createInstance, callCount, backendCall, h1, h2, Run.throw, setStatus, pure, Run.pure]

theorem downloadModel_refused (b : Backend) (c : Capability) (w : World)
    (h : w.aiCapabilities.present c = false ∨ w.aiCapabilities.status c ≠ .str "downloadable") :
    downloadModel b c w = (.error (notDownloadableMessage c), w) := by
  rcases h with h | h <;>
    simp [downloadModel, Run.tryCatch, bind, Run.bind, getCapabilities, h, Run.throw]

/-! ## The capability record only advances -/

theorem Capabilities.AdvancesTo.refl (caps : Capabilities) : caps.AdvancesTo caps :=
  fun _ => ⟨rfl, Or.inl rfl⟩

theorem Capabilities.AdvancesTo.trans {a b c : Capabilities} (h₁ : a.AdvancesTo b)
    (h₂ : b.AdvancesTo c) : a.AdvancesTo c := by
  intro x
  obtain ⟨p1, s1⟩ := h₁ x
  obtain ⟨p2, s2⟩ := h₂ x
  refine ⟨p2.trans p1, ?_⟩
  rcases s2 with s2 | s2
  · rcases s1 with s1 | s1
    · exact Or.inl (s2.trans s1)
    · exact Or.inr (s2.trans s1)
  · exact Or.inr s2

theorem Capabilities.AdvancesTo.available {a b : Capabilities} (h : a.AdvancesTo b)
    (c : Capability) (hc : a.status c = .str "available") : b.status c = .str "available" := by
  rcases (h c).2 with h' | h'
  · exact h'.trans hc
  · exact h'

theorem Capabilities.advancesTo_setStatus (caps : Capabilities) (c : Capability) :
    caps.AdvancesTo (caps.setStatus c (.str "available")) := by
  intro x
  cases c <;> cases x <;>
    simp [Capabilities.setStatus, Capabilities.present, Capabilities.status]

theorem Advances.pure {α : Type} (a : α) : Advances (pure a : Run α) :=
  fun _ => Capabilities.AdvancesTo.refl _

theorem Advances.throw {α : Type} (e : String) : Advances (Run.throw e : Run α) :=
  fun _ => Capabilities.AdvancesTo.refl _

theorem Advances.bind {α β : Type} {m : Run α} {f : α → Run β} (hm : Advances m)
    (hf : ∀ a, Advances (f a)) : Advances (m >>= f) := by
  intro w
  have h1 := hm w
  show w.aiCapabilities.AdvancesTo (Run.bind m f w).2.aiCapabilities
  unfold Run.bind
  cases h : m w with
  | mk r w' =>
    rw [h] at h1
    cases r with
    | ok a => exact h1.trans (hf a w')
    | error e => exact h1

theorem Advances.tryCatch {α : Type} {m : Run α} {handler : String → Run α} (hm : Advances m)
    (hh : ∀ e, Advances (handler e)) : Advances (Run.tryCatch m handler) := by
  intro w
  have h1 := hm w
  unfold Run.tryCatch
  cases h : m w with
  | mk r w' =>
    rw [h] at h1
    cases r with
    | ok a => exact h1
    | error e => exact h1.trans (hh e w')

theorem Advances.getCapabilities : Advances getCapabilities :=
  fun _ => Capabilities.AdvancesTo.refl _

theorem Advances.getSession : Advances getSession :=
  fun _ => Capabilities.AdvancesTo.refl _

theorem Advances.setSession (s : Nat) : Advances (setSession s) :=
  fun _ => Capabilities.AdvancesTo.refl _

theorem Advances.callCount : Advances callCount :=
  fun _ => Capabilities.AdvancesTo.refl _

theorem Advances.backendCall {α : Type} (call : Call) (reply : List Call → Result α) :
    Advances (backendCall call reply) :=
  fun _ => Capabilities.AdvancesTo.refl _

theorem Advances.setStatus_available (c : Capability) :
    Advances (setStatus c (.str "available")) :=
  fun _ => Capabilities.advancesTo_setStatus _ c

theorem Advances.createInstance (b : Backend) (c : Capability) :
    Advances (createInstance b c) := by
  unfold Background.createInstance
  exact Advances.bind Advances.callCount fun _ =>
    Advances.bind (Advances.backendCall _ _) fun _ => Advances.pure _

theorem Advances.downloadModel (b : Backend) (c : Capability) : Advances (downloadModel b c) := by
  unfold Background.downloadModel
  refine Advances.tryCatch (Advances.bind Advances.getCapabilities fun caps => ?_)
    fun e => Advances.throw e
  split
  · exact Advances.throw _
  · exact Advances.bind (Advances.createInstance b c) fun _ =>
      Advances.bind (Advances.setStatus_available c) fun _ =>
        Advances.bind (Advances.backendCall _ _) fun _ => Advances.pure _

theorem Advances.getOrCreateLanguageModelSession (b : Backend) :
    Advances (getOrCreateLanguageModelSession b) := by
  unfold Background.getOrCreateLanguageModelSession
  refine Advances.bind Advances.getSession fun stored => ?_
  split
  · exact Advances.pure _
  · refine Advances.tryCatch (Advances.bind Advances.getCapabilities fun caps => ?_)
      fun e => Advances.throw _
    split
    · exact Advances.throw _
    · exact Advances.bind (Advances.createInstance b _) fun _ =>
        Advances.bind (Advances.setSession _) fun _ => Advances.pure _

theorem Advances.summarizerTier (b : Backend) (content : PageContent) (p : UserProfile) :
    Advances (summarizerTier b content p) := by
  unfold Background.summarizerTier
  repeat' first
    | exact Advances.pure _
    | exact Advances.getCapabilities
    | exact Advances.backendCall _ _
    | exact Advances.createInstance _ _
    | refine Advances.bind ?_ fun _ => ?_
    | refine Advances.tryCatch ?_ fun _ => ?_
    | split

theorem Advances.generatePersonalizedSummary (b : Backend) (content : PageContent)
    (p : UserProfile) : Advances (generatePersonalizedSummary b content p) := by
  unfold Background.generatePersonalizedSummary
  repeat' first
    | exact Advances.pure _
    | exact Advances.throw _
    | exact Advances.getCapabilities
    | exact Advances.backendCall _ _
    | exact Advances.summarizerTier _ _ _
    | exact Advances.getOrCreateLanguageModelSession _
    | refine Advances.bind ?_ fun _ => ?_
    | refine Advances.tryCatch ?_ fun _ => ?_
    | split

theorem Advances.translatorTier (b : Backend) (text : JSString) :
    Advances (translatorTier b text) := by
  unfold Background.translatorTier
  repeat' first
    | exact Advances.pure _
    | exact Advances.getCapabilities
    | exact Advances.backendCall _ _
    | exact Advances.createInstance _ _
    | refine Advances.bind ?_ fun _ => ?_
    | refine Advances.tryCatch ?_ fun _ => ?_
    | split

theorem Advances.translateText (b : Backend) (text : JSString) (lang : String) :
    Advances (translateText b text lang) := by
  unfold Background.translateText
  repeat' first
    | exact Advances.pure _
    | exact Advances.getCapabilities
    | exact Advances.backendCall _ _
    | exact Advances.translatorTier _ _
    | exact Advances.getOrCreateLanguageModelSession _
    | refine Advances.bind ?_ fun _ => ?_
    | refine Advances.tryCatch ?_ fun _ => ?_
    | split

theorem Advances.translateSummary (b : Backend) (summary : JSString) (lang : String) :
    Advances (translateSummary b summary lang) := by
  unfold Background.translateSummary
  split
  · exact Advances.pure _
  · exact Advances.translateText _ _ _

theorem Advances.handleGenerateSummary (b : Backend) (now : String)
    (pageContent : Option PageContent) (p : UserProfile) :
    Advances (handleGenerateSummary b now pageContent p) := by
  unfold Background.handleGenerateSummary
  refine Advances.tryCatch ?_ fun _ => Advances.pure _
  split
  · exact Advances.throw _
  · refine Advances.bind Advances.getCapabilities fun caps => ?_
    split
    · exact Advances.pure _
    · dsimp only
      split
      · exact Advances.pure _
      · refine Advances.bind (Advances.generatePersonalizedSummary _ _ _) fun summary => ?_
        refine Advances.bind ?_ fun _ => Advances.pure _
        split
        · exact Advances.translateSummary _ _ _
        · exact Advances.pure _

theorem Advances.handleTranslateText (b : Backend) (text : JSString) (lang : String) :
    Advances (handleTranslateText b text lang) := by
  unfold Background.handleTranslateText
  repeat' first
    | exact Advances.pure _
    | exact Advances.throw _
    | exact Advances.getCapabilities
    | exact Advances.translateText _ _ _
    | refine Advances.bind ?_ fun _ => ?_
    | refine Advances.tryCatch ?_ fun _ => ?_
    | split

theorem Advances.generateAnswer (b : Backend) (question : JSString) (summary : SummaryArg)
    (originalContent : Option PageContent) (p : UserProfile) :
    Advances (generateAnswer b question summary originalContent p) := by
  unfold Background.generateAnswer
  repeat' first
    | exact Advances.pure _
    | exact Advances.throw _
    | exact Advances.getCapabilities
    | exact Advances.backendCall _ _
    | exact Advances.getOrCreateLanguageModelSession _
    | refine Advances.bind ?_ fun _ => ?_
    | refine Advances.tryCatch ?_ fun _ => ?_
    | split

theorem Advances.handleAnswerQuestion (b : Backend) (now : String) (question : JSString)
    (summary : SummaryArg) (pageContent : Option PageContent) (p : UserProfile) :
    Advances (handleAnswerQuestion b now question summary pageContent p) := by
  unfold Background.handleAnswerQuestion
  refine Advances.tryCatch ?_ fun _ => Advances.pure _
  dsimp only
  split
  · exact Advances.throw _
  · split
    · exact Advances.throw _
    · exact Advances.bind (Advances.generateAnswer _ _ _ _ _) fun _ => Advances.pure _

theorem Advances.checkAvailability (b : Backend) :
    Advances (checkLanguageModelAvailability b) ∧ Advances (checkSummarizerAvailability b) ∧
      Advances (checkTranslatorAvailability b) := by
  unfold Background.checkLanguageModelAvailability Background.checkSummarizerAvailability
    Background.checkTranslatorAvailability
  refine ⟨?_, ?_, ?_⟩ <;>
  repeat' first
    | exact Advances.pure _
    | exact Advances.backendCall _ _
    | refine Advances.tryCatch ?_ fun _ => ?_
    | split

theorem Advances.handleCheckAIAvailability (b : Backend) :
    Advances (handleCheckAIAvailability b) := by
  unfold Background.handleCheckAIAvailability
  repeat' first
    | exact Advances.pure _
    | exact Advances.getCapabilities
    | exact (Advances.checkAvailability b).1
    | exact (Advances.checkAvailability b).2.1
    | exact (Advances.checkAvailability b).2.2
    | refine Advances.bind ?_ fun _ => ?_
    | refine Advances.tryCatch ?_ fun _ => ?_
    | split

theorem Advances.handleDownloadModel (b : Backend) (modelType : Option String) :
    Advances (handleDownloadModel b modelType) := by
  unfold Background.handleDownloadModel Background.downloadSummarizerModel
    Background.downloadTranslatorModel Background.downloadLanguageModel
  repeat' first
    | exact Advances.pure _
    | exact Advances.throw _
    | exact Advances.downloadModel _ _
    | refine Advances.bind ?_ fun _ => ?_
    | refine Advances.tryCatch ?_ fun _ => ?_
    | split

theorem Advances.handleMessage (b : Backend) (now : String) (request : Request) :
    Advances (handleMessage b now request) := by
  unfold Background.handleMessage
  refine Advances.tryCatch ?_ fun _ => Advances.pure _
  cases request with
  | generateSummary pageContent p => exact Advances.handleGenerateSummary _ _ _ _
  | translateText text lang => exact Advances.handleTranslateText _ _ _
  | answerQuestion q s pc p => exact Advances.handleAnswerQuestion _ _ _ _ _ _
  | checkAIAvailability => exact Advances.handleCheckAIAvailability _
  | downloadModel m => exact Advances.handleDownloadModel _ _
  | other => exact Advances.pure _

/-- Over any sequence of messages the capability record only advances. -/
theorem handleMessages_advances (b : Backend) (messages : List (String × Request)) :
    ∀ w : World, w.aiCapabilities.AdvancesTo (handleMessages b messages w).2.aiCapabilities := by
  induction messages with
  | nil => intro w; exact Capabilities.AdvancesTo.refl _
  | cons m rest ih =>
    intro w
    obtain ⟨now, request⟩ := m
    exact (Advances.handleMessage b now request w).trans (ih _)

/-! ## Availability check -/

theorem Run.ite_apply {α : Type} (c : Prop) [Decidable c] (m₁ m₂ : Run α) (w : World) :
    (if c then m₁ else m₂) w = if c then m₁ w else m₂ w := by
  split <;> rfl

theorem checkLanguageModelAvailability_eq (b : Backend) (w : World) :
    checkLanguageModelAvailability b w =
      (.ok (rawAvailability b .languageModel w.calls),
       { w with calls := w.calls ++
          (if b.detects .languageModel then [availabilityQuery .languageModel] else []) }) := by
  unfold checkLanguageModelAvailability rawAvailability
  by_cases hd : b.hasLanguageModel = true
  · cases hr : b.valueReply (w.calls ++ [.availability .languageModel]) <;>
      simp [Run.tryCatch, Run.ite_apply, hd, backendCall, hr, Backend.detects, availabilityQuery,
        pure, Run.pure]
  · simp [Run.tryCatch, Run.ite_apply, hd, Backend.detects, pure, Run.pure]

theorem checkSummarizerAvailability_eq (b : Backend) (w : World) :
    checkSummarizerAvailability b w =
      (.ok (rawAvailability b .summarizer w.calls),
       { w with calls := w.calls ++
          (if b.detects .summarizer then [availabilityQuery .summarizer] else []) }) := by
  unfold checkSummarizerAvailability rawAvailability
  by_cases hd : b.hasLegacySummarizer = true
  · cases hr : b.valueReply (w.calls ++ [.legacyCapabilities]) <;>
      simp [Run.tryCatch, Run.ite_apply, hd, backendCall, hr, Backend.detects, availabilityQuery,
        pure, Run.pure]
  · simp [Run.tryCatch, Run.ite_apply, hd, Backend.detects, pure, Run.pure]

theorem checkTranslatorAvailability_eq (b : Backend) (w : World) :
    checkTranslatorAvailability b w =
      (.ok (rawAvailability b .translator w.calls),
       { w with calls := w.calls ++
          (if b.detects .translator then [availabilityQuery .translator] else []) }) := by
  unfold checkTranslatorAvailability rawAvailability
  by_cases hd : b.hasTranslator = true
  · cases hr : b.valueReply (w.calls ++ [.availability .translator]) <;>
      simp [Run.tryCatch, Run.ite_apply, hd, backendCall, hr, Backend.detects, availabilityQuery,
        pure, Run.pure]
  · simp [Run.tryCatch, Run.ite_apply, hd, Backend.detects, pure, Run.pure]

/-- The response of `checkAIAvailability` and the calls it makes, written out. -/
theorem handleCheckAIAvailability_eq (b : Backend) (w : World) :
    ∃ capabilities,
      handleCheckAIAvailability b w =
        (.ok (.availability
          { languageModel := reportedStatus
              (if w.aiCapabilities.status .languageModel = .str "available" then .str "readily"
               else rawAvailability b .languageModel w.calls)
            summarizer := reportedStatus
              (if w.aiCapabilities.status .summarizer = .str "available" then .str "readily"
               else rawAvailability b .summarizer
                (w.calls ++ availabilityCalls b w.aiCapabilities .languageModel))
            translator := reportedStatus
              (if w.aiCapabilities.status .translator = .str "available" then .str "readily"
               else rawAvailability b .translator
                (w.calls ++ availabilityCalls b w.aiCapabilities .languageModel ++
                  availabilityCalls b w.aiCapabilities .summarizer)) }
          capabilities),
         { w with calls := w.calls ++ availabilityCalls b w.aiCapabilities .languageModel ++
            availabilityCalls b w.aiCapabilities .summarizer ++
            availabilityCalls b w.aiCapabilities .translator }) := by
  unfold handleCheckAIAvailability
  simp only [Run.tryCatch, bind, Run.bind, getCapabilities, Run.ite_apply,
    checkLanguageModelAvailability_eq, checkSummarizerAvailability_eq,
    checkTranslatorAvailability_eq, pure, Run.pure, Capabilities.status, availabilityCalls]
  by_cases h1 : w.aiCapabilities.languageModelStatus = .str "available" <;>
  by_cases h2 : w.aiCapabilities.summarizerStatus = .str "available" <;>
  by_cases h3 : w.aiCapabilities.translatorStatus = .str "available" <;>
  simp [h1, h2, h3]

theorem reportedStatus_rawAvailability (b : Backend) (c : Capability) (calls : List Call) :
    reportedStatus (rawAvailability b c calls) =
      if b.detects c then
        match b.valueReply (calls ++ [availabilityQuery c]) with
        | .ok raw => reportedStatus raw
        | .error _ => "unavailable"
      else "unavailable" := by
  unfold rawAvailability
  split
  · split <;> simp_all [reportedStatus]
  · simp [reportedStatus]

/-- C11: the `checkAIAvailability` response is always a success response and leaves the
cached capability record as it is.  For each capability whose cached status is not
`'available'`, the reported availability is `'unavailable'` when the capability is not
detected, and otherwise the availability query is made and its reply decides: the raw
value `"readily"` gives `'available'`, `"after-download"` gives `'downloadable'`, every
other raw value and a thrown error give `'unavailable'`.  A cached `'available'` is
reported as `'available'` without a query. -/
theorem checkAIAvailability_reports_three_states (b : Backend) (w : World) :
    (∃ availability capabilities,
      (handleCheckAIAvailability b w).1 = .ok (.availability availability capabilities)) ∧
    (handleCheckAIAvailability b w).2.aiCapabilities = w.aiCapabilities ∧
    (∀ c : Capability,
      (w.aiCapabilities.status c = .str "available" →
        reportedAvailability (handleCheckAIAvailability b w).1 c = some "available") ∧
      (w.aiCapabilities.status c ≠ .str "available" → b.detects c = false →
        reportedAvailability (handleCheckAIAvailability b w).1 c = some "unavailable") ∧
      (w.aiCapabilities.status c ≠ .str "available" → b.detects c = true →
        ∃ history, w.calls <+: history ∧
          history ++ [availabilityQuery c] <+: (handleCheckAIAvailability b w).2.calls ∧
          reportedAvailability (handleCheckAIAvailability b w).1 c =
            some (match b.valueReply (history ++ [availabilityQuery c]) with
              | .ok raw => reportedStatus raw
              | .error _ => "unavailable"))) ∧
    reportedStatus (.str "readily") = "available" ∧
    reportedStatus (.str "after-download") = "downloadable" ∧
    (∀ raw, raw ≠ .str "readily" → raw ≠ .str "after-download" →
      reportedStatus raw = "unavailable") := by
  obtain ⟨capabilities, heq⟩ := handleCheckAIAvailability_eq b w
  rw [heq]
  refine ⟨⟨_, _, rfl⟩, rfl, ?_, by decide, by decide, ?_⟩
  · intro c
    refine ⟨?_, ?_, ?_⟩
    · intro hc
      cases c <;> simp [reportedAvailability, Availability.of, hc, reportedStatus]
    · intro hc hd
      cases c <;>
        simp [reportedAvailability, Availability.of, hc, reportedStatus_rawAvailability, hd]
    · intro hc hd
      cases c
      · refine ⟨w.calls, List.prefix_refl _, ?_, ?_⟩
        · simp only [availabilityCalls, hc, hd, if_true, if_false, List.append_assoc]
          exact (List.prefix_append_right_inj _).mpr (List.prefix_append _ _)
        · simp [reportedAvailability, Availability.of, hc, reportedStatus_rawAvailability, hd]
      · refine ⟨w.calls ++ availabilityCalls b w.aiCapabilities .languageModel,
          List.prefix_append _ _, ?_, ?_⟩
        · simp only [availabilityCalls, hc, hd, if_true, if_false, List.append_assoc]
          refine (List.prefix_append_right_inj _).mpr ((List.prefix_append_right_inj _).mpr ?_)
          exact List.prefix_append _ _
        · simp [reportedAvailability, Availability.of, hc, reportedStatus_rawAvailability, hd]
      · refine ⟨w.calls ++ availabilityCalls b w.aiCapabilities .languageModel ++
            availabilityCalls b w.aiCapabilities .summarizer,
          (List.prefix_append _ _).trans (List.prefix_append _ _), ?_, ?_⟩
        · simp only [availabilityCalls, hc, hd, if_true, if_false, List.append_assoc,
            List.append_nil]
          exact List.prefix_refl _
        · simp [reportedAvailability, Availability.of, hc, reportedStatus_rawAvailability, hd]
  · intro raw h1 h2
    simp [reportedStatus, h1, h2]

/-- C11, witness: a cached `'available'` of the language model is reported as
`'available'`. -/
theorem checkAIAvailability_reports_three_states_witness :
    reportedAvailability
      (handleCheckAIAvailability steadyBackend
        (World.fresh (Capabilities.withStatuses "available" "downloadable" "unavailable"))).1
      .languageModel = some "available" :=
  ((checkAIAvailability_reports_three_states steadyBackend
    (World.fresh (Capabilities.withStatuses "available" "downloadable" "unavailable"))).2.2.1
    .languageModel).1 (by decide)

/-! ## Download requests -/

/-- The response to a download request that names a capability, from the outcome of the
download operation. -/
theorem handleDownloadModel_modelType (b : Backend) (c : Capability) (w : World) :
    handleDownloadModel b (some c.modelType) w =
      (match (downloadModel b c w).1 with
        | .ok result => .ok (.downloaded result)
        | .error message => .ok (.plainFailure message),
       (downloadModel b c w).2) := by
  cases c <;>
    simp only [handleDownloadModel, Capability.modelType, Run.tryCatch, bind, Run.bind,
      downloadSummarizerModel, downloadTranslatorModel, downloadLanguageModel, pure, Run.pure] <;>
    simp <;>
    rcases hd : downloadModel b _ w with ⟨r | e, w1⟩ <;> simp [hd, Run.bind, Run.pure]

theorem handleDownloadModel_missing (b : Backend) (w : World) :
    handleDownloadModel b none w = (.ok (.plainFailure "Model type is required"), w) ∧
    handleDownloadModel b (some "") w = (.ok (.plainFailure "Model type is required"), w) := by
  constructor <;> simp [handleDownloadModel, Run.tryCatch, Run.throw, pure, Run.pure]

theorem handleDownloadModel_unknown (b : Backend) (w : World) (modelType : String)
    (h : ∀ c : Capability, modelType ≠ c.modelType) (hne : modelType ≠ "") :
    handleDownloadModel b (some modelType) w =
      (.ok (.plainFailure ("Unknown model type: " ++ modelType)), w) := by
  have h1 := h .summarizer
  have h2 := h .translator
  have h3 := h .languageModel
  simp only [Capability.modelType] at h1 h2 h3
  simp [handleDownloadModel, Run.tryCatch, Run.throw, pure, Run.pure, bind, Run.bind, h1, h2, h3,
    hne]

/-- A download that returns leaves the status of its capability `'available'`. -/
theorem downloadModel_ok_status (b : Backend) (c : Capability) (w : World) (result : Bool)
    (h : (downloadModel b c w).1 = .ok result) :
    (downloadModel b c w).2.aiCapabilities.status c = .str "available" := by
  by_cases hd : w.aiCapabilities.present c = true ∧
      w.aiCapabilities.status c = .str "downloadable"
  · rw [downloadModel_eq b c w hd.1 hd.2] at h ⊢
    cases h1 : b.unitReply (w.calls ++ [.create c]) with
    | error e => simp [h1] at h
    | ok u => cases c <;> simp [Capabilities.setStatus, Capabilities.status]
  · have hr := downloadModel_refused b c w (by
      by_cases hp : w.aiCapabilities.present c = true
      · exact Or.inr fun hs => hd ⟨hp, hs⟩
      · exact Or.inl (by simpa using hp))
    rw [hr] at h
    simp at h

/-- C12: a download is refused unless the capability is present with status
`'downloadable'`.  If the capability is absent or its status is not `'downloadable'`, the
download operation throws the error `'... is not downloadable'` and the state is the one
before the call, so no backend call is made and the capability record is unchanged; the
handler answers the request that names the capability with `{success: false, error}`.  A
request without `modelType`, with an empty one or with an unknown one is answered with
`{success: false, error}` as well, in the same state. -/
theorem download_refused_unless_downloadable (b : Backend) (c : Capability) (w : World)
    (h : w.aiCapabilities.present c = false ∨
      w.aiCapabilities.status c ≠ .str "downloadable") :
    downloadModel b c w = (.error (notDownloadableMessage c), w) ∧
    (∃ name, notDownloadableMessage c = name ++ " is not downloadable") ∧
    handleDownloadModel b (some c.modelType) w =
      (.ok (.plainFailure (notDownloadableMessage c)), w) ∧
    handleDownloadModel b none w = (.ok (.plainFailure "Model type is required"), w) ∧
    handleDownloadModel b (some "") w = (.ok (.plainFailure "Model type is required"), w) ∧
    (∀ modelType : String, (∀ c : Capability, modelType ≠ c.modelType) → modelType ≠ "" →
      handleDownloadModel b (some modelType) w =
        (.ok (.plainFailure ("Unknown model type: " ++ modelType)), w)) := by
  have hr := downloadModel_refused b c w h
  refine ⟨hr, ?_, ?_, (handleDownloadModel_missing b w).1, (handleDownloadModel_missing b w).2,
    fun modelType hm hne => handleDownloadModel_unknown b w modelType hm hne⟩
  · cases c
    · exact ⟨"Language model", rfl⟩
    · exact ⟨"Summarizer model", rfl⟩
    · exact ⟨"Translator model", rfl⟩
  · rw [handleDownloadModel_modelType, hr]

/-- C12, witness: the download of a summarizer whose status is `'unavailable'` throws and
leaves the state as it was. -/
theorem download_refused_unless_downloadable_witness :
    downloadModel steadyBackend .summarizer
        (World.fresh (Capabilities.withStatuses "downloadable" "unavailable" "downloadable")) =
      (.error "Summarizer model is not downloadable",
        World.fresh (Capabilities.withStatuses "downloadable" "unavailable" "downloadable")) :=
  (download_refused_unless_downloadable steadyBackend .summarizer
    (World.fresh (Capabilities.withStatuses "downloadable" "unavailable" "downloadable"))
    (Or.inr (by decide))).1

/-- C13, as the code has it: for a capability that is present with status
`'downloadable'`, a download that returns leaves the status `'available'`.  A download
that throws throws the error of the backend step that failed; when `create` failed the
capability record is unchanged, and when `create` succeeded and `destroy` failed the
status is already `'available'`. -/
theorem download_outcome (b : Backend) (c : Capability) (w : World)
    (hp : w.aiCapabilities.present c = true)
    (hs : w.aiCapabilities.status c = .str "downloadable") :
    (∀ result, (downloadModel b c w).1 = .ok result →
      result = true ∧ (downloadModel b c w).2.aiCapabilities.status c = .str "available") ∧
    (∀ message, (downloadModel b c w).1 = .error message →
      (b.unitReply (w.calls ++ [.create c]) = .error message ∧
        (downloadModel b c w).2.aiCapabilities = w.aiCapabilities) ∨
      (b.unitReply (w.calls ++ [.create c]) = .ok () ∧
        b.unitReply (w.calls ++ [.create c, .destroy c w.calls.length]) = .error message ∧
        (downloadModel b c w).2.aiCapabilities.status c = .str "available")) := by
  rw [downloadModel_eq b c w hp hs]
  cases h1 : b.unitReply (w.calls ++ [.create c]) with
  | error e => simp
  | ok u =>
    cases h2 : b.unitReply (w.calls ++ [.create c, .destroy c w.calls.length]) with
    | error e => cases c <;> simp [Capabilities.setStatus, Capabilities.status]
    | ok u2 => cases c <;> simp [Capabilities.setStatus, Capabilities.status]

/-- C13, witness: a download of a downloadable translator that returns leaves its status
`'available'`. -/
theorem download_outcome_witness :
    (downloadModel steadyBackend .translator
      (World.fresh (Capabilities.withStatuses "unavailable" "unavailable" "downloadable"))
      ).2.aiCapabilities.status .translator = .str "available" :=
  ((download_outcome steadyBackend .translator
    (World.fresh (Capabilities.withStatuses "unavailable" "unavailable" "downloadable"))
    (by decide) (by decide)).1 true (by decide)).2

/-- C13, counterexample: on a backend whose `destroy` throws, the download of a
downloadable summarizer throws and the status is `'available'` afterwards, not
`'downloadable'`. -/
theorem download_failure_changes_status :
    (World.fresh (Capabilities.withStatuses "unavailable" "downloadable" "unavailable")
      ).aiCapabilities.status .summarizer = .str "downloadable" ∧
    (downloadModel destroyFailsBackend .summarizer
      (World.fresh (Capabilities.withStatuses "unavailable" "downloadable" "unavailable"))).1 =
      .error "destroy failed" ∧
    (downloadModel destroyFailsBackend .summarizer
      (World.fresh (Capabilities.withStatuses "unavailable" "downloadable" "unavailable"))
      ).2.aiCapabilities.status .summarizer = .str "available" := by
  decide

/-- C14, as the code has it: once a download request for a capability has been answered
with `{success: true, downloaded: true}`, then after any further messages a repeated
download request for the same capability is refused with
`{success: false, error: '... is not downloadable'}`; it makes no backend call and
changes no status, the state after it is the state before it. -/
theorem repeated_download_refused (b : Backend) (c : Capability) (w : World)
    (messages : List (String × Request))
    (h : (handleDownloadModel b (some c.modelType) w).1 = .ok (.downloaded true)) :
    handleDownloadModel b (some c.modelType)
        (handleMessages b messages (handleDownloadModel b (some c.modelType) w).2).2 =
      (.ok (.plainFailure (notDownloadableMessage c)),
        (handleMessages b messages (handleDownloadModel b (some c.modelType) w).2).2) := by
  have hst : (handleDownloadModel b (some c.modelType) w).2.aiCapabilities.status c =
      .str "available" := by
    rw [handleDownloadModel_modelType] at h ⊢
    rcases hr : (downloadModel b c w).1 with r | e
    · exact downloadModel_ok_status b c w r hr
    · rw [hr] at h
      simp [Response.plainFailure] at h
  have hst2 := (handleMessages_advances b messages _).available c hst
  rw [handleDownloadModel_modelType, downloadModel_refused b c _ (Or.inr (by rw [hst2]; decide))]

/-- C14, witness: after a successful download of the summarizer and an availability check,
a second download request for the summarizer is refused. -/
theorem repeated_download_refused_witness :
    handleDownloadModel steadyBackend (some "summarizer")
        (handleMessages steadyBackend [("12:00", .checkAIAvailability)]
          (handleDownloadModel steadyBackend (some "summarizer")
            (World.fresh (Capabilities.withStatuses "unavailable" "downloadable" "unavailable"))
            ).2).2 =
      (.ok (.plainFailure "Summarizer model is not downloadable"),
        (handleMessages steadyBackend [("12:00", .checkAIAvailability)]
          (handleDownloadModel steadyBackend (some "summarizer")
            (World.fresh (Capabilities.withStatuses "unavailable" "downloadable" "unavailable"))
            ).2).2) :=
  repeated_download_refused steadyBackend .summarizer
    (World.fresh (Capabilities.withStatuses "unavailable" "downloadable" "unavailable"))
    [("12:00", .checkAIAvailability)] (by decide)

/-- C14, counterexample: two download requests for a downloadable summarizer in a row on
a backend where every call succeeds; the first is answered with success, the second with
`{success: false, error: 'Summarizer model is not downloadable'}`. -/
theorem repeated_download_not_success :
    (handleMessages steadyBackend
      [("12:00", .downloadModel (some "summarizer")),
       ("12:01", .downloadModel (some "summarizer"))]
      (World.fresh (Capabilities.withStatuses "unavailable" "downloadable" "unavailable"))).1 =
      [.downloaded true, .plainFailure "Summarizer model is not downloadable"] := by
  decide

/-- C15: a cached status `'available'` stays `'available'`.  From every state, for every
backend and every sequence of messages handled one after the other, a capability whose
status is `'available'` has status `'available'` after each message of the sequence. -/
theorem available_never_regresses (b : Backend) (messages : List (String × Request))
    (w : World) (c : Capability) (h : w.aiCapabilities.status c = .str "available") :
    ∀ k : Nat,
      (handleMessages b (messages.take k) w).2.aiCapabilities.status c = .str "available" :=
  fun k => (handleMessages_advances b (messages.take k) w).available c h

/-- C15, witness: the status `'available'` of the summarizer survives three messages on a
backend where every call throws. -/
theorem available_never_regresses_witness :
    (handleMessages failingBackend
      ([("12:00", .downloadModel (some "translator")), ("12:01", .checkAIAvailability),
        ("12:02", .translateText (utf16 "Good morning") "es")].take 3)
      (World.fresh (Capabilities.withStatuses "downloadable" "available" "downloadable"))
      ).2.aiCapabilities.status .summarizer = .str "available" :=
  available_never_regresses failingBackend
    [("12:00", .downloadModel (some "translator")), ("12:01", .checkAIAvailability),
      ("12:02", .translateText (utf16 "Good morning") "es")]
    (World.fresh (Capabilities.withStatuses "downloadable" "available" "downloadable"))
    .summarizer (by decide) 3

/-! ## Summary requests -/

/-- A request whose content fails the validation is answered with the error of the
validation, in the state before the request. -/
theorem handleGenerateSummary_invalid (b : Backend) (now : String)
    (pageContent : Option PageContent) (userProfile : UserProfile) (w : World) (message : String)
    (h : validateContent pageContent = .error message) :
    handleGenerateSummary b now pageContent userProfile w =
      (.ok (.plainFailure message), w) := by
  simp [handleGenerateSummary, h, Run.tryCatch, Run.throw, pure, Run.pure]

/-- A request with valid content when neither the summarizer nor the language model is
present. -/
theorem handleGenerateSummary_absent (b : Backend) (now : String)
    (pageContent : Option PageContent) (content : PageContent) (userProfile : UserProfile)
    (w : World) (hv : validateContent pageContent = .ok content)
    (h1 : w.aiCapabilities.summarizer = false) (h2 : w.aiCapabilities.languageModel = false) :
    handleGenerateSummary b now pageContent userProfile w =
      (.ok (.plainFailure "AI summarization is not available in this browser"), w) := by
  simp [handleGenerateSummary, hv, Run.tryCatch, bind, Run.bind, getCapabilities, h1, h2,
    pure, Run.pure]

/-- A request with valid content and a non-empty download plan. -/
theorem handleGenerateSummary_plan (b : Backend) (now : String)
    (pageContent : Option PageContent) (content : PageContent) (userProfile : UserProfile)
    (w : World) (hv : validateContent pageContent = .ok content)
    (hp : w.aiCapabilities.summarizer = true ∨ w.aiCapabilities.languageModel = true)
    (hplan : downloadableModels w.aiCapabilities ≠ []) :
    handleGenerateSummary b now pageContent userProfile w =
      (.ok (.failure "Models need to be downloaded" (some "MODELS_DOWNLOADABLE")
        (some (downloadableModels w.aiCapabilities)) none), w) := by
  have hlen : 0 < (downloadableModels w.aiCapabilities).length := List.length_pos.mpr hplan
  rcases hp with hp | hp <;>
    simp [handleGenerateSummary, hv, Run.tryCatch, bind, Run.bind, getCapabilities, hp,
      pure, Run.pure, Run.ite_apply, hlen]

/-- A request with valid content, one of the two generating capabilities present and an
empty download plan: the summary is generated and, for a language other than English,
translated. -/
theorem handleGenerateSummary_generate (b : Backend) (now : String)
    (pageContent : Option PageContent) (content : PageContent) (userProfile : UserProfile)
    (w : World) (hv : validateContent pageContent = .ok content)
    (hp : w.aiCapabilities.summarizer = true ∨ w.aiCapabilities.languageModel = true)
    (hplan : downloadableModels w.aiCapabilities = []) :
    handleGenerateSummary b now pageContent userProfile w =
      match generatePersonalizedSummary b content userProfile w with
      | (.error message, w1) => (.ok (.plainFailure message), w1)
      | (.ok summary, w1) =>
        match (if userProfile.preferredLanguage ≠ "en" then
            translateSummary b summary userProfile.preferredLanguage
          else pure summary) w1 with
        | (.error message, w2) => (.ok (.plainFailure message), w2)
        | (.ok translatedSummary, w2) =>
          (.ok (.summary
            { original := summary
              translated := translatedSummary
              language := userProfile.preferredLanguage
              wordCount := countWords summary
              generatedAt := now }), w2) := by
  rcases hg : generatePersonalizedSummary b content userProfile w with ⟨summary | e, w1⟩
  · rcases hp with hp | hp <;>
      simp only [handleGenerateSummary, hv, Run.tryCatch, bind, Run.bind, getCapabilities, hp,
        pure, Run.pure, Run.ite_apply, hplan, hg, Bool.not_true, Bool.false_and, Bool.and_false,
        Bool.false_eq_true, if_false, List.length_nil, gt_iff_lt, lt_self_iff_false] <;>
      rcases (if userProfile.preferredLanguage ≠ "en" then
            translateSummary b summary userProfile.preferredLanguage w1
          else (Result.ok summary, w1)) with ⟨t | e, w2⟩ <;> rfl
  · rcases hp with hp | hp <;>
      simp [handleGenerateSummary, hv, Run.tryCatch, bind, Run.bind, getCapabilities, hp,
        pure, Run.pure, Run.ite_apply, hplan, hg]

/-- The download plan is the list of the downloadable capabilities among summarizer,
language model and translator, in that order. -/
theorem downloadableModels_eq (caps : Capabilities) :
    downloadableModels caps =
      (([.summarizer, .languageModel, .translator] : List Capability).filter
        (fun c => caps.present c && caps.status c == .str "downloadable")).map
        Capability.modelType := by
  unfold downloadableModels
  simp only [Capabilities.present, Capabilities.status, List.filter, List.nil_append]
  cases h1 : (caps.summarizer && caps.summarizerStatus == .str "downloadable") <;>
  cases h2 : (caps.languageModel && caps.languageModelStatus == .str "downloadable") <;>
  cases h3 : (caps.translator && caps.translatorStatus == .str "downloadable") <;>
  simp [Capability.modelType]

/-- C16: for a `generateSummary` request with valid content and the summarizer or the
language model present, the download plan is the sub-list of summarizer, languageModel,
translator (in that order) of the capabilities present with status `'downloadable'`.  If
the plan is not empty, the response is `{success: false, error, errorCode:
'MODELS_DOWNLOADABLE', downloadableModels: plan}` and the state is the one before the
request, so no backend call is made; if it is empty, the response does not carry that
error code. -/
theorem generateSummary_download_plan (b : Backend) (now : String)
    (pageContent : Option PageContent) (content : PageContent) (userProfile : UserProfile)
    (w : World) (hv : validateContent pageContent = .ok content)
    (hp : w.aiCapabilities.summarizer = true ∨ w.aiCapabilities.languageModel = true) :
    downloadableModels w.aiCapabilities =
      (([.summarizer, .languageModel, .translator] : List Capability).filter
        (fun c => w.aiCapabilities.present c &&
          w.aiCapabilities.status c == .str "downloadable")).map Capability.modelType ∧
    (downloadableModels w.aiCapabilities ≠ [] →
      handleGenerateSummary b now pageContent userProfile w =
        (.ok (.failure "Models need to be downloaded" (some "MODELS_DOWNLOADABLE")
          (some (downloadableModels w.aiCapabilities)) none), w)) ∧
    (downloadableModels w.aiCapabilities = [] →
      ∀ error errorCode plan modelType,
        (handleGenerateSummary b now pageContent userProfile w).1 =
          .ok (.failure error errorCode plan modelType) → errorCode = none) := by
  refine ⟨downloadableModels_eq _, handleGenerateSummary_plan b now pageContent content
    userProfile w hv hp, ?_⟩
  intro hplan error errorCode plan modelType
  rw [handleGenerateSummary_generate b now pageContent content userProfile w hv hp hplan]
  rcases generatePersonalizedSummary b content userProfile w with ⟨summary | e, w1⟩
  · dsimp only
    rcases (if userProfile.preferredLanguage ≠ "en" then
          translateSummary b summary userProfile.preferredLanguage
        else pure summary) w1 with ⟨t | e, w2⟩
    · simp
    · simp only [Response.plainFailure, Result.ok.injEq, Response.failure.injEq]
      exact fun h => h.2.1.symm
  · simp only [Response.plainFailure, Result.ok.injEq, Response.failure.injEq]
    exact fun h => h.2.1.symm

/-- C16, witness: with the summarizer downloadable, the translator available and the
language model unavailable, the request is refused with the plan `['summarizer']`. -/
theorem generateSummary_download_plan_witness :
    handleGenerateSummary steadyBackend "12:00"
        (some (sampleContent (some (utf16 "Some readable text.")))) (sampleProfile "en")
        (World.fresh (Capabilities.withStatuses "unavailable" "downloadable" "available")) =
      (.ok (.failure "Models need to be downloaded" (some "MODELS_DOWNLOADABLE")
        (some ["summarizer"]) none),
        World.fresh (Capabilities.withStatuses "unavailable" "downloadable" "available")) :=
  (generateSummary_download_plan steadyBackend "12:00"
    (some (sampleContent (some (utf16 "Some readable text."))))
    (sampleContent (some (utf16 "Some readable text."))) (sampleProfile "en")
    (World.fresh (Capabilities.withStatuses "unavailable" "downloadable" "available"))
    (by decide) (Or.inl rfl)).2.1 (by decide)

/-- C17, on the empty string: a `generateSummary` request whose `content.text.raw` is
`""` is answered with the error of the missing `raw` property, `'Content text data is
incomplete. Please try refreshing the page.'`, not with the empty-content error; a `raw`
of blanks only is answered with the empty-content error.  In both cases the state is the
one before the request. -/
theorem generateSummary_empty_raw_reported_incomplete (b : Backend) (now : String)
    (userProfile : UserProfile) (w : World) :
    handleGenerateSummary b now (some (sampleContent (some (utf16 "")))) userProfile w =
      (.ok (.plainFailure "Content text data is incomplete. Please try refreshing the page."),
        w) ∧
    handleGenerateSummary b now (some (sampleContent (some (utf16 "  ")))) userProfile w =
      (.ok (.plainFailure
        "No readable content found on this page. Please try a different page."), w) :=
  ⟨handleGenerateSummary_invalid b now _ userProfile w _ (by decide),
   handleGenerateSummary_invalid b now _ userProfile w _ (by decide)⟩

/-- C18: for a `generateSummary` request with valid content, if neither the summarizer
nor the language model is present, the response is `{success: false, error: 'AI
summarization is not available in this browser'}` whatever the translator flag and the
statuses are, and the state is the one before the request: no backend call is made and
no summary is produced. -/
theorem generateSummary_without_generating_capability (b : Backend) (now : String)
    (pageContent : Option PageContent) (content : PageContent) (userProfile : UserProfile)
    (w : World) (hv : validateContent pageContent = .ok content)
    (h1 : w.aiCapabilities.summarizer = false) (h2 : w.aiCapabilities.languageModel = false) :
    handleGenerateSummary b now pageContent userProfile w =
      (.ok (.plainFailure "AI summarization is not available in this browser"), w) :=
  handleGenerateSummary_absent b now pageContent content userProfile w hv h1 h2

/-- C18, witness: a request in a state where only the translator is present. -/
theorem generateSummary_without_generating_capability_witness :
    handleGenerateSummary steadyBackend "12:00"
        (some (sampleContent (some (utf16 "Some readable text.")))) (sampleProfile "es")
        (World.fresh
          { languageModel := false, summarizer := false, translator := true,
            languageModelStatus := .undefined, summarizerStatus := .undefined,
            translatorStatus := .str "available" }) =
      (.ok (.plainFailure "AI summarization is not available in this browser"),
        World.fresh
          { languageModel := false, summarizer := false, translator := true,
            languageModelStatus := .undefined, summarizerStatus := .undefined,
            translatorStatus := .str "available" }) :=
  generateSummary_without_generating_capability steadyBackend "12:00"
    (some (sampleContent (some (utf16 "Some readable text."))))
    (sampleContent (some (utf16 "Some readable text."))) (sampleProfile "es") _
    (by decide) rfl rfl

/-! ## Summary generation -/

/-- The summarizer tier, step by step. -/
theorem summarizerTier_eq (b : Backend) (content : PageContent) (userProfile : UserProfile)
    (w : World) :
    summarizerTier b content userProfile w =
      if w.aiCapabilities.summarizer = true ∧
          w.aiCapabilities.summarizerStatus = .str "available" then
        match b.unitReply (w.calls ++ [.create .summarizer]) with
        | .error _ => (.ok none, { w with calls := w.calls ++ [.create .summarizer] })
        | .ok _ =>
          match b.textReply (w.calls ++
              [.create .summarizer, .summarize w.calls.length content.textContent]) with
          | .error _ =>
            (.ok none, { w with calls := w.calls ++
              [.create .summarizer, .summarize w.calls.length content.textContent] })
          | .ok summary =>
            (match b.unitReply (w.calls ++
                [.create .summarizer, .summarize w.calls.length content.textContent,
                  .destroy .summarizer w.calls.length]) with
              | .error _ => .ok none
              | .ok _ => .ok (some summary),
             { w with calls := w.calls ++
                [.create .summarizer, .summarize w.calls.length content.textContent,
                  .destroy .summarizer w.calls.length] })
      else (.ok none, w) := by
  by_cases h : w.aiCapabilities.summarizer = true ∧
      w.aiCapabilities.summarizerStatus = .str "available"
  · rw [if_pos h]
    cases h1 : b.unitReply (w.calls ++ [.create .summarizer]) with
    | error e =>
      simp [summarizerTier, Run.tryCatch, bind, Run.bind, getCapabilities, h.1, h.2,
        createInstance, callCount, backendCall, h1, pure, Run.pure]
    | ok u =>
      cases h2 : b.textReply (w.calls ++
          [.create .summarizer, .summarize w.calls.length content.textContent]) with
      | error e =>
        simp [summarizerTier, Run.tryCatch, bind, Run.bind, getCapabilities, h.1, h.2,
          createInstance, callCount, backendCall, h1, h2, pure, Run.pure]
      | ok summary =>
        cases h3 : b.unitReply (w.calls ++
            [.create .summarizer, .summarize w.calls.length content.textContent,
              .destroy .summarizer w.calls.length]) with
        | error e =>
          simp [summarizerTier, Run.tryCatch, bind, Run.bind, getCapabilities, h.1, h.2,
            createInstance, callCount, backendCall, h1, h2, h3, pure, Run.pure]
        | ok u2 =>
          simp [summarizerTier, Run.tryCatch, bind, Run.bind, getCapabilities, h.1, h.2,
            createInstance, callCount, backendCall, h1, h2, h3, pure, Run.pure,
            enhanceSummaryWithProfile]
  · rw [if_neg h]
    rw [not_and_or] at h
    rcases h with h | h <;>
      simp [summarizerTier, bind, Run.bind, getCapabilities, h, pure, Run.pure, Run.ite_apply]

/-- The summarizer tier never throws and changes neither the capability record nor the
stored session. -/
theorem summarizerTier_state (b : Backend) (content : PageContent) (userProfile : UserProfile)
    (w : World) :
    (∃ r, (summarizerTier b content userProfile w).1 = .ok r) ∧
    (summarizerTier b content userProfile w).2.aiCapabilities = w.aiCapabilities ∧
    (summarizerTier b content userProfile w).2.aiSessions = w.aiSessions := by
  rw [summarizerTier_eq]
  split
  · split
    · exact ⟨⟨_, rfl⟩, rfl, rfl⟩
    · split
      · exact ⟨⟨_, rfl⟩, rfl, rfl⟩
      · refine ⟨?_, rfl, rfl⟩
        dsimp only
        split <;> exact ⟨_, rfl⟩
  · exact ⟨⟨_, rfl⟩, rfl, rfl⟩

/-- `generatePersonalizedSummary` from the outcome of the summarizer tier. -/
theorem generatePersonalizedSummary_eq (b : Backend) (content : PageContent)
    (userProfile : UserProfile) (w : World) :
    generatePersonalizedSummary b content userProfile w =
      match (summarizerTier b content userProfile w).1 with
      | .ok (some summary) => (.ok summary, (summarizerTier b content userProfile w).2)
      | .ok none =>
        if w.aiCapabilities.languageModel = true ∧
            w.aiCapabilities.languageModelStatus = .str "available" then
          Run.tryCatch (do
            let session ← getOrCreateLanguageModelSession b
            backendCall (.prompt session (createSummaryPrompt content userProfile)) b.textReply)
            (fun error => Run.throw ("Failed to generate summary: " ++ error))
            (summarizerTier b content userProfile w).2
        else
          (match generateBasicSummary content userProfile with
            | .ok summary => .ok summary
            | .error message => .error ("Failed to generate summary: " ++ message),
           (summarizerTier b content userProfile w).2)
      | .error message =>
        (.error ("Failed to generate summary: " ++ message),
          (summarizerTier b content userProfile w).2) := by
  obtain ⟨-, hc, -⟩ := summarizerTier_state b content userProfile w
  rcases ht : summarizerTier b content userProfile w with ⟨r | e, w1⟩
  · rw [ht] at hc
    simp only at hc
    cases r with
    | some summary =>
      simp [generatePersonalizedSummary, Run.tryCatch, bind, Run.bind, ht, pure, Run.pure]
    | none =>
      by_cases hl : w.aiCapabilities.languageModel = true ∧
          w.aiCapabilities.languageModelStatus = .str "available"
      · rw [← hc] at hl
        simp only [generatePersonalizedSummary, Run.tryCatch, bind, Run.bind, ht,
          getCapabilities, hl.1, hl.2, ← hc, Bool.and_self, beq_self_eq_true, if_true,
          and_self, pure, Run.pure, bind_pure]
        rcases getOrCreateLanguageModelSession b w1 with ⟨session | e, w2⟩
        · dsimp only
          rcases backendCall (.prompt session (createSummaryPrompt content userProfile))
            b.textReply w2 with ⟨r | e, w3⟩ <;> rfl
        · rfl
      · rw [if_neg hl]
        rw [← hc, not_and_or] at hl
        cases hg : generateBasicSummary content userProfile <;>
        rcases hl with hl | hl <;>
          simp [generatePersonalizedSummary, Run.tryCatch, bind, Run.bind, ht,
            getCapabilities, hl, pure, Run.pure, Run.ite_apply, hg, Run.throw]
  · simp [generatePersonalizedSummary, Run.tryCatch, bind, Run.bind, ht, Run.throw]

/-- C19, as the code has it: `generatePersonalizedSummary` prefers the summarizer, then
the language model, then the local fallback.  The summarizer tier yields a summary
exactly when the summarizer is present with status `'available'` and its `create`,
`summarize` and `destroy` calls all succeed, and then the result is the output of
`summarize` as it is.  In every other case the language model is used when it is present
with status `'available'`: the result is its response to the summary prompt, and an
error of it is thrown with the prefix `'Failed to generate summary: '`.  Only when
neither applies is the result the local fallback summary. -/
theorem generatePersonalizedSummary_preference_order (b : Backend) (content : PageContent)
    (userProfile : UserProfile) (w : World) :
    ((summarizerTier b content userProfile w).1 = .ok none ↔
      ¬ (w.aiCapabilities.summarizer = true ∧
        w.aiCapabilities.summarizerStatus = .str "available" ∧
        b.unitReply (w.calls ++ [.create .summarizer]) = .ok () ∧
        (∃ summary, b.textReply (w.calls ++
          [.create .summarizer, .summarize w.calls.length content.textContent]) =
            .ok summary) ∧
        b.unitReply (w.calls ++
          [.create .summarizer, .summarize w.calls.length content.textContent,
            .destroy .summarizer w.calls.length]) = .ok ())) ∧
    (∀ summary,
      w.aiCapabilities.summarizer = true →
      w.aiCapabilities.summarizerStatus = .str "available" →
      b.unitReply (w.calls ++ [.create .summarizer]) = .ok () →
      b.textReply (w.calls ++
        [.create .summarizer, .summarize w.calls.length content.textContent]) = .ok summary →
      b.unitReply (w.calls ++
        [.create .summarizer, .summarize w.calls.length content.textContent,
          .destroy .summarizer w.calls.length]) = .ok () →
      generatePersonalizedSummary b content userProfile w =
        (.ok summary, { w with calls := w.calls ++
          [.create .summarizer, .summarize w.calls.length content.textContent,
            .destroy .summarizer w.calls.length] })) ∧
    ((summarizerTier b content userProfile w).1 = .ok none →
      w.aiCapabilities.languageModel = true →
      w.aiCapabilities.languageModelStatus = .str "available" →
      generatePersonalizedSummary b content userProfile w =
        Run.tryCatch (do
          let session ← getOrCreateLanguageModelSession b
          backendCall (.prompt session (createSummaryPrompt content userProfile)) b.textReply)
          (fun error => Run.throw ("Failed to generate summary: " ++ error))
          (summarizerTier b content userProfile w).2) ∧
    ((summarizerTier b content userProfile w).1 = .ok none →
      ¬ (w.aiCapabilities.languageModel = true ∧
        w.aiCapabilities.languageModelStatus = .str "available") →
      generatePersonalizedSummary b content userProfile w =
        (match generateBasicSummary content userProfile with
          | .ok summary => .ok summary
          | .error message => .error ("Failed to generate summary: " ++ message),
         (summarizerTier b content userProfile w).2)) ∧
    (∀ summary, enhanceSummaryWithProfile summary userProfile = summary) := by
  refine ⟨?_, ?_, ?_, ?_, fun _ => rfl⟩
  · rw [summarizerTier_eq]
    by_cases h : w.aiCapabilities.summarizer = true ∧
        w.aiCapabilities.summarizerStatus = .str "available"
    · rw [if_pos h]
      cases h1 : b.unitReply (w.calls ++ [.create .summarizer]) with
      | error e => simp
      | ok u =>
        cases h2 : b.textReply (w.calls ++
            [.create .summarizer, .summarize w.calls.length content.textContent]) with
        | error e => simp
        | ok summary =>
          cases h3 : b.unitReply (w.calls ++
              [.create .summarizer, .summarize w.calls.length content.textContent,
                .destroy .summarizer w.calls.length]) with
          | error e => simp
          | ok u2 => simp [h.1, h.2]
    · rw [if_neg h]
      simp only [true_iff]
      exact fun h' => h ⟨h'.1, h'.2.1⟩
  · intro summary hs hst h1 h2 h3
    rw [generatePersonalizedSummary_eq, summarizerTier_eq, if_pos ⟨hs, hst⟩, h1]
    simp only [h2, h3]
  · intro ht hl hls
    rw [generatePersonalizedSummary_eq, ht]
    simp only [hl, hls, and_self, if_true]
  · intro ht hl
    rw [generatePersonalizedSummary_eq, ht]
    simp only [hl, if_false]

/-- C19, witness: on a backend where every call succeeds the result is the output of the
summarizer, after its three calls. -/
theorem generatePersonalizedSummary_preference_order_witness :
    generatePersonalizedSummary steadyBackend (sampleContent (some (utf16 "Some readable text.")))
        (sampleProfile "en")
        (World.fresh (Capabilities.withStatuses "available" "available" "available")) =
      (.ok (utf16 "Generated text."),
        { World.fresh (Capabilities.withStatuses "available" "available" "available") with
          calls := [.create .summarizer, .summarize 0 (utf16 "Some readable text."),
            .destroy .summarizer 0] }) :=
  (generatePersonalizedSummary_preference_order steadyBackend
    (sampleContent (some (utf16 "Some readable text."))) (sampleProfile "en")
    (World.fresh (Capabilities.withStatuses "available" "available" "available"))).2.1
    (utf16 "Generated text.") rfl rfl rfl rfl rfl

/-- C19, counterexample: the summarizer is present with status `'available'`, its
`create` and `summarize` calls succeed and `summarize` returns `"Generated text."`, but
its `destroy` throws; the result is the response of the language model, not the output
of the summarizer. -/
theorem summarizer_output_dropped_when_destroy_fails :
    destroyFailsBackend.unitReply [.create .summarizer] = .ok () ∧
    destroyFailsBackend.textReply
      [.create .summarizer, .summarize 0 (utf16 "Some readable text.")] =
      .ok (utf16 "Generated text.") ∧
    (generatePersonalizedSummary destroyFailsBackend
      (sampleContent (some (utf16 "Some readable text."))) (sampleProfile "en")
      (World.fresh (Capabilities.withStatuses "available" "available" "unavailable"))).1 =
      .ok (utf16 "Language model output.") := by
  decide

/-! ## Translation -/

/-- The translator tier, step by step. -/
theorem translatorTier_eq (b : Backend) (text : JSString) (w : World) :
    translatorTier b text w =
      if w.aiCapabilities.translator = true ∧
          w.aiCapabilities.translatorStatus = .str "available" then
        match b.unitReply (w.calls ++ [.create .translator]) with
        | .error _ => (.ok none, { w with calls := w.calls ++ [.create .translator] })
        | .ok _ =>
          match b.textReply (w.calls ++
              [.create .translator, .translate w.calls.length text]) with
          | .error _ =>
            (.ok none, { w with calls := w.calls ++
              [.create .translator, .translate w.calls.length text] })
          | .ok translated =>
            (match b.unitReply (w.calls ++
                [.create .translator, .translate w.calls.length text,
                  .destroy .translator w.calls.length]) with
              | .error _ => .ok none
              | .ok _ => .ok (some translated),
             { w with calls := w.calls ++
                [.create .translator, .translate w.calls.length text,
                  .destroy .translator w.calls.length] })
      else (.ok none, w) := by
  by_cases h : w.aiCapabilities.translator = true ∧
      w.aiCapabilities.translatorStatus = .str "available"
  · rw [if_pos h]
    cases h1 : b.unitReply (w.calls ++ [.create .translator]) with
    | error e =>
      simp [translatorTier, Run.tryCatch, bind, Run.bind, getCapabilities, h.1, h.2,
        createInstance, callCount, backendCall, h1, pure, Run.pure]
    | ok u =>
      cases h2 : b.textReply (w.calls ++
          [.create .translator, .translate w.calls.length text]) with
      | error e =>
        simp [translatorTier, Run.tryCatch, bind, Run.bind, getCapabilities, h.1, h.2,
          createInstance, callCount, backendCall, h1, h2, pure, Run.pure]
      | ok translated =>
        cases h3 : b.unitReply (w.calls ++
            [.create .translator, .translate w.calls.length text,
              .destroy .translator w.calls.length]) with
        | error e =>
          simp [translatorTier, Run.tryCatch, bind, Run.bind, getCapabilities, h.1, h.2,
            createInstance, callCount, backendCall, h1, h2, h3, pure, Run.pure]
        | ok u2 =>
          simp [translatorTier, Run.tryCatch, bind, Run.bind, getCapabilities, h.1, h.2,
            createInstance, callCount, backendCall, h1, h2, h3, pure, Run.pure]
  · rw [if_neg h]
    rw [not_and_or] at h
    rcases h with h | h <;>
      simp [translatorTier, bind, Run.bind, getCapabilities, h, pure, Run.pure, Run.ite_apply]

/-- The translator tier never throws and changes neither the capability record nor the
stored session. -/
theorem translatorTier_state (b : Backend) (text : JSString) (w : World) :
    (∃ r, (translatorTier b text w).1 = .ok r) ∧
    (translatorTier b text w).2.aiCapabilities = w.aiCapabilities ∧
    (translatorTier b text w).2.aiSessions = w.aiSessions := by
  rw [translatorTier_eq]
  split
  · split
    · exact ⟨⟨_, rfl⟩, rfl, rfl⟩
    · split
      · exact ⟨⟨_, rfl⟩, rfl, rfl⟩
      · refine ⟨?_, rfl, rfl⟩
        dsimp only
        split <;> exact ⟨_, rfl⟩
  · exact ⟨⟨_, rfl⟩, rfl, rfl⟩

/-- `translateText` from the outcome of the translator tier. -/
theorem translateText_eq (b : Backend) (text : JSString) (targetLanguage : String)
    (w : World) :
    translateText b text targetLanguage w =
      match (translatorTier b text w).1 with
      | .ok (some translated) => (.ok translated, (translatorTier b text w).2)
      | .ok none =>
        if w.aiCapabilities.languageModel = true ∧
            w.aiCapabilities.languageModelStatus = .str "available" then
          Run.tryCatch (do
            let session ← getOrCreateLanguageModelSession b
            backendCall (.prompt session (translationPrompt text targetLanguage)) b.textReply)
            (fun _ => pure text)
            (translatorTier b text w).2
        else (.ok text, (translatorTier b text w).2)
      | .error _ => (.ok text, (translatorTier b text w).2) := by
  obtain ⟨-, hc, -⟩ := translatorTier_state b text w
  rcases ht : translatorTier b text w with ⟨r | e, w1⟩
  · rw [ht] at hc
    simp only at hc
    cases r with
    | some translated =>
      simp [translateText, Run.tryCatch, bind, Run.bind, ht, pure, Run.pure]
    | none =>
      by_cases hl : w.aiCapabilities.languageModel = true ∧
          w.aiCapabilities.languageModelStatus = .str "available"
      · rw [← hc] at hl
        simp only [translateText, Run.tryCatch, bind, Run.bind, ht,
          getCapabilities, hl.1, hl.2, ← hc, Bool.and_self, beq_self_eq_true, if_true,
          and_self, pure, Run.pure]
      · rw [if_neg hl]
        rw [← hc, not_and_or] at hl
        rcases hl with hl | hl <;>
          simp [translateText, Run.tryCatch, bind, Run.bind, ht,
            getCapabilities, hl, pure, Run.pure, Run.ite_apply]
  · simp [translateText, Run.tryCatch, bind, Run.bind, ht, pure, Run.pure]

/-- `translateText` returns a string, it never throws. -/
theorem translateText_returns (b : Backend) (text : JSString) (targetLanguage : String)
    (w : World) : ∃ result, (translateText b text targetLanguage w).1 = .ok result := by
  rw [translateText_eq]
  split
  · exact ⟨_, rfl⟩
  · split
    · simp only [Run.tryCatch]
      split
      · exact ⟨_, rfl⟩
      · exact ⟨_, rfl⟩
    · exact ⟨_, rfl⟩
  · exact ⟨_, rfl⟩

/-- When the translator tier yields nothing and the language model is not available or
fails, `translateText` returns the input text. -/
theorem translateText_unchanged (b : Backend) (text : JSString) (targetLanguage : String)
    (w : World) (ht : (translatorTier b text w).1 = .ok none)
    (hl : ¬ (w.aiCapabilities.languageModel = true ∧
        w.aiCapabilities.languageModelStatus = .str "available") ∨
      ∃ message w2,
        (do
          let session ← getOrCreateLanguageModelSession b
          backendCall (.prompt session (translationPrompt text targetLanguage)) b.textReply :
          Run JSString) (translatorTier b text w).2 = (.error message, w2)) :
    (translateText b text targetLanguage w).1 = .ok text := by
  rw [translateText_eq, ht]
  dsimp only
  split
  · rename_i hlm
    rcases hl with hl | ⟨message, w2, hl⟩
    · exact absurd hlm hl
    · simp only [Run.tryCatch, hl, pure, Run.pure]
  · rfl

/-- C20: translation never fails a summary run.  `translateText` returns a string and
never throws.  It returns the output of the translator when the translator is present
with status `'available'` and its `create`, `translate` and `destroy` calls succeed;
otherwise the response of the language model to the translation prompt when the language
model is present with status `'available'` and answers; otherwise the input text.  So a
`generateSummary` run whose summary was generated and whose translator and language model
both fail is answered with success and `translated` equal to `original`. -/
theorem translateText_never_throws (b : Backend) (text : JSString) (targetLanguage : String)
    (w : World) :
    (∃ result, (translateText b text targetLanguage w).1 = .ok result) ∧
    (∀ translated,
      w.aiCapabilities.translator = true →
      w.aiCapabilities.translatorStatus = .str "available" →
      b.unitReply (w.calls ++ [.create .translator]) = .ok () →
      b.textReply (w.calls ++ [.create .translator, .translate w.calls.length text]) =
        .ok translated →
      b.unitReply (w.calls ++ [.create .translator, .translate w.calls.length text,
        .destroy .translator w.calls.length]) = .ok () →
      translateText b text targetLanguage w =
        (.ok translated, { w with calls := w.calls ++
          [.create .translator, .translate w.calls.length text,
            .destroy .translator w.calls.length] })) ∧
    ((translatorTier b text w).1 = .ok none ↔
      ¬ (w.aiCapabilities.translator = true ∧
        w.aiCapabilities.translatorStatus = .str "available" ∧
        b.unitReply (w.calls ++ [.create .translator]) = .ok () ∧
        (∃ translated, b.textReply (w.calls ++
          [.create .translator, .translate w.calls.length text]) = .ok translated) ∧
        b.unitReply (w.calls ++ [.create .translator, .translate w.calls.length text,
          .destroy .translator w.calls.length]) = .ok ())) ∧
    ((translatorTier b text w).1 = .ok none →
      w.aiCapabilities.languageModel = true →
      w.aiCapabilities.languageModelStatus = .str "available" →
      ∀ response w2,
        (do
          let session ← getOrCreateLanguageModelSession b
          backendCall (.prompt session (translationPrompt text targetLanguage)) b.textReply :
          Run JSString) (translatorTier b text w).2 = (.ok response, w2) →
        translateText b text targetLanguage w = (.ok response, w2)) ∧
    ((translatorTier b text w).1 = .ok none →
      (¬ (w.aiCapabilities.languageModel = true ∧
          w.aiCapabilities.languageModelStatus = .str "available") ∨
        ∃ message w2,
          (do
            let session ← getOrCreateLanguageModelSession b
            backendCall (.prompt session (translationPrompt text targetLanguage)) b.textReply :
            Run JSString) (translatorTier b text w).2 = (.error message, w2)) →
      (translateText b text targetLanguage w).1 = .ok text) ∧
    (∀ (now : String) (pageContent : Option PageContent) (content : PageContent)
        (userProfile : UserProfile) (w0 : World),
      validateContent pageContent = .ok content →
      (w0.aiCapabilities.summarizer = true ∨ w0.aiCapabilities.languageModel = true) →
      downloadableModels w0.aiCapabilities = [] →
      generatePersonalizedSummary b content userProfile w0 = (.ok text, w) →
      userProfile.preferredLanguage = targetLanguage →
      (translatorTier b text w).1 = .ok none →
      (¬ (w.aiCapabilities.languageModel = true ∧
          w.aiCapabilities.languageModelStatus = .str "available") ∨
        ∃ message w2,
          (do
            let session ← getOrCreateLanguageModelSession b
            backendCall (.prompt session (translationPrompt text targetLanguage)) b.textReply :
            Run JSString) (translatorTier b text w).2 = (.error message, w2)) →
      (handleGenerateSummary b now pageContent userProfile w0).1 =
        .ok (.summary
          { original := text
            translated := text
            language := targetLanguage
            wordCount := countWords text
            generatedAt := now })) := by
  refine ⟨translateText_returns b text targetLanguage w, ?_, ?_, ?_,
    translateText_unchanged b text targetLanguage w, ?_⟩
  · intro translated hs hst h1 h2 h3
    rw [translateText_eq, translatorTier_eq, if_pos ⟨hs, hst⟩, h1]
    simp only [h2, h3]
  · rw [translatorTier_eq]
    by_cases h : w.aiCapabilities.translator = true ∧
        w.aiCapabilities.translatorStatus = .str "available"
    · rw [if_pos h]
      cases h1 : b.unitReply (w.calls ++ [.create .translator]) with
      | error e => simp
      | ok u =>
        cases h2 : b.textReply (w.calls ++
            [.create .translator, .translate w.calls.length text]) with
        | error e => simp
        | ok translated =>
          cases h3 : b.unitReply (w.calls ++
              [.create .translator, .translate w.calls.length text,
                .destroy .translator w.calls.length]) with
          | error e => simp
          | ok u2 => simp [h.1, h.2]
    · rw [if_neg h]
      simp only [true_iff]
      exact fun h' => h ⟨h'.1, h'.2.1⟩
  · intro ht hl hls response w2 hr
    rw [translateText_eq, ht]
    simp only [hl, hls, and_self, if_true, Run.tryCatch, hr]
  · intro now pageContent content userProfile w0 hv hp hplan hg hlang ht hl
    have hu := translateText_unchanged b text targetLanguage w ht hl
    rw [handleGenerateSummary_generate b now pageContent content userProfile w0 hv hp hplan, hg]
    subst hlang
    dsimp only
    by_cases hen : userProfile.preferredLanguage = "en"
    · simp [hen, pure, Run.pure]
    · simp only [ne_eq, hen, not_false_eq_true, if_true, translateSummary, if_false]
      rcases hr : translateText b text userProfile.preferredLanguage w with ⟨t | e, w2⟩
      · rw [hr] at hu
        simp only [Result.ok.injEq] at hu
        simp [hu]
      · rw [hr] at hu
        simp at hu

/-- C20, witness: on a backend where only the summarizer works, the translation of the
summary to Spanish returns the summary, and the `generateSummary` response has
`translated` equal to `original`. -/
theorem translateText_never_throws_witness :
    (translateText summarizerOnlyBackend (utf16 "Generated text.") "es"
      { World.fresh (Capabilities.withStatuses "available" "available" "available") with
        calls := [.create .summarizer, .summarize 0 (utf16 "Some readable text."),
          .destroy .summarizer 0] }).1 = .ok (utf16 "Generated text.") ∧
    (handleGenerateSummary summarizerOnlyBackend "12:00"
      (some (sampleContent (some (utf16 "Some readable text.")))) (sampleProfile "es")
      (World.fresh (Capabilities.withStatuses "available" "available" "available"))).1 =
      .ok (.summary
        { original := utf16 "Generated text."
          translated := utf16 "Generated text."
          language := "es"
          wordCount := countWords (utf16 "Generated text.")
          generatedAt := "12:00" }) :=
  ⟨(translateText_never_throws summarizerOnlyBackend (utf16 "Generated text.") "es"
      { World.fresh (Capabilities.withStatuses "available" "available" "available") with
        calls := [.create .summarizer, .summarize 0 (utf16 "Some readable text."),
          .destroy .summarizer 0] }).2.2.2.2.1 (by decide)
      (Or.inr ⟨_, _, rfl⟩),
   (translateText_never_throws summarizerOnlyBackend (utf16 "Generated text.") "es"
      { World.fresh (Capabilities.withStatuses "available" "available" "available") with
        calls := [.create .summarizer, .summarize 0 (utf16 "Some readable text."),
          .destroy .summarizer 0] }).2.2.2.2.2 "12:00"
      (some (sampleContent (some (utf16 "Some readable text."))))
      (sampleContent (some (utf16 "Some readable text."))) (sampleProfile "es")
      (World.fresh (Capabilities.withStatuses "available" "available" "available"))
      (by decide) (Or.inl rfl) (by decide) (by decide) rfl (by decide)
      (Or.inr ⟨_, _, rfl⟩)⟩

/-! ## Word count of the worker -/

theorem splitOnP_append_sep (p : Nat → Bool) (c : Nat) (hc : p c = true) (l : JSString) :
    (l ++ [c]).splitOnP p = l.splitOnP p ++ [[]] := by
  induction l with
  | nil => simp [List.splitOnP_cons, hc]
  | cons x xs ih =>
    rw [List.cons_append, List.splitOnP_cons, List.splitOnP_cons, ih]
    by_cases hx : p x = true
    · simp [hx]
    · simp only [hx, Bool.false_eq_true, if_false]
      cases h : xs.splitOnP p with
      | nil => exact absurd h (List.splitOnP_ne_nil p xs)
      | cons piece pieces => simp

/-- Trimming changes the pieces between whitespace units by empty pieces only. -/
theorem splitOnP_trim_filter (q : JSString → Bool) (hq : q [] = false) (s : JSString) :
    ((trim s).splitOnP isSpace).filter q = (s.splitOnP isSpace).filter q := by
  have hleft : ∀ l : JSString,
      ((l.dropWhile isSpace).splitOnP isSpace).filter q = (l.splitOnP isSpace).filter q := by
    intro l
    induction l with
    | nil => rfl
    | cons c cs ih =>
      by_cases hc : isSpace c = true
      · rw [List.dropWhile_cons_of_pos hc, ih, List.splitOnP_cons]
        simp [hc, List.filter_cons, hq]
      · rw [List.dropWhile_cons_of_neg hc]
  have hright : ∀ l : JSString,
      ((l.rdropWhile isSpace).splitOnP isSpace).filter q = (l.splitOnP isSpace).filter q := by
    intro l
    induction l using List.reverseRecOn with
    | nil => rfl
    | append_singleton l c ih =>
      by_cases hc : isSpace c = true
      · rw [List.rdropWhile_concat_pos _ _ _ hc, ih, splitOnP_append_sep isSpace c hc]
        simp [hq]
      · rw [List.rdropWhile_concat_neg _ _ _ hc]
  rw [trim_eq_rdropWhile, hright, hleft]

/-- The word count of the worker is the number of the tokens with a word character. -/
theorem countWords_eq_semanticTokenCount (text : JSString) :
    countWords text = semanticTokenCount text := by
  unfold countWords semanticTokenCount whitespaceTokens replaceMarkup
  by_cases h : text = []
  · subst h; simp
  · rw [if_neg h]
    dsimp only
    rw [splitRuns_filter isSpace _ (by simp), splitOnP_trim_filter _ (by simp),
      List.filter_filter]
    congr 1
    apply List.filter_congr
    intro w _
    rw [Bool.eq_iff_iff]
    simp only [gt_iff_lt, List.length_pos, ne_eq, List.filter_eq_nil_iff, decide_eq_true_eq,
      Bool.and_eq_true, List.any_eq_true, not_forall, Classical.not_imp, not_not]
    constructor
    · rintro ⟨x, hx, hw⟩
      exact ⟨⟨x, hx, hw⟩, List.ne_nil_of_mem hx⟩
    · rintro ⟨⟨x, hx, hw⟩, -⟩
      exact ⟨x, hx, hw⟩

/-- C21: `countWords` of the worker (and of the popup, which has the same body) counts
the semantic tokens.  For every string it returns the number of whitespace-separated
tokens that contain at least one letter `A`..`Z`, `a`..`z`, digit or underscore, after
each `*`, `•` and `-` has been replaced by a space; it returns 0 for the empty string and
for an argument that is not a string; and `countWords("**Bold** text, 3 words!")` is
4. -/
theorem countWords_counts_semantic_tokens :
    (∀ text : JSString, countWordsOf (some text) = semanticTokenCount text) ∧
    countWordsOf (some []) = 0 ∧
    countWordsOf none = 0 ∧
    countWordsOf (some (utf16 "**Bold** text, 3 words!")) = 4 :=
  ⟨fun text => countWords_eq_semanticTokenCount text, by decide, rfl, by decide⟩

/-! ## The local summary -/

/-- The local summary for a content with a `text` object, section by section. -/
theorem generateBasicSummary_eq (content : PageContent) (userProfile : UserProfile)
    (text : TextData) (h : content.text = some text) :
    generateBasicSummary content userProfile = .ok (basicSummaryText content.title text) := by
  have hshort : ∀ paragraph : JSString,
      (if paragraph.length > 200 then paragraph.take 200 ++ utf16 "..." else paragraph) =
        shortenParagraph paragraph := by
    intro paragraph
    unfold shortenParagraph
    by_cases hl : paragraph.length ≤ 200
    · rw [if_pos hl, if_neg (by omega)]
    · rw [if_neg hl, if_pos (by omega)]
  unfold generateBasicSummary basicSummaryText
  simp only [h, foldl_push_flatMap, hshort]
  cases hh : text.headings <;> cases hp : text.paragraphs <;>
    simp [List.append_assoc]

/-- C22: for a content with a `text` object, `generateBasicSummary` returns, without
failing, the header `# Summary of <title>`, then the section "Key Topics" with the texts
of the first min(5, n) headings exactly when there is a heading, then the section "Main
Points" with the first min(3, m) paragraphs, each unchanged if it has at most 200
characters and otherwise cut to 200 characters followed by `'...'`, exactly when there
is a paragraph, then the reading-time and word-count lines.  It is a function of the
content alone; when `generatePersonalizedSummary` falls back to it, no backend call is
made and the state is unchanged. -/
theorem generateBasicSummary_sections (content : PageContent) (userProfile : UserProfile)
    (text : TextData) (h : content.text = some text) :
    generateBasicSummary content userProfile = .ok (basicSummaryText content.title text) ∧
    (text.headings.take 5).length = min 5 text.headings.length ∧
    (text.paragraphs.take 3).length = min 3 text.paragraphs.length ∧
    (∀ paragraph : JSString, paragraph.length ≤ 200 → shortenParagraph paragraph = paragraph) ∧
    (∀ paragraph : JSString, 200 < paragraph.length →
      shortenParagraph paragraph = paragraph.take 200 ++ utf16 "...") ∧
    (∀ (b : Backend) (w : World),
      ¬ (w.aiCapabilities.summarizer = true ∧
        w.aiCapabilities.summarizerStatus = .str "available") →
      ¬ (w.aiCapabilities.languageModel = true ∧
        w.aiCapabilities.languageModelStatus = .str "available") →
      generatePersonalizedSummary b content userProfile w =
        (.ok (basicSummaryText content.title text), w)) := by
  refine ⟨generateBasicSummary_eq content userProfile text h, List.length_take _ _,
    List.length_take _ _, ?_, ?_, ?_⟩
  · intro paragraph hl
    simp [shortenParagraph, hl]
  · intro paragraph hl
    simp [shortenParagraph, Nat.not_le.mpr hl]
  · intro b w hs hl
    rw [generatePersonalizedSummary_eq, summarizerTier_eq, if_neg hs]
    simp only [if_neg hl, generateBasicSummary_eq content userProfile text h]

/-- C22, witness: the local summary of the sample content. -/
theorem generateBasicSummary_sections_witness :
    generateBasicSummary (sampleContent (some (utf16 "Some readable text.")))
        (sampleProfile "en") =
      .ok (basicSummaryText (utf16 "A post")
        { raw := some (utf16 "Some readable text."), paragraphs := [],
          headings := [{ level := 1, text := utf16 "Topic", id := none }],
          readingTime := 1, wordCount := 2 }) :=
  (generateBasicSummary_sections (sampleContent (some (utf16 "Some readable text.")))
    (sampleProfile "en") _ rfl).1

/-! ## The summary prompt -/

/-- The prompt around the embedded text. -/
theorem createSummaryPrompt_text (content : PageContent) (userProfile : UserProfile) :
    ∃ before after : JSString, ∀ text : Option TextData,
      createSummaryPrompt { content with text := text } userProfile =
        before ++ utf16 "Text: " ++ truncatedText { content with text := text } ++
          utf16 "\n\nInstructions:\n" ++ after := by
  refine ⟨
      utf16 "You are an AI assistant helping to create personalized content summaries. " ++
      utf16 "Please create a summary of the following webpage content:\n" ++
      utf16 "\n" ++
      utf16 "User Profile:\n" ++
      utf16 "- Age: " ++
      utf16 (toString userProfile.age) ++
      utf16 " (" ++
      utf16 (getAgeGroup userProfile.age) ++
      utf16 ")\n" ++
      utf16 "- Occupation: " ++
      userProfile.occupation ++
      utf16 "\n" ++
      utf16 "- Education: " ++
      userProfile.education ++
      utf16 "\n" ++
      utf16 "- Summary Style: " ++
      userProfile.summaryStyle ++
      utf16 "\n" ++
      utf16 "- Focus Areas: " ++
      utf16 (getFocusAreas userProfile.contentFocus) ++
      utf16 "\n" ++
      utf16 "\n" ++
      utf16 "Content to Summarize:\n" ++
      utf16 "Title: " ++
      (if content.title = [] then utf16 "No title available" else content.title) ++
      utf16 "\n" ++
      utf16 "URL: " ++
      (if content.url = [] then utf16 "No URL available" else content.url) ++
      utf16 "\n",
      utf16 "1. Create a summary in less than 500 words\n" ++
      utf16 "2. Adapt the language complexity for a " ++
      utf16 (getAgeGroup userProfile.age) ++
      utf16 " with " ++
      userProfile.education ++
      utf16 " education\n" ++
      utf16 "3. Focus on " ++
      utf16 (getFocusAreas userProfile.contentFocus) ++
      utf16 " as requested by the user\n" ++
      utf16 "4. Use a " ++
      userProfile.summaryStyle ++
      utf16 " tone\n" ++
      utf16 "5. Structure the summary with clear headings and bullet points\n" ++
      utf16 "6. Include the most relevant information for someone in " ++
      userProfile.occupation ++
      utf16 "\n" ++
      utf16 "7. Write in English (translation will be handled separately if needed)\n" ++
      utf16 "8. Include titles, major topic about the page, and key points,\n" ++
      utf16 "9. Include what is this \n" ++
      utf16 "8. Make sure the user with the following profile can fully understand the " ++
      utf16 "summary:\n" ++
      utf16 "- Age: " ++
      utf16 (toString userProfile.age) ++
      utf16 " (" ++
      utf16 (getAgeGroup userProfile.age) ++
      utf16 ")\n" ++
      utf16 "- Occupation: " ++
      userProfile.occupation ++
      utf16 "\n" ++
      utf16 "- Education: " ++
      userProfile.education ++
      utf16 "\n" ++
      utf16 "- Summary Style: " ++
      userProfile.summaryStyle ++
      utf16 "\n" ++
      utf16 "- Focus Areas: " ++
      utf16 (getFocusAreas userProfile.contentFocus) ++
      utf16 "\n" ++
      utf16 "\n" ++
      utf16 "Please provide a well-structured, personalized summary that would be most " ++
      utf16 "valuable for this specific user profile.",
    fun text => ?_⟩
  have hmark : utf16 "\n\nInstructions:\n" =
      utf16 "\n" ++ (utf16 "\n" ++ utf16 "Instructions:\n") := by decide
  unfold createSummaryPrompt truncatedText
  simp only [List.append_assoc, hmark]

/-- C23: `getAgeGroup` partitions the integer ages by the thresholds 18, 25, 35 and 50:
the label is `'teenager'` iff age < 18, `'young adult'` iff 18 <= age < 25, `'adult'` iff
25 <= age < 35, `'middle-aged adult'` iff 35 <= age < 50 and `'mature adult'` iff
age >= 50; and the summary prompt for a profile of that age starts with its fixed
opening followed by the line `- Age: <age> (<label>)`. -/
theorem getAgeGroup_partitions (age : Int) (content : PageContent)
    (userProfile : UserProfile) :
    (getAgeGroup age = "teenager" ↔ age < 18) ∧
    (getAgeGroup age = "young adult" ↔ 18 ≤ age ∧ age < 25) ∧
    (getAgeGroup age = "adult" ↔ 25 ≤ age ∧ age < 35) ∧
    (getAgeGroup age = "middle-aged adult" ↔ 35 ≤ age ∧ age < 50) ∧
    (getAgeGroup age = "mature adult" ↔ 50 ≤ age) ∧
    ∃ after : JSString,
      createSummaryPrompt content { userProfile with age := age } =
        utf16 "You are an AI assistant helping to create personalized content summaries. " ++
        (utf16 "Please create a summary of the following webpage content:\n" ++
        (utf16 "\n" ++
        (utf16 "User Profile:\n" ++
        (utf16 "- Age: " ++
        (utf16 (toString age) ++
        (utf16 " (" ++
        (utf16 (getAgeGroup age) ++
        (utf16 ")\n" ++ after)))))))) := by
  refine ⟨?_, ?_, ?_, ?_, ?_,
      utf16 "- Occupation: " ++
      userProfile.occupation ++
      utf16 "\n" ++
      utf16 "- Education: " ++
      userProfile.education ++
      utf16 "\n" ++
      utf16 "- Summary Style: " ++
      userProfile.summaryStyle ++
      utf16 "\n" ++
      utf16 "- Focus Areas: " ++
      utf16 (getFocusAreas userProfile.contentFocus) ++
      utf16 "\n" ++
      utf16 "\n" ++
      utf16 "Content to Summarize:\n" ++
      utf16 "Title: " ++
      (if content.title = [] then utf16 "No title available" else content.title) ++
      utf16 "\n" ++
      utf16 "URL: " ++
      (if content.url = [] then utf16 "No URL available" else content.url) ++
      utf16 "\n" ++
      utf16 "Text: " ++
      truncatedText content ++
      utf16 "\n" ++
      utf16 "\n" ++
      utf16 "Instructions:\n" ++
      utf16 "1. Create a summary in less than 500 words\n" ++
      utf16 "2. Adapt the language complexity for a " ++
      utf16 (getAgeGroup age) ++
      utf16 " with " ++
      userProfile.education ++
      utf16 " education\n" ++
      utf16 "3. Focus on " ++
      utf16 (getFocusAreas userProfile.contentFocus) ++
      utf16 " as requested by the user\n" ++
      utf16 "4. Use a " ++
      userProfile.summaryStyle ++
      utf16 " tone\n" ++
      utf16 "5. Structure the summary with clear headings and bullet points\n" ++
      utf16 "6. Include the most relevant information for someone in " ++
      userProfile.occupation ++
      utf16 "\n" ++
      utf16 "7. Write in English (translation will be handled separately if needed)\n" ++
      utf16 "8. Include titles, major topic about the page, and key points,\n" ++
      utf16 "9. Include what is this \n" ++
      utf16 "8. Make sure the user with the following profile can fully understand the " ++
      utf16 "summary:\n" ++
      utf16 "- Age: " ++
      utf16 (toString age) ++
      utf16 " (" ++
      utf16 (getAgeGroup age) ++
      utf16 ")\n" ++
      utf16 "- Occupation: " ++
      userProfile.occupation ++
      utf16 "\n" ++
      utf16 "- Education: " ++
      userProfile.education ++
      utf16 "\n" ++
      utf16 "- Summary Style: " ++
      userProfile.summaryStyle ++
      utf16 "\n" ++
      utf16 "- Focus Areas: " ++
      utf16 (getFocusAreas userProfile.contentFocus) ++
      utf16 "\n" ++
      utf16 "\n" ++
      utf16 "Please provide a well-structured, personalized summary that would be most " ++
      utf16 "valuable for this specific user profile.", ?_⟩
  iterate 5
    unfold getAgeGroup
    split_ifs <;> simp <;> omega
  unfold createSummaryPrompt truncatedText
  simp only [List.append_assoc]

theorem truncatedText_length (content : PageContent) :
    (truncatedText content).length ≤ 4003 := by
  unfold truncatedText
  dsimp only
  split
  · rw [List.length_append, List.length_take]
    have h3 : (utf16 "...").length = 3 := by decide
    omega
  · omega

/-- C24, as the code has it: the text embedded in the summary prompt, between `Text: `
and the instructions, is the truncation of the text content.  For every content whose
`text.raw` is a non-empty string it is the whole raw text when that has at most 4000
characters, and otherwise the first 4000 characters of the raw text followed by `'...'`;
it never has more than 4003 characters. -/
theorem summaryPrompt_embeds_truncated_raw (content : PageContent) (userProfile : UserProfile)
    (text : TextData) (raw : JSString) (ht : content.text = some text)
    (hr : text.raw = some raw) (hne : raw ≠ []) :
    (∃ before after : JSString, ∀ text : Option TextData,
      createSummaryPrompt { content with text := text } userProfile =
        before ++ utf16 "Text: " ++ truncatedText { content with text := text } ++
          utf16 "\n\nInstructions:\n" ++ after) ∧
    (raw.length ≤ 4000 → truncatedText content = raw) ∧
    (4000 < raw.length → truncatedText content = raw.take 4000 ++ utf16 "...") ∧
    (truncatedText content).length ≤ 4003 := by
  have htc : content.textContent = raw := by
    simp [PageContent.textContent, ht, hr, hne]
  refine ⟨createSummaryPrompt_text content userProfile, ?_, ?_, truncatedText_length content⟩
  · intro hl
    simp only [truncatedText, htc]
    rw [if_neg (by omega)]
  · intro hl
    simp only [truncatedText, htc]
    rw [if_pos hl]

/-- C24, witness: a short raw text is embedded as it is. -/
theorem summaryPrompt_embeds_truncated_raw_witness :
    truncatedText (sampleContent (some (utf16 "Some readable text."))) =
      utf16 "Some readable text." :=
  (summaryPrompt_embeds_truncated_raw (sampleContent (some (utf16 "Some readable text.")))
    (sampleProfile "en") _ (utf16 "Some readable text.") rfl rfl (by decide)).2.1 (by decide)

/-- C24, counterexample: for a content whose `text.raw` is the empty string the
expression `content.text?.raw || content.text || ''` is the `text` object, and the prompt
embeds its string form, not the raw text. -/
theorem summaryPrompt_embeds_text_object_for_empty_raw :
    ((sampleContent (some (utf16 ""))).text.bind fun text => text.raw) = some [] ∧
    truncatedText (sampleContent (some (utf16 ""))) = utf16 "[object Object]" ∧
    ∃ before after : JSString,
      createSummaryPrompt (sampleContent (some (utf16 ""))) (sampleProfile "en") =
        before ++ utf16 "Text: " ++ utf16 "[object Object]" ++
          utf16 "\n\nInstructions:\n" ++ after := by
  have htrunc : truncatedText (sampleContent (some (utf16 ""))) = utf16 "[object Object]" := by
    decide
  obtain ⟨before, after, h⟩ :=
    createSummaryPrompt_text (sampleContent (some (utf16 ""))) (sampleProfile "en")
  refine ⟨by decide, htrunc, before, after, ?_⟩
  rw [← htrunc]
  exact h (sampleContent (some (utf16 ""))).text

/-! ## Questions -/

/-- A request with a question and without a summary. -/
theorem handleAnswerQuestion_without_summary (b : Backend) (now : String)
    (question : JSString) (summary : SummaryArg) (pageContent : Option PageContent)
    (userProfile : UserProfile) (w : World) (hq : question ≠ [])
    (hs : summary.truthy = false) :
    handleAnswerQuestion b now question summary pageContent userProfile w =
      (.ok (.plainFailure
        "Summary is required to answer questions. Please generate a summary first."), w) := by
  simp [handleAnswerQuestion, Run.tryCatch, hq, hs, Run.throw, pure, Run.pure]

/-- A request with a question and a summary when the language model is absent: the
answer is the local one and the state is unchanged. -/
theorem handleAnswerQuestion_local (b : Backend) (now : String)
    (question : JSString) (summary : SummaryArg) (pageContent : Option PageContent)
    (userProfile : UserProfile) (w : World) (hq : question ≠ [])
    (hs : summary.truthy = true) (hl : w.aiCapabilities.languageModel = false) :
    handleAnswerQuestion b now question summary pageContent userProfile w =
      (.ok (.answer (generateBasicAnswer b.toLowerCase question summary) question now), w) := by
  simp [handleAnswerQuestion, generateAnswer, Run.tryCatch, hq, hs, hl, Run.throw, pure,
    Run.pure, bind, Run.bind, getCapabilities]

/-- C25: an `answerQuestion` request with a non-empty question and without a summary
(absent, `null` or the empty string) is answered with `{success: false, error}`, where
the error starts with `'Summary is required'`; the state is the one before the request,
so the language model is not called, and no answer is synthesized. -/
theorem answerQuestion_requires_summary (b : Backend) (now : String)
    (question : JSString) (summary : SummaryArg) (pageContent : Option PageContent)
    (userProfile : UserProfile) (w : World) (hq : question ≠ [])
    (hs : summary = .absent ∨ summary = .text []) :
    handleAnswerQuestion b now question summary pageContent userProfile w =
      (.ok (.plainFailure
        "Summary is required to answer questions. Please generate a summary first."), w) ∧
    "Summary is required to answer questions. Please generate a summary first." =
      "Summary is required" ++ " to answer questions. Please generate a summary first." := by
  refine ⟨handleAnswerQuestion_without_summary b now question summary pageContent userProfile
    w hq ?_, by decide⟩
  rcases hs with hs | hs <;> subst hs <;> rfl

/-- C25, witness: a question before any summary, on a backend where every call
succeeds. -/
theorem answerQuestion_requires_summary_witness :
    handleAnswerQuestion steadyBackend "12:00" (utf16 "What is this page about?") .absent
        (some (sampleContent (some (utf16 "Some readable text.")))) (sampleProfile "en")
        (World.fresh (Capabilities.withStatuses "available" "available" "available")) =
      (.ok (.plainFailure
        "Summary is required to answer questions. Please generate a summary first."),
        World.fresh (Capabilities.withStatuses "available" "available" "available")) :=
  (answerQuestion_requires_summary steadyBackend "12:00" (utf16 "What is this page about?")
    .absent (some (sampleContent (some (utf16 "Some readable text.")))) (sampleProfile "en")
    (World.fresh (Capabilities.withStatuses "available" "available" "available"))
    (by decide) (Or.inl rfl)).1

theorem toLowerCase_eq_nil (s : JSString) : toLowerCase s = [] ↔ s = [] := by
  constructor
  · intro h
    cases s with
    | nil => rfl
    | cons c cs =>
      exfalso
      have hl : lowerUnit c ≠ [] := by
        unfold lowerUnit
        split_ifs <;> simp
      simp [toLowerCase, List.flatMap_cons, hl] at h
  · rintro rfl
    rfl

/-- For a lower-casing that keeps the empty string empty and a non-empty string
non-empty, the empty sentence shares no word with a question. -/
theorem sharesWord_nil (lower : JSString → JSString) (hnil : lower [] = [])
    (hne : ∀ word : JSString, word ≠ [] → lower word ≠ []) (question : JSString) :
    sharesWord lower question [] = false := by
  unfold sharesWord
  rw [List.any_eq_false]
  intro word _
  by_cases hl : 3 < word.length
  · have hw : lower word ≠ [] := hne word (by
      intro h
      subst h
      simp at hl)
    rw [hnil]
    cases hlw : lower word with
    | nil => exact absurd hlw hw
    | cons a as => simp [includes, stripStart]
  · simp [hl]

/-- The local answer for a question and a summary string, both non-empty. -/
theorem generateBasicAnswer_eq (lower : JSString → JSString) (question summary : JSString)
    (hq : question ≠ []) (hs : summary ≠ []) :
    generateBasicAnswer lower question (.text summary) =
      if hasQuestionKeyword lower question = true ∧
          relevantSentences lower question summary ≠ [] then
        (utf16 ". ").intercalate ((relevantSentences lower question summary).take 2) ++
          utf16 "."
      else notEnoughInformation := by
  have hfilter : (splitRuns isSentenceEnd summary).filter (sharesWord lower question) =
      relevantSentences lower question summary := rfl
  have hfun : (fun sentence : JSString =>
      let lowerSentence := lower sentence
      (question.splitOnP fun u => u == 32).any fun word =>
        decide (word.length > 3) && includes lowerSentence (lower word)) =
      sharesWord lower question := rfl
  unfold generateBasicAnswer
  rw [if_neg hq]
  simp only [if_neg hs, hfun]
  by_cases hk : hasQuestionKeyword lower question = true
  · have hk2 : (questionKeywords.any fun keyword => includes (lower question) keyword)
        = true := hk
    simp only [hk2, if_true, hfilter, hk, true_and]
    by_cases hr : relevantSentences lower question summary = []
    · simp [hr, notEnoughInformation]
    · rw [if_pos (List.length_pos.mpr hr), if_pos hr]
  · have hk2 : ¬ (questionKeywords.any fun keyword => includes (lower question) keyword)
        = true := hk
    simp [hk2, hk, notEnoughInformation]

/-- C26: for every lower-casing function of the engine, a non-empty question and a
non-empty summary string, `generateBasicAnswer` returns the fixed message when the
lower-cased question contains none of what, who, when, where, how, why; otherwise it
returns the first min(2, k) of the k sentences of the summary (its pieces between runs
of `.`, `!`, `?`) that contain, case-insensitively and as a substring, a space-separated
word of the question longer than 3 characters, in the order of the summary, joined by
`'. '` and followed by `'.'`, or the fixed message when no sentence qualifies.  When the
lower-casing keeps the empty string empty and a non-empty string non-empty, as
`String.prototype.toLowerCase` does, the empty pieces never qualify, and the qualifying
sentences are those among the pieces between the single marks. -/
theorem generateBasicAnswer_keyword_overlap (lower : JSString → JSString)
    (question summary : JSString) (hq : question ≠ []) (hs : summary ≠ []) :
    (hasQuestionKeyword lower question = false →
      generateBasicAnswer lower question (.text summary) = notEnoughInformation) ∧
    (hasQuestionKeyword lower question = true →
      relevantSentences lower question summary = [] →
      generateBasicAnswer lower question (.text summary) = notEnoughInformation) ∧
    (hasQuestionKeyword lower question = true →
      relevantSentences lower question summary ≠ [] →
      generateBasicAnswer lower question (.text summary) =
        (utf16 ". ").intercalate ((relevantSentences lower question summary).take 2) ++
          utf16 "." ∧
      ((relevantSentences lower question summary).take 2).length =
        min 2 (relevantSentences lower question summary).length) ∧
    (lower [] = [] → (∀ word : JSString, word ≠ [] → lower word ≠ []) →
      relevantSentences lower question summary =
        (summary.splitOnP isSentenceEnd).filter (sharesWord lower question)) := by
  rw [generateBasicAnswer_eq lower question summary hq hs]
  refine ⟨?_, ?_, ?_, ?_⟩
  · intro hk
    simp [hk]
  · intro hk hr
    simp [hr]
  · intro hk hr
    exact ⟨by rw [if_pos ⟨hk, hr⟩], List.length_take _ _⟩
  · intro hnil hne
    exact splitRuns_filter isSentenceEnd _ (sharesWord_nil lower hnil hne question) summary

/-- C26, witness: with a lower-casing that is exact on the letters `A`..`Z`, one sentence
of the summary shares the word `text` with the question; this lower-casing keeps the
empty string empty and non-empty strings non-empty. -/
theorem generateBasicAnswer_keyword_overlap_witness :
    generateBasicAnswer toLowerCase (utf16 "What text was generated")
      (.text (utf16 "Generated text. More words here.")) = utf16 "Generated text." ∧
    relevantSentences toLowerCase (utf16 "What text was generated")
      (utf16 "Generated text. More words here.") =
      ((utf16 "Generated text. More words here.").splitOnP isSentenceEnd).filter
        (sharesWord toLowerCase (utf16 "What text was generated")) :=
  ⟨((generateBasicAnswer_keyword_overlap toLowerCase (utf16 "What text was generated")
      (utf16 "Generated text. More words here.") (by decide) (by decide)).2.2.1
        (by decide) (by decide)).1.trans (by decide),
   (generateBasicAnswer_keyword_overlap toLowerCase (utf16 "What text was generated")
      (utf16 "Generated text. More words here.") (by decide) (by decide)).2.2.2 rfl
        (fun word hword h => hword ((toLowerCase_eq_nil word).mp h))⟩

/-- The local answer for a summary that is a record: the message for a missing
summary. -/
theorem generateBasicAnswer_record (lower : JSString → JSString) (question : JSString)
    (summary : SummaryRecord) (hq : question ≠ []) :
    generateBasicAnswer lower question (.record summary) = noSummaryAvailable := by
  simp [generateBasicAnswer, hq, noSummaryAvailable]

/-- The popup stores the summary record of a successful response. -/
theorem Popup.generateSummary_stores (b : Backend) (now : String) (popup : Popup) (w : World)
    (summary : SummaryRecord)
    (h : (sendMessage b now (.generateSummary popup.pageContent popup.userProfile) w).1 =
      .summary summary) :
    (Popup.generateSummary b now popup w).1.summaryArg = .record summary := by
  simp [Popup.generateSummary, h, Popup.summaryArg]

/-- A question of the popup about a stored summary record when the language model is
absent: the answer is the message for a missing summary. -/
theorem Popup.askQuestion_record (b : Backend) (now : String) (popup : Popup)
    (input : JSString) (w : World) (summary : SummaryRecord)
    (hs : popup.currentSummary = some summary) (hq : trim input ≠ [])
    (hl : w.aiCapabilities.languageModel = false) :
    Popup.askQuestion b now popup input w =
      (some (.answer noSummaryAvailable (trim input) now), w) := by
  have harg : popup.summaryArg = .record summary := by simp [Popup.summaryArg, hs]
  have hh := handleAnswerQuestion_local b now (trim input) (.record summary)
    popup.pageContent popup.userProfile w hq rfl hl
  rw [generateBasicAnswer_record _ _ _ hq] at hh
  simp [Popup.askQuestion, hq, sendMessage, handleMessage, Run.tryCatch, harg, hh]

/-- C30, on the summary record: the popup stores the record `{original, translated,
language, wordCount, generatedAt}` of the `generateSummary` response and sends it as
`summary`; with the language model absent the worker answers the question `What text was
generated` about the stored summary `Generated text.` with the message for a missing
summary, although the same question about the summary text is answered with its
sentence. -/
theorem question_about_stored_summary_finds_no_summary :
    (Popup.generateSummary steadyBackend "12:00" samplePopup
      (World.fresh summarizerOnlyCapabilities)).1.currentSummary =
      some
        { original := utf16 "Generated text."
          translated := utf16 "Generated text."
          language := "en"
          wordCount := 2
          generatedAt := "12:00" } ∧
    (Popup.askQuestion steadyBackend "12:01"
      (Popup.generateSummary steadyBackend "12:00" samplePopup
        (World.fresh summarizerOnlyCapabilities)).1
      (utf16 "What text was generated")
      (Popup.generateSummary steadyBackend "12:00" samplePopup
        (World.fresh summarizerOnlyCapabilities)).2).1 =
      some (.answer noSummaryAvailable (utf16 "What text was generated") "12:01") ∧
    generateBasicAnswer steadyBackend.toLowerCase (utf16 "What text was generated")
        (.text (utf16 "Generated text.")) =
      utf16 "Generated text." := by
  have h1 : (Popup.generateSummary steadyBackend "12:00" samplePopup
      (World.fresh summarizerOnlyCapabilities)).1.currentSummary =
      some
        { original := utf16 "Generated text."
          translated := utf16 "Generated text."
          language := "en"
          wordCount := 2
          generatedAt := "12:00" } := by decide
  refine ⟨h1, ?_, by decide⟩
  rw [Popup.askQuestion_record steadyBackend "12:01" _ (utf16 "What text was generated") _ _
    h1 (by decide) (by decide)]
  decide

/-! ## Sessions -/

theorem keepsSession_pure {α : Type} (a : α) : KeepsSession (pure a : Run α) :=
  fun _ _ h => h

theorem keepsSession_throw {α : Type} (e : String) : KeepsSession (Run.throw e : Run α) :=
  fun _ _ h => h

theorem keepsSession_bind {α β : Type} {m : Run α} {f : α → Run β} (hm : KeepsSession m)
    (hf : ∀ a, KeepsSession (f a)) : KeepsSession (m >>= f) := by
  intro w session h
  have h1 := hm w session h
  show (Run.bind m f w).2.aiSessions = some session
  unfold Run.bind
  cases hmw : m w with
  | mk r w1 =>
    rw [hmw] at h1
    cases r with
    | ok a => exact hf a w1 session h1
    | error e => exact h1

theorem keepsSession_tryCatch {α : Type} {m : Run α} {handler : String → Run α}
    (hm : KeepsSession m) (hh : ∀ e, KeepsSession (handler e)) :
    KeepsSession (Run.tryCatch m handler) := by
  intro w session h
  have h1 := hm w session h
  unfold Run.tryCatch
  cases hmw : m w with
  | mk r w1 =>
    rw [hmw] at h1
    cases r with
    | ok a => exact h1
    | error e => exact hh e w1 session h1

theorem keepsSession_getCapabilities : KeepsSession getCapabilities :=
  fun _ _ h => h

theorem keepsSession_getSession : KeepsSession getSession :=
  fun _ _ h => h

theorem keepsSession_callCount : KeepsSession callCount :=
  fun _ _ h => h

theorem keepsSession_backendCall {α : Type} (call : Call) (reply : List Call → Result α) :
    KeepsSession (backendCall call reply) :=
  fun _ _ h => h

theorem keepsSession_setStatus (c : Capability) (v : JSValue) :
    KeepsSession (setStatus c v) :=
  fun _ _ h => h

theorem keepsSession_createInstance (b : Backend) (c : Capability) :
    KeepsSession (createInstance b c) := by
  unfold Background.createInstance
  exact keepsSession_bind keepsSession_callCount fun _ =>
    keepsSession_bind (keepsSession_backendCall _ _) fun _ => keepsSession_pure _

theorem keepsSession_downloadModel (b : Backend) (c : Capability) : KeepsSession (downloadModel b c) := by
  unfold Background.downloadModel
  refine keepsSession_tryCatch (keepsSession_bind keepsSession_getCapabilities fun caps => ?_)
    fun e => keepsSession_throw e
  split
  · exact keepsSession_throw _
  · exact keepsSession_bind (keepsSession_createInstance b c) fun _ =>
      keepsSession_bind (keepsSession_setStatus c _) fun _ =>
        keepsSession_bind (keepsSession_backendCall _ _) fun _ => keepsSession_pure _

theorem keepsSession_getOrCreateLanguageModelSession (b : Backend) :
    KeepsSession (getOrCreateLanguageModelSession b) := by
  intro w session h
  simp [Background.getOrCreateLanguageModelSession, Bind.bind, Run.bind,
    Background.getSession, h,
    Pure.pure, Run.pure]

theorem keepsSession_summarizerTier (b : Backend) (content : PageContent) (p : UserProfile) :
    KeepsSession (summarizerTier b content p) := by
  unfold Background.summarizerTier
  repeat' first
    | exact keepsSession_pure _
    | exact keepsSession_getCapabilities
    | exact keepsSession_backendCall _ _
    | exact keepsSession_createInstance _ _
    | refine keepsSession_bind ?_ fun _ => ?_
    | refine keepsSession_tryCatch ?_ fun _ => ?_
    | split

theorem keepsSession_generatePersonalizedSummary (b : Backend) (content : PageContent)
    (p : UserProfile) : KeepsSession (generatePersonalizedSummary b content p) := by
  unfold Background.generatePersonalizedSummary
  repeat' first
    | exact keepsSession_pure _
    | exact keepsSession_throw _
    | exact keepsSession_getCapabilities
    | exact keepsSession_backendCall _ _
    | exact keepsSession_summarizerTier _ _ _
    | exact keepsSession_getOrCreateLanguageModelSession _
    | refine keepsSession_bind ?_ fun _ => ?_
    | refine keepsSession_tryCatch ?_ fun _ => ?_
    | split

theorem keepsSession_translatorTier (b : Backend) (text : JSString) :
    KeepsSession (translatorTier b text) := by
  unfold Background.translatorTier
  repeat' first
    | exact keepsSession_pure _
    | exact keepsSession_getCapabilities
    | exact keepsSession_backendCall _ _
    | exact keepsSession_createInstance _ _
    | refine keepsSession_bind ?_ fun _ => ?_
    | refine keepsSession_tryCatch ?_ fun _ => ?_
    | split

theorem keepsSession_translateText (b : Backend) (text : JSString) (lang : String) :
    KeepsSession (translateText b text lang) := by
  unfold Background.translateText
  repeat' first
    | exact keepsSession_pure _
    | exact keepsSession_getCapabilities
    | exact keepsSession_backendCall _ _
    | exact keepsSession_translatorTier _ _
    | exact keepsSession_getOrCreateLanguageModelSession _
    | refine keepsSession_bind ?_ fun _ => ?_
    | refine keepsSession_tryCatch ?_ fun _ => ?_
    | split

theorem keepsSession_translateSummary (b : Backend) (summary : JSString) (lang : String) :
    KeepsSession (translateSummary b summary lang) := by
  unfold Background.translateSummary
  split
  · exact keepsSession_pure _
  · exact keepsSession_translateText _ _ _

theorem keepsSession_handleGenerateSummary (b : Backend) (now : String)
    (pageContent : Option PageContent) (p : UserProfile) :
    KeepsSession (handleGenerateSummary b now pageContent p) := by
  unfold Background.handleGenerateSummary
  refine keepsSession_tryCatch ?_ fun _ => keepsSession_pure _
  split
  · exact keepsSession_throw _
  · refine keepsSession_bind keepsSession_getCapabilities fun caps => ?_
    split
    · exact keepsSession_pure _
    · dsimp only
      split
      · exact keepsSession_pure _
      · refine keepsSession_bind (keepsSession_generatePersonalizedSummary _ _ _) fun summary => ?_
        refine keepsSession_bind ?_ fun _ => keepsSession_pure _
        split
        · exact keepsSession_translateSummary _ _ _
        · exact keepsSession_pure _

theorem keepsSession_handleTranslateText (b : Backend) (text : JSString) (lang : String) :
    KeepsSession (handleTranslateText b text lang) := by
  unfold Background.handleTranslateText
  repeat' first
    | exact keepsSession_pure _
    | exact keepsSession_throw _
    | exact keepsSession_getCapabilities
    | exact keepsSession_translateText _ _ _
    | refine keepsSession_bind ?_ fun _ => ?_
    | refine keepsSession_tryCatch ?_ fun _ => ?_
    | split

theorem keepsSession_generateAnswer (b : Backend) (question : JSString) (summary : SummaryArg)
    (originalContent : Option PageContent) (p : UserProfile) :
    KeepsSession (generateAnswer b question summary originalContent p) := by
  unfold Background.generateAnswer
  repeat' first
    | exact keepsSession_pure _
    | exact keepsSession_throw _
    | exact keepsSession_getCapabilities
    | exact keepsSession_backendCall _ _
    | exact keepsSession_getOrCreateLanguageModelSession _
    | refine keepsSession_bind ?_ fun _ => ?_
    | refine keepsSession_tryCatch ?_ fun _ => ?_
    | split

theorem keepsSession_handleAnswerQuestion (b : Backend) (now : String) (question : JSString)
    (summary : SummaryArg) (pageContent : Option PageContent) (p : UserProfile) :
    KeepsSession (handleAnswerQuestion b now question summary pageContent p) := by
  unfold Background.handleAnswerQuestion
  refine keepsSession_tryCatch ?_ fun _ => keepsSession_pure _
  dsimp only
  split
  · exact keepsSession_throw _
  · split
    · exact keepsSession_throw _
    · exact keepsSession_bind (keepsSession_generateAnswer _ _ _ _ _) fun _ => keepsSession_pure _

theorem keepsSession_checkAvailability (b : Backend) :
    KeepsSession (checkLanguageModelAvailability b) ∧ KeepsSession (checkSummarizerAvailability b) ∧
      KeepsSession (checkTranslatorAvailability b) := by
  unfold Background.checkLanguageModelAvailability Background.checkSummarizerAvailability
    Background.checkTranslatorAvailability
  refine ⟨?_, ?_, ?_⟩ <;>
  repeat' first
    | exact keepsSession_pure _
    | exact keepsSession_backendCall _ _
    | refine keepsSession_tryCatch ?_ fun _ => ?_
    | split

theorem keepsSession_handleCheckAIAvailability (b : Backend) :
    KeepsSession (handleCheckAIAvailability b) := by
  unfold Background.handleCheckAIAvailability
  repeat' first
    | exact keepsSession_pure _
    | exact keepsSession_getCapabilities
    | exact (keepsSession_checkAvailability b).1
    | exact (keepsSession_checkAvailability b).2.1
    | exact (keepsSession_checkAvailability b).2.2
    | refine keepsSession_bind ?_ fun _ => ?_
    | refine keepsSession_tryCatch ?_ fun _ => ?_
    | split

theorem keepsSession_handleDownloadModel (b : Backend) (modelType : Option String) :
    KeepsSession (handleDownloadModel b modelType) := by
  unfold Background.handleDownloadModel Background.downloadSummarizerModel
    Background.downloadTranslatorModel Background.downloadLanguageModel
  repeat' first
    | exact keepsSession_pure _
    | exact keepsSession_throw _
    | exact keepsSession_downloadModel _ _
    | refine keepsSession_bind ?_ fun _ => ?_
    | refine keepsSession_tryCatch ?_ fun _ => ?_
    | split

theorem keepsSession_handleMessage (b : Backend) (now : String) (request : Request) :
    KeepsSession (handleMessage b now request) := by
  unfold Background.handleMessage
  refine keepsSession_tryCatch ?_ fun _ => keepsSession_pure _
  cases request with
  | generateSummary pageContent p => exact keepsSession_handleGenerateSummary _ _ _ _
  | translateText text lang => exact keepsSession_handleTranslateText _ _ _
  | answerQuestion q s pc p => exact keepsSession_handleAnswerQuestion _ _ _ _ _ _
  | checkAIAvailability => exact keepsSession_handleCheckAIAvailability _
  | downloadModel m => exact keepsSession_handleDownloadModel _ _
  | other => exact keepsSession_pure _

/-- Over any sequence of messages a stored session stays stored. -/
theorem handleMessages_keepsSession (b : Backend) (messages : List (String × Request)) :
    ∀ (w : World) (session : Nat), w.aiSessions = some session →
      (handleMessages b messages w).2.aiSessions = some session := by
  induction messages with
  | nil => intro w session h; exact h
  | cons m rest ih =>
    intro w session h
    obtain ⟨now, request⟩ := m
    exact ih _ session (keepsSession_handleMessage b now request w session h)

/-- A stored session is returned without any call. -/
theorem getOrCreateLanguageModelSession_stored (b : Backend) (w : World) (session : Nat)
    (h : w.aiSessions = some session) :
    getOrCreateLanguageModelSession b w = (.ok session, w) := by
  simp [getOrCreateLanguageModelSession, bind, Run.bind, getSession, h, pure, Run.pure]

/-- The creation of the session when none is stored, step by step. -/
theorem getOrCreateLanguageModelSession_create (b : Backend) (w : World)
    (h : w.aiSessions = none) :
    getOrCreateLanguageModelSession b w =
      if w.aiCapabilities.languageModelStatus = .str "downloadable" then
        (.error ("Failed to create language model session: " ++
          "Model download required - user activation needed"), w)
      else
        match b.unitReply (w.calls ++ [.create .languageModel]) with
        | .ok _ =>
          (.ok w.calls.length,
            { w with calls := w.calls ++ [.create .languageModel]
                     aiSessions := some w.calls.length })
        | .error e =>
          (.error ("Failed to create language model session: " ++ e),
            { w with calls := w.calls ++ [.create .languageModel] }) := by
  by_cases hd : w.aiCapabilities.languageModelStatus = .str "downloadable"
  · simp [getOrCreateLanguageModelSession, bind, Run.bind, getSession, h, Run.tryCatch,
      getCapabilities, hd, Run.throw]
  · rw [if_neg hd]
    cases h1 : b.unitReply (w.calls ++ [.create .languageModel]) <;>
      simp [getOrCreateLanguageModelSession, bind, Run.bind, getSession, h, Run.tryCatch,
        getCapabilities, hd, Run.throw, createInstance, callCount, backendCall, h1,
        setSession, pure, Run.pure, Run.ite_apply]

/-- C28: the creation of the language-model session is idempotent.  Once
`getOrCreateLanguageModelSession` has returned a session, the session is stored, and
after any further messages a call returns the same session in an unchanged state, so
without a backend call.  When the call throws, which it does when no session is stored
and the status of the language model is `'downloadable'` or `create` throws, the error
starts with `'Failed to create language model session: '` and no session is stored
afterwards. -/
theorem languageModelSession_created_once (b : Backend) (w : World) :
    (∀ session, (getOrCreateLanguageModelSession b w).1 = .ok session →
      (getOrCreateLanguageModelSession b w).2.aiSessions = some session ∧
      ∀ messages : List (String × Request),
        getOrCreateLanguageModelSession b
            (handleMessages b messages (getOrCreateLanguageModelSession b w).2).2 =
          (.ok session,
            (handleMessages b messages (getOrCreateLanguageModelSession b w).2).2)) ∧
    (∀ message, (getOrCreateLanguageModelSession b w).1 = .error message →
      (getOrCreateLanguageModelSession b w).2.aiSessions = none ∧
      ∃ cause, message = "Failed to create language model session: " ++ cause) ∧
    (w.aiSessions = none → w.aiCapabilities.languageModelStatus = .str "downloadable" →
      getOrCreateLanguageModelSession b w =
        (.error ("Failed to create language model session: " ++
          "Model download required - user activation needed"), w)) ∧
    (w.aiSessions = none → w.aiCapabilities.languageModelStatus ≠ .str "downloadable" →
      ∀ cause, b.unitReply (w.calls ++ [.create .languageModel]) = .error cause →
        getOrCreateLanguageModelSession b w =
          (.error ("Failed to create language model session: " ++ cause),
            { w with calls := w.calls ++ [.create .languageModel] })) := by
  have hstored : ∀ session, (getOrCreateLanguageModelSession b w).1 = .ok session →
      (getOrCreateLanguageModelSession b w).2.aiSessions = some session := by
    intro session h
    cases hs : w.aiSessions with
    | some stored =>
      rw [getOrCreateLanguageModelSession_stored b w stored hs] at h ⊢
      simp only [Result.ok.injEq] at h
      rw [← h]
      exact hs
    | none =>
      rw [getOrCreateLanguageModelSession_create b w hs] at h ⊢
      split at h
      · simp at h
      · rw [if_neg (by assumption)]
        split at h
        · simp only [Result.ok.injEq] at h
          simp [*]
        · simp at h
  refine ⟨fun session h => ⟨hstored session h, fun messages => ?_⟩, ?_, ?_, ?_⟩
  · exact getOrCreateLanguageModelSession_stored b _ session
      (handleMessages_keepsSession b messages _ session (hstored session h))
  · intro message h
    cases hs : w.aiSessions with
    | some stored =>
      rw [getOrCreateLanguageModelSession_stored b w stored hs] at h
      simp at h
    | none =>
      rw [getOrCreateLanguageModelSession_create b w hs] at h ⊢
      split at h
      · rw [if_pos (by assumption)]
        simp only [Result.error.injEq] at h
        exact ⟨hs, _, h.symm⟩
      · rw [if_neg (by assumption)]
        split at h
        · simp at h
        · simp only [Result.error.injEq] at h
          refine ⟨?_, _, h.symm⟩
          simp [*]
  · intro hs hd
    rw [getOrCreateLanguageModelSession_create b w hs, if_pos hd]
  · intro hs hd cause hc
    rw [getOrCreateLanguageModelSession_create b w hs, if_neg hd, hc]

/-- C28, witness: after a first call that creates the session 0 and a translation
request, the next call returns the session 0. -/
theorem languageModelSession_created_once_witness :
    (getOrCreateLanguageModelSession steadyBackend
      (handleMessages steadyBackend [("12:00", .translateText (utf16 "Good morning") "es")]
        (getOrCreateLanguageModelSession steadyBackend
          (World.fresh (Capabilities.withStatuses "available" "available" "available"))
          ).2).2).1 = .ok 0 :=
  congrArg Prod.fst
    (((languageModelSession_created_once steadyBackend
      (World.fresh (Capabilities.withStatuses "available" "available" "available"))).1 0
      (by decide)).2 [("12:00", .translateText (utf16 "Good morning") "es")])

/-! ## Release of one-off instances -/

/-- When `summarize` throws on a created summarizer, the tier ends without a `destroy`. -/
theorem summarizerTier_summarize_throws (b : Backend) (content : PageContent)
    (userProfile : UserProfile) (w : World) (message : String)
    (hs : w.aiCapabilities.summarizer = true)
    (hst : w.aiCapabilities.summarizerStatus = .str "available")
    (h1 : b.unitReply (w.calls ++ [.create .summarizer]) = .ok ())
    (h2 : b.textReply (w.calls ++
      [.create .summarizer, .summarize w.calls.length content.textContent]) = .error message) :
    summarizerTier b content userProfile w =
      (.ok none, { w with calls := w.calls ++
        [.create .summarizer, .summarize w.calls.length content.textContent] }) := by
  rw [summarizerTier_eq, if_pos ⟨hs, hst⟩, h1]
  simp only [h2]

/-- When `translate` throws on a created translator, the tier ends without a `destroy`. -/
theorem translatorTier_translate_throws (b : Backend) (text : JSString) (w : World)
    (message : String) (hs : w.aiCapabilities.translator = true)
    (hst : w.aiCapabilities.translatorStatus = .str "available")
    (h1 : b.unitReply (w.calls ++ [.create .translator]) = .ok ())
    (h2 : b.textReply (w.calls ++ [.create .translator, .translate w.calls.length text]) =
      .error message) :
    translatorTier b text w =
      (.ok none, { w with calls := w.calls ++
        [.create .translator, .translate w.calls.length text] }) := by
  rw [translatorTier_eq, if_pos ⟨hs, hst⟩, h1]
  simp only [h2]

/-- C27, when the call throws: on a backend where `create` succeeds and `summarize` and
`translate` throw, with the summarizer and the translator available and the language
model not, `generatePersonalizedSummary` returns the local summary and `translateText`
returns its input after the calls `create` and `summarize`, respectively `create` and
`translate`, and nothing else: the created instance is not destroyed. -/
theorem instance_not_destroyed_when_call_throws (content : PageContent)
    (userProfile : UserProfile) (text : JSString) (targetLanguage : String) :
    generatePersonalizedSummary textFailsBackend content userProfile
        (World.fresh (Capabilities.withStatuses "unavailable" "available" "available")) =
      (match generateBasicSummary content userProfile with
        | .ok summary => .ok summary
        | .error message => .error ("Failed to generate summary: " ++ message),
       { World.fresh (Capabilities.withStatuses "unavailable" "available" "available") with
         calls := [.create .summarizer, .summarize 0 content.textContent] }) ∧
    translateText textFailsBackend text targetLanguage
        (World.fresh (Capabilities.withStatuses "unavailable" "available" "available")) =
      (.ok text,
       { World.fresh (Capabilities.withStatuses "unavailable" "available" "available") with
         calls := [.create .translator, .translate 0 text] }) := by
  constructor
  · rw [generatePersonalizedSummary_eq,
      summarizerTier_summarize_throws textFailsBackend content userProfile _ "text call failed"
        rfl rfl rfl rfl]
    rfl
  · rw [translateText_eq,
      translatorTier_translate_throws textFailsBackend text _ "text call failed"
        rfl rfl rfl rfl]
    rfl

/-! ## Failure of the language-model tier -/

/-- C29: the fall-through from the summarizer is the only fallback of the generation.
For a `generateSummary` request with valid content and an empty download plan in which
the summarizer tier yields nothing (the summarizer is not available or one of its calls
failed) and the language model is present with status `'available'`: if the creation of
the session or the prompt call throws, the response is `{success: false, error}` with
the error `'Failed to generate summary: '` followed by the error thrown, and no local
summary is produced. -/
theorem languageModel_failure_fails_generateSummary (b : Backend) (now : String)
    (pageContent : Option PageContent) (content : PageContent) (userProfile : UserProfile)
    (w w2 : World) (message : String)
    (hv : validateContent pageContent = .ok content)
    (hplan : downloadableModels w.aiCapabilities = [])
    (ht : (summarizerTier b content userProfile w).1 = .ok none)
    (hl : w.aiCapabilities.languageModel = true)
    (hls : w.aiCapabilities.languageModelStatus = .str "available")
    (hfail :
      (do
        let session ← getOrCreateLanguageModelSession b
        backendCall (.prompt session (createSummaryPrompt content userProfile)) b.textReply :
        Run JSString) (summarizerTier b content userProfile w).2 = (.error message, w2)) :
    handleGenerateSummary b now pageContent userProfile w =
      (.ok (.plainFailure ("Failed to generate summary: " ++ message)), w2) := by
  have hg : generatePersonalizedSummary b content userProfile w =
      (.error ("Failed to generate summary: " ++ message), w2) := by
    rw [generatePersonalizedSummary_eq, ht]
    simp only [hl, hls, and_self, if_true, Run.tryCatch, hfail, Run.throw]
  rw [handleGenerateSummary_generate b now pageContent content userProfile w hv (Or.inr hl)
    hplan, hg]

/-- C29, witness: the summarizer is unavailable, the language model is available and its
prompt call throws. -/
theorem languageModel_failure_fails_generateSummary_witness :
    (handleGenerateSummary textFailsBackend "12:00"
      (some (sampleContent (some (utf16 "Some readable text.")))) (sampleProfile "en")
      (World.fresh (Capabilities.withStatuses "available" "unavailable" "unavailable"))).1 =
      .ok (.plainFailure "Failed to generate summary: text call failed") :=
  congrArg Prod.fst
    (languageModel_failure_fails_generateSummary textFailsBackend "12:00"
      (some (sampleContent (some (utf16 "Some readable text."))))
      (sampleContent (some (utf16 "Some readable text."))) (sampleProfile "en")
      (World.fresh (Capabilities.withStatuses "available" "unavailable" "unavailable")) _
      "text call failed" (by decide) (by decide) (by decide) rfl rfl rfl)

end Background

end WebBriefer
